import Mathlib

/-!
# Command Processor: command arbitration core

A shallow embedding of the C++ command pipeline under `src/Command_Processor`
(`types.h`, `latest_command_slot.cpp`, `priority_selector.cpp`,
`command_validator.cpp`, `command_intake.cpp`, `command_forwarder.cpp`,
`safety_watchdog.cpp`, `command_processor.cpp`).

Conventions of the embedding.

* Every object is a value and every member function takes the object and
  returns the updated one (explicit state passing).
* `std::chrono::steady_clock::now()` is an input: a function that reads the
  clock takes the reading as the parameter `now`.  A member function that reads
  the clock several times is given one reading for all of them, except for the
  forwarder loop: an iteration of it is given the reading at its start, the one of
  `select()`, the one of `feed()` inside the callback, the one it stores in
  `last_forward_time`, and the one at its end.
* Time points and durations of `steady_clock` are integers counting clock
  ticks of one nanosecond; `std::chrono::milliseconds` values are integers
  counting milliseconds.
* `uint64_t` counters wrap modulo `2 ^ 64`; a `uint64_t` that is only stored
  and compared (a sequence number) is a natural number.
* `float` values are `F32`: an exact rational for a finite value, the two
  infinities and NaN.  Only comparisons and `std::abs` are applied to them in
  the code, and these are exact.
* A `std::function` member is represented by whether it holds a target, and the
  calls made through the external callbacks and the `Logger` interface are
  recorded in traces.
* A smart pointer that is null until `initialize()` is an `Option`; an
  operation that dereferences a null pointer has no result (`none`).
-/

namespace command_processor

/-! ## types.h -/

/-- A `steady_clock::time_point`, and a `steady_clock::duration`, in ticks of one nanosecond. -/
abbrev TimePoint := Int

/-- Number of `steady_clock` ticks in one millisecond. -/
def TICKS_PER_MS : Int := 1000000

/-- The cast `std::chrono::duration_cast<std::chrono::milliseconds>(d).count()`:
the quotient truncated toward zero. -/
def duration_cast_ms (d : Int) : Int := Int.tdiv d TICKS_PER_MS

/-- The cast `std::chrono::duration_cast<std::chrono::microseconds>(d).count()`. -/
def duration_cast_us (d : Int) : Int := Int.tdiv d 1000

def COMMAND_FORWARD_PERIOD_MS : Int := 10
def WATCHDOG_TIMEOUT_MS : Int := 200
def COMMAND_FRESHNESS_TIMEOUT_MS : Int := 200
def MAX_LATENCY_TARGET_MS : Int := 100

/-- Modulus of `uint64_t` arithmetic. -/
def UINT64_MOD : Nat := 2 ^ 64

/-- Modulus of `uint32_t` arithmetic. -/
def UINT32_MOD : Nat := 2 ^ 32

/-- The increment `x++` of a `uint64_t`. -/
def u64_inc (x : Nat) : Nat := (x + 1) % UINT64_MOD

/-- The enumeration `enum class CommandSource : uint8_t`. -/
inductive CommandSource
  | SAFETY
  | MANUAL
  | REMOTE
  | AUTONOMOUS
  | NONE
  deriving DecidableEq, Repr

/-- The underlying value of a `CommandSource`, as `static_cast<size_t>` gives it. -/
def CommandSource.toNat : CommandSource → Nat
  | .SAFETY => 0
  | .MANUAL => 1
  | .REMOTE => 2
  | .AUTONOMOUS => 3
  | .NONE => 255

/-- The enumeration `enum class ValidationResult : uint8_t`. -/
inductive ValidationResult
  | VALID
  | INVALID_STRUCTURE
  | STALE_TIMESTAMP
  | INVALID_SEQUENCE
  | OUT_OF_RANGE
  deriving DecidableEq, Repr

/-- The enumeration `enum class SystemState : uint8_t`. -/
inductive SystemState
  | INITIALIZING
  | NORMAL_OPERATION
  | SAFE_MODE
  | EMERGENCY_STOP
  | FAULT
  deriving DecidableEq, Repr

/-- A `float`: NaN, an infinity, or a finite value given exactly. -/
inductive F32
  | nan
  | ninf
  | fin (q : ℚ)
  | pinf
  deriving DecidableEq

/-- The comparison `a < b` of two `float`s: false when an operand is NaN. -/
def F32.lt : F32 → F32 → Bool
  | .nan, _ => false
  | _, .nan => false
  | .ninf, .ninf => false
  | .ninf, _ => true
  | .fin _, .ninf => false
  | .fin a, .fin b => decide (a < b)
  | .fin _, .pinf => true
  | .pinf, _ => false

/-- The comparison `a > b` of two `float`s. -/
def F32.gt (a b : F32) : Bool := F32.lt b a

/-- The function `std::abs` on a `float`. -/
def F32.abs : F32 → F32
  | .nan => .nan
  | .ninf => .pinf
  | .fin q => .fin |q|
  | .pinf => .pinf

/-- The structure `Command::SensorData`. -/
structure SensorData where
  steering_angle : F32
  speed : F32
  acceleration : F32
  brake_engaged : Bool
  deriving DecidableEq

/-- The structure `Command`. -/
structure Command where
  source : CommandSource
  sequence_number : Nat
  timestamp : TimePoint
  sensor_data : SensorData
  deriving DecidableEq

/-- The structure `ValidationMetadata`. -/
structure ValidationMetadata where
  result : ValidationResult
  reason : String
  validation_time : TimePoint
  deriving DecidableEq

def command_source_to_string : CommandSource → String
  | .SAFETY => "SAFETY"
  | .MANUAL => "MANUAL"
  | .REMOTE => "REMOTE"
  | .AUTONOMOUS => "AUTONOMOUS"
  | .NONE => "NONE"

def validation_result_to_string : ValidationResult → String
  | .VALID => "VALID"
  | .INVALID_STRUCTURE => "INVALID_STRUCTURE"
  | .STALE_TIMESTAMP => "STALE_TIMESTAMP"
  | .INVALID_SEQUENCE => "INVALID_SEQUENCE"
  | .OUT_OF_RANGE => "OUT_OF_RANGE"

/-! ## latest_command_slot.h, latest_command_slot.cpp -/

/-- The constant `LatestCommandSlot::NUM_SOURCES`. -/
abbrev NUM_SOURCES : Nat := 4

/-- The class `LatestCommandSlot`: the array `slots_` of optional commands. -/
structure LatestCommandSlot where
  slots_ : Fin NUM_SOURCES → Option Command

namespace LatestCommandSlot

/-- The constructor: all slots empty. -/
def new : LatestCommandSlot := ⟨fun _ => none⟩

def store (self : LatestCommandSlot) (cmd : Command) : LatestCommandSlot :=
  let index := cmd.source.toNat
  if h : index ≥ NUM_SOURCES then
    self
  else
    ⟨Function.update self.slots_ ⟨index, Nat.lt_of_not_ge h⟩ (some cmd)⟩

def is_fresh (cmd : Command) (now : TimePoint) : Bool :=
  let age_ms := duration_cast_ms (now - cmd.timestamp)
  decide (age_ms ≤ COMMAND_FRESHNESS_TIMEOUT_MS)

def get (self : LatestCommandSlot) (source : CommandSource) (now : TimePoint) :
    Option Command :=
  let index := source.toNat
  if h : index ≥ NUM_SOURCES then
    none
  else
    match self.slots_ ⟨index, Nat.lt_of_not_ge h⟩ with
    | none => none
    | some cmd => if !is_fresh cmd now then none else some cmd

def has_valid_command (self : LatestCommandSlot) (source : CommandSource)
    (now : TimePoint) : Bool :=
  (self.get source now).isSome

def clear (self : LatestCommandSlot) (source : CommandSource) : LatestCommandSlot :=
  let index := source.toNat
  if h : index ≥ NUM_SOURCES then
    self
  else
    ⟨Function.update self.slots_ ⟨index, Nat.lt_of_not_ge h⟩ none⟩

def clear_all (_self : LatestCommandSlot) : LatestCommandSlot :=
  ⟨fun _ => none⟩

def get_command_age_ms (self : LatestCommandSlot) (source : CommandSource)
    (now : TimePoint) : Nat :=
  let index := source.toNat
  if h : index ≥ NUM_SOURCES then
    UINT32_MOD - 1
  else
    match self.slots_ ⟨index, Nat.lt_of_not_ge h⟩ with
    | none => UINT32_MOD - 1
    | some cmd => (duration_cast_ms (now - cmd.timestamp) % (UINT32_MOD : Int)).toNat

end LatestCommandSlot

/-! ## priority_selector.h, priority_selector.cpp -/

/-- The structure `PrioritySelector::Statistics`. -/
structure PrioritySelector.Statistics where
  selections_made : Nat
  safety_selections : Nat
  manual_selections : Nat
  remote_selections : Nat
  autonomous_selections : Nat
  no_valid_command_count : Nat
  last_selected_source : CommandSource
  deriving DecidableEq

/-- The class `PrioritySelector`.  Its `command_slot_` is the slot object shared with
the processor, which the member functions take as a parameter. -/
structure PrioritySelector where
  active_source_ : CommandSource
  stats_ : PrioritySelector.Statistics
  deriving DecidableEq

namespace PrioritySelector

/-- The constructor. -/
def new : PrioritySelector :=
  { active_source_ := .NONE
    stats_ :=
      { selections_made := 0, safety_selections := 0, manual_selections := 0,
        remote_selections := 0, autonomous_selections := 0,
        no_valid_command_count := 0, last_selected_source := .NONE } }

def select_by_priority (command_slot_ : LatestCommandSlot) (now : TimePoint) :
    Option Command :=
  match command_slot_.get .SAFETY now with
  | some cmd => some cmd
  | none =>
    match command_slot_.get .MANUAL now with
    | some cmd => some cmd
    | none =>
      match command_slot_.get .REMOTE now with
      | some cmd => some cmd
      | none =>
        match command_slot_.get .AUTONOMOUS now with
        | some cmd => some cmd
        | none => none

def select (self : PrioritySelector) (command_slot_ : LatestCommandSlot)
    (now : TimePoint) : Option Command × PrioritySelector :=
  let stats := { self.stats_ with selections_made := u64_inc self.stats_.selections_made }
  match select_by_priority command_slot_ now with
  | none =>
    (none,
      { active_source_ := .NONE
        stats_ := { stats with
          no_valid_command_count := u64_inc stats.no_valid_command_count,
          last_selected_source := .NONE } })
  | some selected =>
    let stats := { stats with last_selected_source := selected.source }
    let stats :=
      match selected.source with
      | .SAFETY => { stats with safety_selections := u64_inc stats.safety_selections }
      | .MANUAL => { stats with manual_selections := u64_inc stats.manual_selections }
      | .REMOTE => { stats with remote_selections := u64_inc stats.remote_selections }
      | .AUTONOMOUS =>
        { stats with autonomous_selections := u64_inc stats.autonomous_selections }
      | .NONE => stats
    (some selected, { active_source_ := selected.source, stats_ := stats })

def get_active_source (self : PrioritySelector) : CommandSource := self.active_source_

def get_statistics (self : PrioritySelector) : Statistics := self.stats_

def reset_statistics (self : PrioritySelector) : PrioritySelector :=
  { self with
    stats_ :=
      { selections_made := 0, safety_selections := 0, manual_selections := 0,
        remote_selections := 0, autonomous_selections := 0,
        no_valid_command_count := 0, last_selected_source := .NONE } }

end PrioritySelector

/-! ## command_validator.h, command_validator.cpp -/

/-- The structure `CommandValidator::Config`. -/
structure CommandValidator.Config where
  freshness_timeout_ms : Int
  max_steering_angle : F32
  max_speed : F32
  max_acceleration : F32
  deriving DecidableEq

/-- The default member initializers of `CommandValidator::Config`. -/
def CommandValidator.Config.default : CommandValidator.Config :=
  { freshness_timeout_ms := COMMAND_FRESHNESS_TIMEOUT_MS
    max_steering_angle := .fin 45
    max_speed := .fin 30
    max_acceleration := .fin 5 }

/-- The class `CommandValidator`; `last_sequence_numbers_` is the
`std::unordered_map<CommandSource, uint64_t>`, `none` for a key that is absent. -/
structure CommandValidator where
  config_ : CommandValidator.Config
  last_sequence_numbers_ : CommandSource → Option Nat

namespace CommandValidator

/-- The constructor. -/
def new : CommandValidator :=
  { config_ := Config.default, last_sequence_numbers_ := fun _ => none }

def is_timestamp_fresh (self : CommandValidator) (timestamp : TimePoint)
    (now : TimePoint) : Bool :=
  let age_ms := duration_cast_ms (now - timestamp)
  decide (age_ms ≤ self.config_.freshness_timeout_ms)

def is_sequence_valid (self : CommandValidator) (source : CommandSource)
    (sequence_number : Nat) : Bool × CommandValidator :=
  match self.last_sequence_numbers_ source with
  | none =>
    (true, { self with
      last_sequence_numbers_ :=
        Function.update self.last_sequence_numbers_ source (some sequence_number) })
  | some last =>
    if sequence_number ≤ last then
      (false, self)
    else
      (true, { self with
        last_sequence_numbers_ :=
          Function.update self.last_sequence_numbers_ source (some sequence_number) })

def is_sensor_data_valid (self : CommandValidator) (data : SensorData) : Bool :=
  if F32.gt (F32.abs data.steering_angle) self.config_.max_steering_angle then
    false
  else if F32.lt data.speed (.fin 0) || F32.gt data.speed self.config_.max_speed then
    false
  else if F32.gt (F32.abs data.acceleration) self.config_.max_acceleration then
    false
  else
    true

def validate (self : CommandValidator) (cmd : Command) (now : TimePoint) :
    ValidationMetadata × CommandValidator :=
  let metadata : ValidationMetadata :=
    { validation_time := now, result := .VALID, reason := "Valid" }
  if !self.is_timestamp_fresh cmd.timestamp now then
    ({ metadata with
        result := .STALE_TIMESTAMP, reason := "Command timestamp is stale" }, self)
  else
    let checked := self.is_sequence_valid cmd.source cmd.sequence_number
    if !checked.1 then
      ({ metadata with
          result := .INVALID_SEQUENCE,
          reason := "Sequence number invalid or out of order" }, checked.2)
    else if !checked.2.is_sensor_data_valid cmd.sensor_data then
      ({ metadata with
          result := .OUT_OF_RANGE,
          reason := "Sensor data out of acceptable range" }, checked.2)
    else
      (metadata, checked.2)

def set_config (self : CommandValidator) (config : Config) : CommandValidator :=
  { self with config_ := config }

def get_config (self : CommandValidator) : Config := self.config_

def reset (self : CommandValidator) : CommandValidator :=
  { self with last_sequence_numbers_ := fun _ => none }

end CommandValidator

/-! ## command_intake.h, command_intake.cpp -/

/-- The structure `CommandIntake::Statistics`. -/
structure CommandIntake.Statistics where
  commands_received : Nat
  commands_normalized : Nat
  last_received_time : TimePoint
  deriving DecidableEq

/-- The class `CommandIntake`; `command_callback_` tells whether a callback is registered. -/
structure CommandIntake where
  command_callback_ : Bool
  stats_ : CommandIntake.Statistics
  deriving DecidableEq

namespace CommandIntake

/-- The (defaulted) constructor, with the member initializer of `stats_`. -/
def new (now : TimePoint) : CommandIntake :=
  { command_callback_ := false
    stats_ := { commands_received := 0, commands_normalized := 0, last_received_time := now } }

def set_command_callback (self : CommandIntake) : CommandIntake :=
  { self with command_callback_ := true }

def normalize_command (source : CommandSource) (raw_data : SensorData)
    (sequence_number : Nat) (now : TimePoint) : Command :=
  { source := source, sequence_number := sequence_number, timestamp := now,
    sensor_data := raw_data }

/-- The member `receive_command`: returns the updated intake and the command the
registered callback is invoked with (`none` when no callback is registered). -/
def receive_command (self : CommandIntake) (source : CommandSource)
    (raw_data : SensorData) (sequence_number : Nat) (now : TimePoint) :
    CommandIntake × Option Command :=
  let normalized_cmd := normalize_command source raw_data sequence_number now
  let self' : CommandIntake :=
    { self with
      stats_ :=
        { commands_received := u64_inc self.stats_.commands_received
          last_received_time := now
          commands_normalized := u64_inc self.stats_.commands_normalized } }
  (self', if self.command_callback_ then some normalized_cmd else none)

def get_statistics (self : CommandIntake) : Statistics := self.stats_

end CommandIntake

/-! ## safety_watchdog.h, safety_watchdog.cpp -/

/-- The structure `SafetyWatchdog::Config`. -/
structure SafetyWatchdog.Config where
  heartbeat_period_ms : Int
  deriving DecidableEq

/-- The structure `SafetyWatchdog::Statistics`. -/
structure SafetyWatchdog.Statistics where
  heartbeats_sent : Nat
  feeds_received : Nat
  time_since_last_feed_ms : Nat
  deriving DecidableEq

/-- The class `SafetyWatchdog`; `heartbeat_callback_` tells whether the callback
given to `start` holds a target. -/
structure SafetyWatchdog where
  heartbeat_callback_ : Bool
  running_ : Bool
  last_feed_time_ : TimePoint
  config_ : SafetyWatchdog.Config
  stats_ : SafetyWatchdog.Statistics
  deriving DecidableEq

namespace SafetyWatchdog

/-- The constructor. -/
def new (now : TimePoint) : SafetyWatchdog :=
  { heartbeat_callback_ := false
    running_ := false
    last_feed_time_ := now
    config_ := { heartbeat_period_ms := 50 }
    stats_ := { heartbeats_sent := 0, feeds_received := 0, time_since_last_feed_ms := 0 } }

def start (self : SafetyWatchdog) (heartbeat_callback : Bool) (now : TimePoint) :
    SafetyWatchdog :=
  if self.running_ then
    self
  else
    { self with
      heartbeat_callback_ := heartbeat_callback, last_feed_time_ := now, running_ := true }

def stop (self : SafetyWatchdog) : SafetyWatchdog :=
  if !self.running_ then self else { self with running_ := false }

def feed (self : SafetyWatchdog) (now : TimePoint) : SafetyWatchdog :=
  { self with
    last_feed_time_ := now
    stats_ := { self.stats_ with feeds_received := u64_inc self.stats_.feeds_received } }

def is_running (self : SafetyWatchdog) : Bool := self.running_

def set_config (self : SafetyWatchdog) (config : Config) : SafetyWatchdog :=
  { self with config_ := config }

def get_statistics (self : SafetyWatchdog) : Statistics := self.stats_

/-- One iteration of the `while (running_.load())` loop of `heartbeat_loop`: the
updated watchdog and whether the heartbeat callback was invoked. -/
def heartbeat_loop_iteration (self : SafetyWatchdog) (now : TimePoint) :
    SafetyWatchdog × Bool :=
  if !self.running_ then
    (self, false)
  else
    let stats :=
      if self.heartbeat_callback_ then
        { self.stats_ with heartbeats_sent := u64_inc self.stats_.heartbeats_sent }
      else
        self.stats_
    let time_since_feed := duration_cast_ms (now - self.last_feed_time_)
    ({ self with
        stats_ := { stats with
          time_since_last_feed_ms := (time_since_feed % (UINT32_MOD : Int)).toNat } },
      self.heartbeat_callback_)

end SafetyWatchdog

/-! ## command_forwarder.h, command_forwarder.cpp -/

/-- The structure `CommandForwarder::Statistics`, without `avg_loop_time_us`, whose
update is a `float` computation that is not part of this embedding. -/
structure CommandForwarder.Statistics where
  commands_forwarded : Nat
  no_command_cycles : Nat
  max_loop_time_us : Nat
  last_forward_time : TimePoint
  deriving DecidableEq

/-- The structure `CommandForwarder::Config`. -/
structure CommandForwarder.Config where
  forward_period : Int
  send_heartbeat_on_no_command : Bool
  deriving DecidableEq

/-- The class `CommandForwarder`; `forward_callback_` tells whether the callback
given to `start` holds a target.  Its `priority_selector_` is the selector object
shared with the processor, which the loop takes as a parameter. -/
structure CommandForwarder where
  forward_callback_ : Bool
  running_ : Bool
  config_ : CommandForwarder.Config
  stats_ : CommandForwarder.Statistics
  deriving DecidableEq

namespace CommandForwarder

/-- The constructor. -/
def new (now : TimePoint) : CommandForwarder :=
  { forward_callback_ := false
    running_ := false
    config_ :=
      { forward_period := COMMAND_FORWARD_PERIOD_MS, send_heartbeat_on_no_command := true }
    stats_ :=
      { commands_forwarded := 0, no_command_cycles := 0, max_loop_time_us := 0,
        last_forward_time := now } }

def start (self : CommandForwarder) (callback : Bool) : CommandForwarder :=
  if self.running_ then
    self
  else
    { self with forward_callback_ := callback, running_ := true }

def stop (self : CommandForwarder) : CommandForwarder :=
  if !self.running_ then self else { self with running_ := false }

def is_running (self : CommandForwarder) : Bool := self.running_

def get_statistics (self : CommandForwarder) : Statistics := self.stats_

def set_config (self : CommandForwarder) (config : Config) : CommandForwarder :=
  { self with config_ := config }

/-- The member `update_timing_stats`, for `max_loop_time_us`. -/
def update_timing_stats (self : CommandForwarder) (loop_time_us : Nat) : CommandForwarder :=
  if loop_time_us > self.stats_.max_loop_time_us then
    { self with stats_ := { self.stats_ with max_loop_time_us := loop_time_us } }
  else
    self

/-- One iteration of the `while (running_.load())` loop of `forwarding_loop`, which
reads the clock at `loop_start`, calls `select()`, whose reading is `now`, reads
`forward_time` after the callback has returned and `loop_end` after the dispatch: the
updated forwarder, the updated selector, and the command `forward_callback_` is invoked
with (`none` when it is not invoked). -/
def forwarding_loop_iteration (self : CommandForwarder)
    (priority_selector_ : PrioritySelector) (command_slot_ : LatestCommandSlot)
    (loop_start now forward_time loop_end : TimePoint) :
    CommandForwarder × PrioritySelector × Option Command :=
  if !self.running_ then
    (self, priority_selector_, none)
  else
    let selection := priority_selector_.select command_slot_ now
    let loop_time_us :=
      (duration_cast_us (loop_end - loop_start) % (UINT32_MOD : Int)).toNat
    match selection.1 with
    | some selected =>
      let self' : CommandForwarder :=
        { self with
          stats_ := { self.stats_ with
            commands_forwarded := u64_inc self.stats_.commands_forwarded
            last_forward_time := forward_time } }
      (self'.update_timing_stats loop_time_us, selection.2,
        if self.forward_callback_ then some selected else none)
    | none =>
      let self' : CommandForwarder :=
        { self with
          stats_ := { self.stats_ with
            no_command_cycles := u64_inc self.stats_.no_command_cycles } }
      (self'.update_timing_stats loop_time_us, selection.2, none)

end CommandForwarder

/-! ## logger.h -/

/-- A call of a member function of the `Logger` interface, with its arguments. -/
inductive LogRecord
  | command_received (cmd : Command)
  | validation (cmd : Command) (validation : ValidationMetadata)
  | priority_selection (selected_source : CommandSource) (cmd : Command)
  | command_forwarded (cmd : Command)
  | watchdog_heartbeat
  | state_transition (old_state new_state : SystemState) (reason : String)
  | error (component message : String)
  | info (component message : String)
  deriving DecidableEq

/-! ## command_processor.h, command_processor.cpp -/

/-- The structure `CommandProcessor::Config`. -/
structure CommandProcessor.Config where
  validator_config : CommandValidator.Config
  forwarder_config : CommandForwarder.Config
  watchdog_config : SafetyWatchdog.Config

/-- The structure `CommandProcessor::Statistics`. -/
structure CommandProcessor.Statistics where
  intake_stats : CommandIntake.Statistics
  selector_stats : PrioritySelector.Statistics
  forwarder_stats : CommandForwarder.Statistics
  watchdog_stats : SafetyWatchdog.Statistics
  current_state : SystemState

/-- The class `CommandProcessor`.  The component pointers are `none` while null.
`logger_` is the trace of the calls made on the logger, `bcm_calls` the trace of the
commands `bcm_callback_` was invoked with and `watchdog_calls` the number of
invocations of `watchdog_callback_`; `bcm_callback_` and `watchdog_callback_` tell
whether the callbacks given to `initialize` hold a target. -/
structure CommandProcessor where
  logger_ : List LogRecord
  intake_ : Option CommandIntake
  validator_ : Option CommandValidator
  command_slot_ : Option LatestCommandSlot
  priority_selector_ : Option PrioritySelector
  forwarder_ : Option CommandForwarder
  watchdog_ : Option SafetyWatchdog
  bcm_callback_ : Bool
  watchdog_callback_ : Bool
  current_state_ : SystemState
  initialized_ : Bool
  bcm_calls : List Command
  watchdog_calls : Nat

namespace CommandProcessor

/-- A call on `logger_`. -/
def log (self : CommandProcessor) (record : LogRecord) : CommandProcessor :=
  { self with logger_ := self.logger_ ++ [record] }

/-- The constructor. -/
def new : CommandProcessor :=
  { logger_ := [.info "CommandProcessor" "Command Processor created"]
    intake_ := none
    validator_ := none
    command_slot_ := none
    priority_selector_ := none
    forwarder_ := none
    watchdog_ := none
    bcm_callback_ := false
    watchdog_callback_ := false
    current_state_ := .INITIALIZING
    initialized_ := false
    bcm_calls := []
    watchdog_calls := 0 }

def transition_state (self : CommandProcessor) (new_state : SystemState)
    (reason : String) : CommandProcessor :=
  if self.current_state_ ≠ new_state then
    let old_state := self.current_state_
    { self with current_state_ := new_state }.log
      (.state_transition old_state new_state reason)
  else
    self

end CommandProcessor

def CommandProcessor.initialize (self : CommandProcessor)
    (bcm_callback watchdog_callback : Bool) (now : TimePoint) :
    Bool × CommandProcessor :=
  if self.initialized_ then
    (false, self.log (.error "CommandProcessor" "Already initialized"))
  else
    let self := self.log (.info "CommandProcessor" "Initializing...")
    let self : CommandProcessor :=
      { self with
        bcm_callback_ := bcm_callback
        watchdog_callback_ := watchdog_callback
        intake_ := some (CommandIntake.new now).set_command_callback
        validator_ := some CommandValidator.new
        command_slot_ := some LatestCommandSlot.new
        priority_selector_ := some PrioritySelector.new
        forwarder_ := some (CommandForwarder.new now)
        watchdog_ := some (SafetyWatchdog.new now)
        initialized_ := true }
    let self := self.transition_state .NORMAL_OPERATION "Initialization complete"
    (true, self.log (.info "CommandProcessor" "Initialization successful"))

namespace CommandProcessor

def start (self : CommandProcessor) (now : TimePoint) : Option CommandProcessor :=
  if !self.initialized_ then
    some (self.log (.error "CommandProcessor" "Cannot start - not initialized"))
  else do
    let self := self.log (.info "CommandProcessor" "Starting command processing...")
    let forwarder ← self.forwarder_
    let self := { self with forwarder_ := some (forwarder.start true) }
    let watchdog ← self.watchdog_
    let self := { self with watchdog_ := some (watchdog.start true now) }
    let self := self.log (.info "CommandProcessor" "Command processing started")
    pure (self.log
      (.info "CommandProcessor" "Sending heartbeats to external watchdog component"))

def stop (self : CommandProcessor) : CommandProcessor :=
  if !self.initialized_ then
    self
  else
    let self := self.log (.info "CommandProcessor" "Stopping command processing...")
    let self := { self with forwarder_ := self.forwarder_.map CommandForwarder.stop }
    let self := { self with watchdog_ := self.watchdog_.map SafetyWatchdog.stop }
    self.log (.info "CommandProcessor" "Command processing stopped")

def handle_validation_result (self : CommandProcessor) (cmd : Command)
    (validation : ValidationMetadata) : Option CommandProcessor :=
  if validation.result = .VALID then do
    let command_slot ← self.command_slot_
    let self := { self with command_slot_ := some (command_slot.store cmd) }
    pure (self.log (.priority_selection cmd.source cmd))
  else
    some (self.log (.error "Validator"
      ("Command from " ++ command_source_to_string cmd.source ++ " rejected: " ++
        validation.reason)))

def handle_command (self : CommandProcessor) (cmd : Command) (now : TimePoint) :
    Option CommandProcessor := do
  let self := self.log (.command_received cmd)
  let validator ← self.validator_
  let validated := validator.validate cmd now
  let self := { self with validator_ := some validated.2 }
  let self := self.log (.validation cmd validated.1)
  self.handle_validation_result cmd validated.1

def process_command (self : CommandProcessor) (source : CommandSource)
    (sensor_data : SensorData) (sequence_number : Nat) (now : TimePoint) :
    Option CommandProcessor :=
  if !self.initialized_ then
    some (self.log (.error "CommandProcessor" "Cannot process command - not initialized"))
  else do
    let intake ← self.intake_
    let received := intake.receive_command source sensor_data sequence_number now
    let self := { self with intake_ := some received.1 }
    match received.2 with
    | some cmd => self.handle_command cmd now
    | none => pure self

def get_state (self : CommandProcessor) : SystemState := self.current_state_

def trigger_emergency_stop (self : CommandProcessor) : Option CommandProcessor := do
  let self := self.log (.error "CommandProcessor" "Manual emergency stop triggered")
  let command_slot ← self.command_slot_
  let self := { self with command_slot_ := some command_slot.clear_all }
  pure (self.transition_state .EMERGENCY_STOP "Manual trigger")

def reset (self : CommandProcessor) : Option (Bool × CommandProcessor) := do
  let self := self.log (.info "CommandProcessor" "Resetting to normal operation...")
  let command_slot ← self.command_slot_
  let self := { self with command_slot_ := some command_slot.clear_all }
  let validator ← self.validator_
  let self := { self with validator_ := some validator.reset }
  let priority_selector ← self.priority_selector_
  let self := { self with priority_selector_ := some priority_selector.reset_statistics }
  let self := self.transition_state .NORMAL_OPERATION "Manual reset"
  pure (true, self.log (.info "CommandProcessor" "Reset complete"))

def set_config (self : CommandProcessor) (config : Config) : Option CommandProcessor := do
  let validator ← self.validator_
  let forwarder ← self.forwarder_
  let watchdog ← self.watchdog_
  pure { self with
    validator_ := some (validator.set_config config.validator_config)
    forwarder_ := some (forwarder.set_config config.forwarder_config)
    watchdog_ := some (watchdog.set_config config.watchdog_config) }

def get_statistics (self : CommandProcessor) : Option Statistics := do
  let intake ← self.intake_
  let priority_selector ← self.priority_selector_
  let forwarder ← self.forwarder_
  let watchdog ← self.watchdog_
  pure
    { intake_stats := intake.get_statistics
      selector_stats := priority_selector.get_statistics
      forwarder_stats := forwarder.get_statistics
      watchdog_stats := watchdog.get_statistics
      current_state := self.get_state }

/-- The callback `start()` gives to the forwarder: forward to the BCM, log, feed the
watchdog, `feed()` reading the clock at `feed_time`. -/
def forward_callback (self : CommandProcessor) (cmd : Command) (feed_time : TimePoint) :
    Option CommandProcessor := do
  let self :=
    if self.bcm_callback_ then { self with bcm_calls := self.bcm_calls ++ [cmd] } else self
  let self := self.log (.command_forwarded cmd)
  let watchdog ← self.watchdog_
  pure { self with watchdog_ := some (watchdog.feed feed_time) }

/-- One iteration of the forwarder thread's loop on the processor's components, with the
callback `start()` installed, and with the five clock readings of the iteration.  Without
a forwarder there is no such thread. -/
def forwarding_loop_iteration (self : CommandProcessor)
    (loop_start now feed_time forward_time loop_end : TimePoint) :
    Option CommandProcessor :=
  match self.forwarder_ with
  | none => some self
  | some forwarder => do
    let priority_selector ← self.priority_selector_
    let command_slot ← self.command_slot_
    let step :=
      forwarder.forwarding_loop_iteration priority_selector command_slot loop_start now
        forward_time loop_end
    let self :=
      { self with forwarder_ := some step.1, priority_selector_ := some step.2.1 }
    match step.2.2 with
    | some cmd => self.forward_callback cmd feed_time
    | none => pure self

/-- One iteration of the heartbeat thread's loop on the processor's watchdog, with the
callback `start()` installed.  Without a watchdog there is no such thread. -/
def heartbeat_loop_iteration (self : CommandProcessor) (now : TimePoint) :
    CommandProcessor :=
  match self.watchdog_ with
  | none => self
  | some watchdog =>
    let step := watchdog.heartbeat_loop_iteration now
    let self := { self with watchdog_ := some step.1 }
    if step.2 then
      let self :=
        if self.watchdog_callback_ then
          { self with watchdog_calls := self.watchdog_calls + 1 }
        else
          self
      self.log .watchdog_heartbeat
    else
      self

end CommandProcessor


/-! ## Sequences of calls -/

/-- A finite sequence of `validate()` calls on one validator, each with its command and
its clock reading, with no other call in between: the results in call order and the
validator after the last call. -/
def validate_calls (v : CommandValidator) :
    List (Command × TimePoint) → List ValidationResult × CommandValidator
  | [] => ([], v)
  | call :: rest =>
    let validated := v.validate call.1 call.2
    let later := validate_calls validated.2 rest
    (validated.1.result :: later.1, later.2)

/-- A call made on a `CommandProcessor`: by a client through the public interface
(`init` is the member `initialize`), by the forwarder thread (one iteration of its loop)
or by the heartbeat thread. -/
inductive Call
  | init (bcm_callback watchdog_callback : Bool) (now : TimePoint)
  | start (now : TimePoint)
  | stop
  | process_command (source : CommandSource) (sensor_data : SensorData)
      (sequence_number : Nat) (now : TimePoint)
  | trigger_emergency_stop
  | reset
  | set_config (config : CommandProcessor.Config)
  | forwarder_tick (loop_start now feed_time forward_time loop_end : TimePoint)
  | heartbeat_tick (now : TimePoint)

/-- The processor after one call (`none` when the call dereferences a null pointer). -/
def CommandProcessor.step (self : CommandProcessor) : Call → Option CommandProcessor
  | .init bcm_callback watchdog_callback now =>
    some ( CommandProcessor.initialize self bcm_callback watchdog_callback now).2
  | .start now => self.start now
  | .stop => some self.stop
  | .process_command source sensor_data sequence_number now =>
    self.process_command source sensor_data sequence_number now
  | .trigger_emergency_stop => self.trigger_emergency_stop
  | .reset => (self.reset).map Prod.snd
  | .set_config config => self.set_config config
  | .forwarder_tick loop_start now feed_time forward_time loop_end =>
    self.forwarding_loop_iteration loop_start now feed_time forward_time loop_end
  | .heartbeat_tick now => some (self.heartbeat_loop_iteration now)

/-- The processor after a finite sequence of calls, made one after the other. -/
def CommandProcessor.run (self : CommandProcessor) : List Call → Option CommandProcessor
  | [] => some self
  | call :: rest => (self.step call).bind (fun next => next.run rest)

/-- The relation between a processor and a later one with the same `initialized_` flag and
the same components present. -/
def sameParts (p q : CommandProcessor) : Prop :=
  q.initialized_ = p.initialized_ ∧ q.intake_.isSome = p.intake_.isSome ∧
  q.validator_.isSome = p.validator_.isSome ∧
  q.command_slot_.isSome = p.command_slot_.isSome ∧
  q.priority_selector_.isSome = p.priority_selector_.isSome ∧
  q.forwarder_.isSome = p.forwarder_.isSome ∧ q.watchdog_.isSome = p.watchdog_.isSome

/-- The number of iterations of the forwarder loop in a sequence of calls: the forwarder
ticks made while the forwarder is running. -/
def CommandProcessor.iterations (self : CommandProcessor) : List Call → Nat
  | [] => 0
  | call :: rest =>
    (match call, self.forwarder_ with
      | .forwarder_tick _ _ _ _ _, some forwarder => if forwarder.running_ then 1 else 0
      | _, _ => 0) +
    (match self.step call with
      | some next => next.iterations rest
      | none => 0)

/-- The counters of the forwarder and of the watchdog agree with `forwarded` iterations
that dispatched a command and `empty` iterations that found none, and a running forwarder
has its callback; the components of an initialized processor exist. -/
def CommandProcessor.Counted (self : CommandProcessor) (forwarded empty : Nat) : Prop :=
  (self.initialized_ = true →
    self.intake_.isSome = true ∧ self.validator_.isSome = true ∧
    self.command_slot_.isSome = true ∧ self.priority_selector_.isSome = true ∧
    self.forwarder_.isSome = true ∧ self.watchdog_.isSome = true) ∧
  (self.initialized_ = false →
    self.forwarder_ = none ∧ self.watchdog_ = none ∧ forwarded = 0 ∧ empty = 0) ∧
  (∀ f, self.forwarder_ = some f →
    f.stats_.commands_forwarded = forwarded % UINT64_MOD ∧
    f.stats_.no_command_cycles = empty % UINT64_MOD ∧
    (f.running_ = true → f.forward_callback_ = true)) ∧
  (∀ w, self.watchdog_ = some w → w.stats_.feeds_received = forwarded % UINT64_MOD)

/-- The relation between a processor and a later one whose forwarder and watchdog have
the same counters, the forwarder still having its callback when it runs. -/
def sameCounters (p q : CommandProcessor) : Prop :=
  (∀ f2, q.forwarder_ = some f2 → ∃ f, p.forwarder_ = some f ∧
    f2.stats_.commands_forwarded = f.stats_.commands_forwarded ∧
    f2.stats_.no_command_cycles = f.stats_.no_command_cycles ∧
    ((f.running_ = true → f.forward_callback_ = true) →
      f2.running_ = true → f2.forward_callback_ = true)) ∧
  (∀ w2, q.watchdog_ = some w2 → ∃ w, p.watchdog_ = some w ∧
    w2.stats_.feeds_received = w.stats_.feeds_received)

/-- The components of an initialized processor exist. -/
def CommandProcessor.Wired (self : CommandProcessor) : Prop :=
  self.initialized_ = true →
    self.intake_.isSome = true ∧ self.validator_.isSome = true ∧
    self.command_slot_.isSome = true ∧ self.priority_selector_.isSome = true ∧
    self.forwarder_.isSome = true ∧ self.watchdog_.isSome = true

end command_processor

/-! ## BodyControlModule: thresholds.hpp, task_interface.cpp, estop_protocol.cpp,
fault_detector.cpp

The safety watchdog node.  Its functions work on globals, which are gathered in
`Globals`; `printf` appends to `stdout`.  `get_system_time_ms()` is the input `now`, an
unsigned 64-bit number of milliseconds.  A `std::mutex` is represented by whether the
calling thread holds it: locking a mutex that the calling thread already holds does not
return (`Outcome.deadlock`).  The loop `while(1)` is run with a bound on the number of
iterations, and `Outcome.spinning` is the result when the bound is reached inside it. -/

namespace safety_watchdog

open command_processor (F32 UINT64_MOD)

def MAX_SPEED : F32 := .fin 10
def MIN_BATTERY_VOLTAGE : F32 := .fin 10
def PROCESS_HEARTBEAT_TIMEOUT : Nat := 100
def SENSOR_HEARTBEAT_TIMEOUT : Nat := 100

/-- The structure `SensorState`; `data_mutex` tells whether the mutex is held. -/
structure SensorState where
  current_speed : F32
  battery_voltage : F32
  last_speed_update_ms : Nat
  data_mutex : Bool
  deriving DecidableEq

/-- The structure `TaskState`; `state_mutex` tells whether the mutex is held. -/
structure TaskState where
  last_sensor_heartbeat : Nat
  last_command_heartbeat : Nat
  state_mutex : Bool
  deriving DecidableEq

/-- The globals `current_sensor_state`, `current_task_state` and `is_halted`, and the
text printed so far, one entry for each `printf`. -/
structure Globals where
  current_sensor_state : SensorState
  current_task_state : TaskState
  is_halted : Bool
  stdout : List String
  deriving DecidableEq

/-- How a call ends: it returns a value, or it blocks on a mutex its own thread holds,
or it is still inside a loop when the bound on the iterations is reached.  Each case
carries the globals at that point. -/
inductive Outcome (σ α : Type)
  | returned (value : α) (state : σ)
  | deadlock (state : σ)
  | spinning (state : σ)
  deriving DecidableEq

/-- The globals at the end of a call. -/
def Outcome.state {σ α : Type} : Outcome σ α → σ
  | .returned _ s => s
  | .deadlock s => s
  | .spinning s => s

/-- Whether the call returned. -/
def Outcome.hasReturned {σ α : Type} : Outcome σ α → Bool
  | .returned _ _ => true
  | .deadlock _ => false
  | .spinning _ => false

/-- The difference `a - b` of two `uint64_t`. -/
def u64_sub (a b : Nat) : Nat := (a + (UINT64_MOD - b % UINT64_MOD)) % UINT64_MOD

/-- The conversion `%lld` of `sprintf` applied to a `uint64_t` argument: the decimal
digits of the value read as a signed 64-bit number. -/
def format_lld (d : Nat) : String :=
  if d < 2 ^ 63 then Nat.repr d else "-" ++ Nat.repr (UINT64_MOD - d)

def init_task_monitoring (g : Globals) (now : Nat) : Outcome Globals Unit :=
  if g.current_task_state.state_mutex then
    .deadlock g
  else
    .returned ()
      { g with current_task_state :=
          { g.current_task_state with
            last_sensor_heartbeat := now, last_command_heartbeat := now } }

def update_sensor_heartbeat (g : Globals) (time : Nat) : Outcome Globals Unit :=
  if g.current_task_state.state_mutex then
    .deadlock g
  else
    .returned ()
      { g with current_task_state :=
          { g.current_task_state with last_sensor_heartbeat := time } }

def update_command_heartbeat (g : Globals) (time : Nat) : Outcome Globals Unit :=
  if g.current_task_state.state_mutex then
    .deadlock g
  else
    .returned ()
      { g with current_task_state :=
          { g.current_task_state with last_command_heartbeat := time } }

/-- The function `are_tasks_healthy`: the value returned and the content of
`error_msg_buffer` after the call. -/
def are_tasks_healthy (g : Globals) (now : Nat) (error_msg_buffer : String) :
    Outcome Globals (Bool × String) :=
  if g.current_task_state.state_mutex then
    .deadlock g
  else
    let sensor_diff := u64_sub now g.current_task_state.last_sensor_heartbeat
    if sensor_diff > SENSOR_HEARTBEAT_TIMEOUT then
      .returned
        (false, "TI: Sensor Processor hung (" ++ format_lld sensor_diff ++ " ms)") g
    else
      let command_diff := u64_sub now g.current_task_state.last_command_heartbeat
      if command_diff > PROCESS_HEARTBEAT_TIMEOUT then
        .returned
          (false, "TI: Command Processor hung (" ++ format_lld command_diff ++ " ms)") g
      else
        .returned (true, error_msg_buffer) g

/-- The loop `while(1)` of `execute_immediate_halt`, whose body is empty, run for at
most `fuel` iterations. -/
def busy_wait (g : Globals) : Nat → Outcome Globals Unit
  | 0 => .spinning g
  | fuel + 1 => busy_wait g fuel

def execute_immediate_halt (g : Globals) (reason : String) (fuel : Nat) :
    Outcome Globals Unit :=
  if !g.is_halted then
    let g1 : Globals :=
      { g with
        stdout := g.stdout ++ ["EMERGENCY STOP TRIGGERED: " ++ reason ++ "\n"]
        is_halted := true }
    busy_wait g1 fuel
  else
    .returned () g

/-- The function `run_safety_check_loop`, one tick of the safety monitor;
`error_buffer` is the content of the local array before the call of `are_tasks_healthy`. -/
def run_safety_check_loop (g : Globals) (now : Nat) (error_buffer : String) (fuel : Nat) :
    Outcome Globals Unit :=
  if g.current_task_state.state_mutex then
    .deadlock g
  else
    let g1 : Globals :=
      { g with current_task_state := { g.current_task_state with state_mutex := true } }
    match are_tasks_healthy g1 now error_buffer with
    | .deadlock s => .deadlock s
    | .spinning s => .spinning s
    | .returned checked g2 =>
      if !checked.1 then
        match execute_immediate_halt g2 checked.2 fuel with
        | .returned _ g3 =>
          .returned ()
            { g3 with
              current_task_state := { g3.current_task_state with state_mutex := false } }
        | .deadlock s => .deadlock s
        | .spinning s => .spinning s
      else
        let g3 : Globals :=
          { g2 with
            current_task_state := { g2.current_task_state with state_mutex := false } }
        if g3.current_sensor_state.data_mutex then
          .deadlock g3
        else
          let g4 : Globals :=
            { g3 with
              current_sensor_state := { g3.current_sensor_state with data_mutex := true } }
          if F32.gt g4.current_sensor_state.current_speed MAX_SPEED then
            match execute_immediate_halt g4 "FD: Speed limit reached" fuel with
            | .returned _ g5 =>
              .returned ()
                { g5 with
                  current_sensor_state :=
                    { g5.current_sensor_state with data_mutex := false } }
            | .deadlock s => .deadlock s
            | .spinning s => .spinning s
          else if F32.lt g4.current_sensor_state.battery_voltage MIN_BATTERY_VOLTAGE then
            match execute_immediate_halt g4 "FD: Minimum battery voltage reached" fuel with
            | .returned _ g5 =>
              .returned ()
                { g5 with
                  current_sensor_state :=
                    { g5.current_sensor_state with data_mutex := false } }
            | .deadlock s => .deadlock s
            | .spinning s => .spinning s
          else
            let g5 : Globals :=
              { g4 with
                current_sensor_state :=
                  { g4.current_sensor_state with data_mutex := false } }
            .returned () { g5 with stdout := g5.stdout ++ ["System Status: NOMINAL\n"] }

/-- A string occurs inside another one. -/
def Contains (text part : String) : Prop :=
  ∃ before after : String, text = before ++ part ++ after

end safety_watchdog

/-! ## The two programs side by side -/

/-- The command processor and the safety watchdog node.  Neither holds a reference to
the other: a function of one of them works on its own state only. -/
structure System where
  processor : command_processor.CommandProcessor
  watchdog : safety_watchdog.Globals

/-- The call `execute_immediate_halt(reason)` in the watchdog node, seen on the two
programs. -/
def System.execute_immediate_halt (sys : System) (reason : String) (fuel : Nat) :
    safety_watchdog.Outcome System Unit :=
  match safety_watchdog.execute_immediate_halt sys.watchdog reason fuel with
  | .returned value w => .returned value { sys with watchdog := w }
  | .deadlock w => .deadlock { sys with watchdog := w }
  | .spinning w => .spinning { sys with watchdog := w }

namespace command_processor

/-! ## Sequences of calls on the slots and on the selector -/

/-- A call that writes on a `LatestCommandSlot`. -/
inductive SlotCall
  | store (cmd : Command)
  | clear (source : CommandSource)
  | clear_all

/-- The slot object after one writing call. -/
def LatestCommandSlot.step (self : LatestCommandSlot) : SlotCall → LatestCommandSlot
  | .store cmd => self.store cmd
  | .clear source => self.clear source
  | .clear_all => self.clear_all

/-- The slot object after a finite sequence of writing calls. -/
def LatestCommandSlot.run (self : LatestCommandSlot) : List SlotCall → LatestCommandSlot
  | [] => self
  | call :: rest => (self.step call).run rest

/-- A call on a `PrioritySelector`: `select()`, with the content of the slot object and
the clock reading at the time of the call, or `reset_statistics()`. -/
inductive SelectorCall
  | select (command_slot : LatestCommandSlot) (now : TimePoint)
  | reset_statistics

/-- The selector after one call. -/
def PrioritySelector.step (self : PrioritySelector) : SelectorCall → PrioritySelector
  | .select command_slot now => (self.select command_slot now).2
  | .reset_statistics => self.reset_statistics

/-- The selector after a finite sequence of calls. -/
def PrioritySelector.run (self : PrioritySelector) : List SelectorCall → PrioritySelector
  | [] => self
  | call :: rest => (self.step call).run rest

/-- The number of `select()` calls made since the statistics were last zeroed, `n` of them
having been made before the sequence of calls. -/
def selections_since_reset : Nat → List SelectorCall → Nat
  | n, [] => n
  | n, .select _ _ :: rest => selections_since_reset (n + 1) rest
  | _, .reset_statistics :: rest => selections_since_reset 0 rest

/-! ## The recorded sequence numbers and the stored commands -/

/-- The relation between a processor and a later one with the same slot object and the
same recorded sequence numbers. -/
def sameStore (p q : CommandProcessor) : Prop :=
  q.command_slot_ = p.command_slot_ ∧
  ∀ v2, q.validator_ = some v2 →
    ∃ v, p.validator_ = some v ∧ v2.last_sequence_numbers_ = v.last_sequence_numbers_

/-- For every source whose slot holds a command, the validator has a recorded sequence
number, which is not below that of the command. -/
def CommandProcessor.Sequenced (self : CommandProcessor) : Prop :=
  ∀ v slot, self.validator_ = some v → self.command_slot_ = some slot →
    ∀ (s : CommandSource) (h : s.toNat < NUM_SOURCES) (c : Command),
      slot.slots_ ⟨s.toNat, h⟩ = some c →
      ∃ n, v.last_sequence_numbers_ s = some n ∧ c.sequence_number ≤ n

/-! ## Callbacks that throw

The functions the client supplies are called from the forwarder thread and from the
heartbeat thread inside the lambdas that `start()` installs.  Neither the lambdas nor
`forwarding_loop` and `heartbeat_loop` contain a handler, so an exception thrown by such a
function leaves the thread function, on which `std::terminate` is called. -/

/-- How a call of a function supplied by the client ends: it returns or it throws. -/
inductive Completion
  | returns
  | throws
  deriving DecidableEq

/-- The behaviour of the functions supplied by the client that the two threads call: the
BCM callback and the heartbeat callback given to `initialize`, and the two members of the
`Logger` that the lambdas of `start()` call. -/
structure Callbacks where
  bcm_callback : Command → Completion
  watchdog_callback : Completion
  log_command_forwarded : Command → Completion
  log_watchdog_heartbeat : Completion

/-- How an iteration of the loop of a thread ends: the loop goes on from the state the
iteration leaves, or an exception has left the thread function and the program is
terminated. -/
inductive Iteration (σ : Type)
  | completed (state : σ)
  | terminated

/-- Whether the program was terminated. -/
def Iteration.hasTerminated {σ : Type} : Iteration σ → Bool
  | .completed _ => false
  | .terminated => true

namespace CommandProcessor

/-- The callback `start()` gives to the forwarder, with the client's functions behaving
as `callbacks` says. -/
def forward_callback_calling (self : CommandProcessor) (callbacks : Callbacks)
    (cmd : Command) (feed_time : TimePoint) : Option (Iteration CommandProcessor) :=
  if self.bcm_callback_ = true ∧ callbacks.bcm_callback cmd = .throws then
    some .terminated
  else
    let self :=
      if self.bcm_callback_ then { self with bcm_calls := self.bcm_calls ++ [cmd] } else self
    if callbacks.log_command_forwarded cmd = .throws then
      some .terminated
    else do
      let self := self.log (.command_forwarded cmd)
      let watchdog ← self.watchdog_
      pure (.completed { self with watchdog_ := some (watchdog.feed feed_time) })

/-- One iteration of the forwarder thread's loop on the processor's components, with the
client's functions behaving as `callbacks` says. -/
def forwarding_loop_iteration_calling (self : CommandProcessor) (callbacks : Callbacks)
    (loop_start now feed_time forward_time loop_end : TimePoint) :
    Option (Iteration CommandProcessor) :=
  match self.forwarder_ with
  | none => some (.completed self)
  | some forwarder => do
    let priority_selector ← self.priority_selector_
    let command_slot ← self.command_slot_
    let step :=
      forwarder.forwarding_loop_iteration priority_selector command_slot loop_start now
        forward_time loop_end
    let self :=
      { self with forwarder_ := some step.1, priority_selector_ := some step.2.1 }
    match step.2.2 with
    | some cmd => self.forward_callback_calling callbacks cmd feed_time
    | none => pure (.completed self)

/-- One iteration of the heartbeat thread's loop on the processor's watchdog, with the
client's functions behaving as `callbacks` says. -/
def heartbeat_loop_iteration_calling (self : CommandProcessor) (callbacks : Callbacks)
    (now : TimePoint) : Iteration CommandProcessor :=
  match self.watchdog_ with
  | none => .completed self
  | some watchdog =>
    let step := watchdog.heartbeat_loop_iteration now
    let self := { self with watchdog_ := some step.1 }
    if step.2 then
      if self.watchdog_callback_ = true ∧ callbacks.watchdog_callback = .throws then
        .terminated
      else
        let self :=
          if self.watchdog_callback_ then
            { self with watchdog_calls := self.watchdog_calls + 1 }
          else
            self
        if callbacks.log_watchdog_heartbeat = .throws then
          .terminated
        else
          .completed (self.log .watchdog_heartbeat)
    else
      .completed self

/-- The loop of the forwarder thread, for the iterations whose five clock readings are
listed: it ends with the first iteration that an exception leaves. -/
def forwarding_loop_calling (self : CommandProcessor) (callbacks : Callbacks) :
    List (TimePoint × TimePoint × TimePoint × TimePoint × TimePoint) →
    Option (Iteration CommandProcessor)
  | [] => some (.completed self)
  | readings :: rest =>
    match self.forwarding_loop_iteration_calling callbacks readings.1 readings.2.1
        readings.2.2.1 readings.2.2.2.1 readings.2.2.2.2 with
    | some (.completed next) => next.forwarding_loop_calling callbacks rest
    | some .terminated => some .terminated
    | none => none

/-- The loop of the heartbeat thread, for the iterations whose clock readings are listed:
it ends with the first iteration that an exception leaves. -/
def heartbeat_loop_calling (self : CommandProcessor) (callbacks : Callbacks) :
    List TimePoint → Iteration CommandProcessor
  | [] => .completed self
  | now :: rest =>
    match self.heartbeat_loop_iteration_calling callbacks now with
    | .completed next => next.heartbeat_loop_calling callbacks rest
    | .terminated => .terminated

end CommandProcessor

end command_processor

/-! ## Theorems -/

namespace command_processor

theorem get_NONE (slot : LatestCommandSlot) (now : TimePoint) :
    slot.get .NONE now = none := by
  unfold LatestCommandSlot.get
  exact dif_pos (by decide)

theorem select_fst (sel : PrioritySelector) (slot : LatestCommandSlot) (now : TimePoint) :
    (sel.select slot now).1 = PrioritySelector.select_by_priority slot now := by
  unfold PrioritySelector.select
  cases PrioritySelector.select_by_priority slot now <;> rfl

/-- The probes of `select_by_priority`: the first source in priority order whose `get()`
is non-empty decides the result. -/
theorem select_by_priority_first (slot : LatestCommandSlot) (now : TimePoint) :
    (∀ s c, slot.get s now = some c →
        (∀ s2 : CommandSource, s2.toNat < s.toNat → slot.get s2 now = none) →
        PrioritySelector.select_by_priority slot now = some c) ∧
    (∀ c, PrioritySelector.select_by_priority slot now = some c →
        ∃ s, s ≠ CommandSource.NONE ∧ slot.get s now = some c ∧
          ∀ s2 : CommandSource, s2.toNat < s.toNat → slot.get s2 now = none) ∧
    (PrioritySelector.select_by_priority slot now = none ↔
        slot.get .SAFETY now = none ∧ slot.get .MANUAL now = none ∧
        slot.get .REMOTE now = none ∧ slot.get .AUTONOMOUS now = none) ∧
    PrioritySelector.select_by_priority slot now =
      [CommandSource.SAFETY, .MANUAL, .REMOTE, .AUTONOMOUS].findSome?
        (fun s => slot.get s now) := by
  refine ⟨?_, ?_, ?_, ?_⟩
  · intro s c hs hlt
    have h0 := hlt .SAFETY
    have h1 := hlt .MANUAL
    have h2 := hlt .REMOTE
    have h3 := hlt .AUTONOMOUS
    cases s <;>
      simp_all [PrioritySelector.select_by_priority, CommandSource.toNat, get_NONE]
  · intro c hc
    unfold PrioritySelector.select_by_priority at hc
    split at hc
    · rename_i c0 h0
      refine ⟨.SAFETY, by decide, ?_, ?_⟩
      · rw [h0]; exact hc
      · intro s2 h2; cases s2 <;> simp [CommandSource.toNat] at h2
    · rename_i h0
      split at hc
      · rename_i c1 h1
        refine ⟨.MANUAL, by decide, ?_, ?_⟩
        · rw [h1]; exact hc
        · intro s2 h2; cases s2 <;> simp_all [CommandSource.toNat]
      · rename_i h1
        split at hc
        · rename_i c2 h2
          refine ⟨.REMOTE, by decide, ?_, ?_⟩
          · rw [h2]; exact hc
          · intro s2 hs2; cases s2 <;> simp_all [CommandSource.toNat]
        · rename_i h2
          split at hc
          · rename_i c3 h3
            refine ⟨.AUTONOMOUS, by decide, ?_, ?_⟩
            · rw [h3]; exact hc
            · intro s2 hs2; cases s2 <;> simp_all [CommandSource.toNat]
          · simp at hc
  · unfold PrioritySelector.select_by_priority
    cases slot.get .SAFETY now <;> cases slot.get .MANUAL now <;>
      cases slot.get .REMOTE now <;> cases slot.get .AUTONOMOUS now <;> simp
  · simp only [List.findSome?]
    unfold PrioritySelector.select_by_priority
    cases slot.get .SAFETY now <;> cases slot.get .MANUAL now <;>
      cases slot.get .REMOTE now <;> cases slot.get .AUTONOMOUS now <;> rfl

/-- C1: `select()` returns the command of the first source, in the order SAFETY, MANUAL,
REMOTE, AUTONOMOUS, whose slot `get()` is non-empty at `now`, that is the one with the
smallest priority number among those whose `get()` is non-empty; a higher-priority slot
whose `get()` is empty never blocks a lower-priority one; and the result is empty exactly
when `get()` is empty for all four sources. -/
theorem select_first_fresh_in_priority_order (sel : PrioritySelector)
    (slot : LatestCommandSlot) (now : TimePoint) :
    (∀ s c, slot.get s now = some c →
        (∀ s2 : CommandSource, s2.toNat < s.toNat → slot.get s2 now = none) →
        (sel.select slot now).1 = some c) ∧
    (∀ c, (sel.select slot now).1 = some c →
        ∃ s, s ≠ CommandSource.NONE ∧ slot.get s now = some c ∧
          ∀ s2 : CommandSource, s2.toNat < s.toNat → slot.get s2 now = none) ∧
    ((sel.select slot now).1 = none ↔
        slot.get .SAFETY now = none ∧ slot.get .MANUAL now = none ∧
        slot.get .REMOTE now = none ∧ slot.get .AUTONOMOUS now = none) ∧
    (sel.select slot now).1 =
      [CommandSource.SAFETY, .MANUAL, .REMOTE, .AUTONOMOUS].findSome?
        (fun s => slot.get s now) := by
  rw [select_fst]
  exact select_by_priority_first slot now


/-- C2: on the code, a forwarder iteration in state EMERGENCY_STOP does invoke the BCM
callback.  After `initialize`, `start` and `trigger_emergency_stop`, a valid command
submitted with `process_command` is stored while the state stays EMERGENCY_STOP, and the
next iteration of the forwarder loop passes it to the BCM callback. -/
theorem emergency_stop_still_forwards :
    (do
      let p ← CommandProcessor.new.run
        [.init true true 0, .start 0, .trigger_emergency_stop,
          .process_command .REMOTE ⟨.fin 15, .fin 5, .fin 0, false⟩ 1 1000000]
      let q ← p.step (.forwarder_tick 2000000 2000000 2000000 2000000 2000000)
      pure (p.current_state_, p.bcm_calls, q.current_state_, q.bcm_calls)) =
    some (SystemState.EMERGENCY_STOP, [], SystemState.EMERGENCY_STOP,
      [⟨.REMOTE, 1, 1000000, ⟨.fin 15, .fin 5, .fin 0, false⟩⟩]) := by
  decide

/-! ### The validator -/

theorem is_sequence_valid_config (v : CommandValidator) (s : CommandSource) (n : Nat) :
    (v.is_sequence_valid s n).2.config_ = v.config_ := by
  unfold CommandValidator.is_sequence_valid
  split
  · rfl
  · split <;> rfl

theorem is_sensor_data_valid_congr (v w : CommandValidator) (h : w.config_ = v.config_)
    (data : SensorData) : w.is_sensor_data_valid data = v.is_sensor_data_valid data := by
  unfold CommandValidator.is_sensor_data_valid
  rw [h]

/-- The result of `validate`, as a function of the three checks. -/
theorem validate_result (v : CommandValidator) (cmd : Command) (now : TimePoint) :
    (v.validate cmd now).1.result =
      if v.is_timestamp_fresh cmd.timestamp now = false then .STALE_TIMESTAMP
      else if (v.is_sequence_valid cmd.source cmd.sequence_number).1 = false then
        .INVALID_SEQUENCE
      else if v.is_sensor_data_valid cmd.sensor_data = false then .OUT_OF_RANGE
      else .VALID := by
  have hc := is_sensor_data_valid_congr v
    (v.is_sequence_valid cmd.source cmd.sequence_number).2
    (is_sequence_valid_config v cmd.source cmd.sequence_number) cmd.sensor_data
  unfold CommandValidator.validate
  simp only [hc]
  by_cases h1 : v.is_timestamp_fresh cmd.timestamp now = true <;>
    by_cases h2 : (v.is_sequence_valid cmd.source cmd.sequence_number).1 = true <;>
    by_cases h3 : v.is_sensor_data_valid cmd.sensor_data = true <;>
    simp [h1, h2, h3]

/-- The validator after `validate`: unchanged when the freshness check fails, and
otherwise the one the sequence check leaves. -/
theorem validate_state (v : CommandValidator) (cmd : Command) (now : TimePoint) :
    (v.validate cmd now).2 =
      if v.is_timestamp_fresh cmd.timestamp now = false then v
      else (v.is_sequence_valid cmd.source cmd.sequence_number).2 := by
  unfold CommandValidator.validate
  by_cases h1 : v.is_timestamp_fresh cmd.timestamp now = true <;>
    by_cases h2 : (v.is_sequence_valid cmd.source cmd.sequence_number).1 = true <;>
    by_cases h3 : (v.is_sequence_valid cmd.source
      cmd.sequence_number).2.is_sensor_data_valid cmd.sensor_data = true <;>
    simp [h1, h2, h3]

/-- C3: `validate` applies the checks in the order freshness, sequence, range and returns
the first failure: STALE_TIMESTAMP when the freshness check fails (the validator is then
unchanged), INVALID_SEQUENCE when the command is fresh and the sequence check fails,
OUT_OF_RANGE when it is fresh and in sequence and the range check fails, and VALID exactly
when the three checks pass. -/
theorem validate_first_failure (v : CommandValidator) (cmd : Command) (now : TimePoint) :
    (v.is_timestamp_fresh cmd.timestamp now = false →
      (v.validate cmd now).1.result = .STALE_TIMESTAMP ∧ (v.validate cmd now).2 = v) ∧
    (v.is_timestamp_fresh cmd.timestamp now = true →
      (v.is_sequence_valid cmd.source cmd.sequence_number).1 = false →
      (v.validate cmd now).1.result = .INVALID_SEQUENCE) ∧
    (v.is_timestamp_fresh cmd.timestamp now = true →
      (v.is_sequence_valid cmd.source cmd.sequence_number).1 = true →
      v.is_sensor_data_valid cmd.sensor_data = false →
      (v.validate cmd now).1.result = .OUT_OF_RANGE) ∧
    ((v.validate cmd now).1.result = .VALID ↔
      v.is_timestamp_fresh cmd.timestamp now = true ∧
      (v.is_sequence_valid cmd.source cmd.sequence_number).1 = true ∧
      v.is_sensor_data_valid cmd.sensor_data = true) := by
  rw [validate_result, validate_state]
  cases v.is_timestamp_fresh cmd.timestamp now <;>
    cases (v.is_sequence_valid cmd.source cmd.sequence_number).1 <;>
    cases v.is_sensor_data_valid cmd.sensor_data <;> simp

/-- The three checks on a stale command with a replayed sequence number and a payload out
of range: the result is STALE_TIMESTAMP. -/
theorem validate_first_failure_witness :
    (CommandValidator.new.validate
      ⟨.REMOTE, 0, 0, ⟨.fin 100, .fin 5, .fin 0, false⟩⟩ 999000000).1.result =
        .STALE_TIMESTAMP ∧
    (CommandValidator.new.validate
      ⟨.REMOTE, 0, 0, ⟨.fin 100, .fin 5, .fin 0, false⟩⟩ 999000000).2 =
        CommandValidator.new :=
  (validate_first_failure CommandValidator.new
    ⟨.REMOTE, 0, 0, ⟨.fin 100, .fin 5, .fin 0, false⟩⟩ 999000000).1 (by decide)


/-- The sequence check passes exactly when no number is recorded for the source or the
recorded one is smaller. -/
theorem is_sequence_valid_fst (v : CommandValidator) (s : CommandSource) (n : Nat) :
    (v.is_sequence_valid s n).1 = true ↔
      ∀ r, v.last_sequence_numbers_ s = some r → r < n := by
  unfold CommandValidator.is_sequence_valid
  split
  · rename_i h; simp [h]
  · rename_i last h
    by_cases hle : n ≤ last
    · simp [hle, h]
    · simp [hle, h]; omega

/-- The validator after the sequence check: the number is recorded when the check passes,
and nothing changes when it fails. -/
theorem is_sequence_valid_snd (v : CommandValidator) (s : CommandSource) (n : Nat) :
    (v.is_sequence_valid s n).2 =
      if (v.is_sequence_valid s n).1 = true then
        { v with
          last_sequence_numbers_ := Function.update v.last_sequence_numbers_ s (some n) }
      else v := by
  unfold CommandValidator.is_sequence_valid
  split
  · simp
  · split <;> simp

/-- C4: the sequence check passes and records `n` when nothing is recorded for `s`; when `r`
is recorded it passes if and only if `n > r`, records `n` on passing and changes nothing on
failing; records of other sources are never changed.  Hence of two fresh in-range commands
with the same source and sequence number validated in a row, the second is rejected as
INVALID_SEQUENCE, the first being VALID when it passes the sequence check. -/
theorem sequence_check_strictly_increasing (v : CommandValidator) (s : CommandSource)
    (n : Nat) :
    (v.last_sequence_numbers_ s = none →
      (v.is_sequence_valid s n).1 = true ∧
      (v.is_sequence_valid s n).2.last_sequence_numbers_ s = some n) ∧
    (∀ r, v.last_sequence_numbers_ s = some r →
      ((v.is_sequence_valid s n).1 = true ↔ n > r) ∧
      (n > r → (v.is_sequence_valid s n).2.last_sequence_numbers_ s = some n) ∧
      (¬ n > r → (v.is_sequence_valid s n).2 = v)) ∧
    (∀ s2, s2 ≠ s →
      (v.is_sequence_valid s n).2.last_sequence_numbers_ s2 = v.last_sequence_numbers_ s2) ∧
    (∀ (c1 c2 : Command) (now1 now2 : TimePoint),
      c1.source = s → c2.source = s → c1.sequence_number = n → c2.sequence_number = n →
      v.is_timestamp_fresh c1.timestamp now1 = true →
      v.is_timestamp_fresh c2.timestamp now2 = true →
      v.is_sensor_data_valid c1.sensor_data = true →
      v.is_sensor_data_valid c2.sensor_data = true →
      ((v.validate c1 now1).2.validate c2 now2).1.result = .INVALID_SEQUENCE ∧
      ((∀ r, v.last_sequence_numbers_ s = some r → r < n) →
        (v.validate c1 now1).1.result = .VALID)) := by
  have hfst := is_sequence_valid_fst v s n
  have hsnd := is_sequence_valid_snd v s n
  refine ⟨?_, ?_, ?_, ?_⟩
  · intro hnone
    have h1 : (v.is_sequence_valid s n).1 = true := hfst.2 (by simp [hnone])
    refine ⟨h1, ?_⟩
    rw [hsnd]; simp [h1]
  · intro r hr
    have hiff : (v.is_sequence_valid s n).1 = true ↔ n > r := by
      rw [hfst]; simp [hr]
    refine ⟨hiff, ?_, ?_⟩
    · intro hgt
      rw [hsnd]; simp [hiff.2 hgt]
    · intro hle
      rw [hsnd]; simp [mt hiff.1 hle]
  · intro s2 hne
    rw [hsnd]
    split
    · simp [Function.update, hne]
    · rfl
  · intro c1 c2 now1 now2 hs1 hs2 hn1 hn2 hf1 hf2 hr1 hr2
    subst hs1 hn1
    have hfst1 := is_sequence_valid_fst v c1.source c1.sequence_number
    have hsnd1 := is_sequence_valid_snd v c1.source c1.sequence_number
    have hst := validate_state v c1 now1
    simp only [hf1] at hst
    have hcfg : (v.validate c1 now1).2.config_ = v.config_ := by
      rw [hst]; simpa using is_sequence_valid_config v c1.source c1.sequence_number
    have hrec : ∃ r, (v.validate c1 now1).2.last_sequence_numbers_ c1.source = some r ∧
        c1.sequence_number ≤ r := by
      rw [hst]
      simp only [Bool.true_eq_false, if_false]
      rw [hsnd1]
      by_cases hp : (v.is_sequence_valid c1.source c1.sequence_number).1 = true
      · exact ⟨c1.sequence_number, by simp [hp], le_refl _⟩
      · simp only [hp, if_false]
        have : ¬ ∀ r, v.last_sequence_numbers_ c1.source = some r →
            r < c1.sequence_number := fun h => hp (hfst1.2 h)
        push_neg at this
        obtain ⟨r, hr, hle⟩ := this
        exact ⟨r, hr, hle⟩
    obtain ⟨r, hr, hle⟩ := hrec
    refine ⟨?_, ?_⟩
    · rw [validate_result]
      have hf2' : (v.validate c1 now1).2.is_timestamp_fresh c2.timestamp now2 = true := by
        unfold CommandValidator.is_timestamp_fresh at hf2 ⊢
        rw [hcfg]; exact hf2
      have hseq : ((v.validate c1 now1).2.is_sequence_valid c2.source
          c2.sequence_number).1 = false := by
        rw [Bool.eq_false_iff]
        intro hp
        rw [is_sequence_valid_fst] at hp
        have := hp r (by rw [hs2]; exact hr)
        omega
      simp [hf2', hseq]
    · intro hpass
      rw [validate_result]
      simp [hf1, hfst1.2 hpass, hr1]

/-- Scenario S3 on a new validator: REMOTE with sequence number 5 validated twice gives
VALID and then INVALID_SEQUENCE. -/
theorem sequence_check_strictly_increasing_witness :
    ((CommandValidator.new.validate
        ⟨.REMOTE, 5, 0, ⟨.fin 15, .fin 5, .fin 0, false⟩⟩ 0).2.validate
      ⟨.REMOTE, 5, 1000000, ⟨.fin 15, .fin 5, .fin 0, false⟩⟩ 1000000).1.result =
        .INVALID_SEQUENCE ∧
    (CommandValidator.new.validate
        ⟨.REMOTE, 5, 0, ⟨.fin 15, .fin 5, .fin 0, false⟩⟩ 0).1.result = .VALID :=
  have h := (sequence_check_strictly_increasing CommandValidator.new .REMOTE 5).2.2.2
    ⟨.REMOTE, 5, 0, ⟨.fin 15, .fin 5, .fin 0, false⟩⟩
    ⟨.REMOTE, 5, 1000000, ⟨.fin 15, .fin 5, .fin 0, false⟩⟩ 0 1000000
    rfl rfl rfl rfl (by decide) (by decide) (by decide) (by decide)
  ⟨h.1, h.2 (by decide)⟩


/-- A recorded sequence number never decreases and never disappears in `validate`. -/
theorem validate_record_mono (v : CommandValidator) (cmd : Command) (now : TimePoint)
    (s : CommandSource) (r : Nat) (hr : v.last_sequence_numbers_ s = some r) :
    ∃ r2, (v.validate cmd now).2.last_sequence_numbers_ s = some r2 ∧ r ≤ r2 := by
  rw [validate_state]
  split
  · exact ⟨r, hr, le_refl r⟩
  · rw [is_sequence_valid_snd]
    split
    · rename_i hp
      by_cases hs : s = cmd.source
      · subst hs
        rw [is_sequence_valid_fst] at hp
        exact ⟨cmd.sequence_number, by simp, le_of_lt (hp r hr)⟩
      · exact ⟨r, by simp [Function.update, hs, hr], le_refl r⟩
    · exact ⟨r, hr, le_refl r⟩

/-- A command that `validate` accepts has a sequence number above the recorded one. -/
theorem validate_valid_gt (v : CommandValidator) (cmd : Command) (now : TimePoint)
    (r : Nat) (hr : v.last_sequence_numbers_ cmd.source = some r)
    (hv : (v.validate cmd now).1.result = .VALID) : r < cmd.sequence_number := by
  rw [validate_result] at hv
  split at hv
  · simp at hv
  · split at hv
    · simp at hv
    · rename_i hp
      have hp2 : (v.is_sequence_valid cmd.source cmd.sequence_number).1 = true := by
        simpa using hp
      exact (is_sequence_valid_fst v cmd.source cmd.sequence_number).1 hp2 r hr

/-- After `validate` has accepted a command, its sequence number is the recorded one. -/
theorem validate_valid_records (v : CommandValidator) (cmd : Command) (now : TimePoint)
    (hv : (v.validate cmd now).1.result = .VALID) :
    (v.validate cmd now).2.last_sequence_numbers_ cmd.source =
      some cmd.sequence_number := by
  rw [validate_result] at hv
  rw [validate_state]
  split at hv
  · simp at hv
  · rename_i hf
    split at hv
    · simp at hv
    · rename_i hp
      have hp2 : (v.is_sequence_valid cmd.source cmd.sequence_number).1 = true := by
        simpa using hp
      rw [if_neg hf, is_sequence_valid_snd, if_pos hp2]
      simp

/-- With `r` recorded for a source, every later accepted command of that source in a
sequence of calls has a sequence number above `r`. -/
theorem validate_calls_above_record (calls : List (Command × TimePoint)) :
    ∀ (v : CommandValidator) (r : Nat) (j : Nat) (c : Command) (t : TimePoint),
      v.last_sequence_numbers_ c.source = some r →
      calls[j]? = some (c, t) →
      (validate_calls v calls).1[j]? = some .VALID →
      r < c.sequence_number := by
  induction calls with
  | nil => intro v r j c t _ hc; simp at hc
  | cons call rest ih =>
    intro v r j c t hr hc hv
    cases j with
    | zero =>
      simp only [List.getElem?_cons_zero, Option.some.injEq] at hc
      subst hc
      simp only [validate_calls, List.getElem?_cons_zero, Option.some.injEq] at hv
      exact validate_valid_gt v c t r hr hv
    | succ j =>
      simp only [List.getElem?_cons_succ] at hc
      simp only [validate_calls, List.getElem?_cons_succ] at hv
      obtain ⟨r2, hr2, hle⟩ := validate_record_mono v call.1 call.2 c.source r hr
      exact lt_of_le_of_lt hle (ih _ r2 j c t hr2 hc hv)

/-- C5: in a finite sequence of `validate()` calls on one validator, if two calls carry
the same source and both return VALID, the later one has the strictly greater sequence
number. -/
theorem accepted_sequence_numbers_increase (v : CommandValidator)
    (calls : List (Command × TimePoint)) (i j : Nat) (c1 c2 : Command)
    (t1 t2 : TimePoint) (hij : i < j)
    (h1 : calls[i]? = some (c1, t1)) (h2 : calls[j]? = some (c2, t2))
    (hs : c1.source = c2.source)
    (hv1 : (validate_calls v calls).1[i]? = some .VALID)
    (hv2 : (validate_calls v calls).1[j]? = some .VALID) :
    c1.sequence_number < c2.sequence_number := by
  induction calls generalizing v i j with
  | nil => simp at h1
  | cons call rest ih =>
    cases j with
    | zero => omega
    | succ j =>
      simp only [List.getElem?_cons_succ] at h2
      simp only [validate_calls, List.getElem?_cons_succ] at hv2
      cases i with
      | zero =>
        simp only [List.getElem?_cons_zero, Option.some.injEq] at h1
        subst h1
        simp only [validate_calls, List.getElem?_cons_zero, Option.some.injEq] at hv1
        have hrec := validate_valid_records v c1 t1 hv1
        rw [hs] at hrec
        exact validate_calls_above_record rest _ c1.sequence_number j c2 t2 hrec h2 hv2
      | succ i =>
        simp only [List.getElem?_cons_succ] at h1
        simp only [validate_calls, List.getElem?_cons_succ] at hv1
        exact ih _ i j (by omega) h1 h2 hv1 hv2

/-- Three calls on a new validator, REMOTE 3, MANUAL 1, REMOTE 8, all accepted: the two
REMOTE commands have increasing sequence numbers. -/
theorem accepted_sequence_numbers_increase_witness :
    (validate_calls CommandValidator.new
      [(⟨.REMOTE, 3, 0, ⟨.fin 15, .fin 5, .fin 0, false⟩⟩, 0),
       (⟨.MANUAL, 1, 1000000, ⟨.fin 15, .fin 5, .fin 0, false⟩⟩, 1000000),
       (⟨.REMOTE, 8, 2000000, ⟨.fin 15, .fin 5, .fin 0, false⟩⟩, 2000000)]).1 =
      [.VALID, .VALID, .VALID] ∧
    (⟨.REMOTE, 3, 0, ⟨.fin 15, .fin 5, .fin 0, false⟩⟩ : Command).sequence_number <
      (⟨.REMOTE, 8, 2000000, ⟨.fin 15, .fin 5, .fin 0, false⟩⟩ : Command).sequence_number :=
  ⟨by decide,
   accepted_sequence_numbers_increase CommandValidator.new
    [(⟨.REMOTE, 3, 0, ⟨.fin 15, .fin 5, .fin 0, false⟩⟩, 0),
     (⟨.MANUAL, 1, 1000000, ⟨.fin 15, .fin 5, .fin 0, false⟩⟩, 1000000),
     (⟨.REMOTE, 8, 2000000, ⟨.fin 15, .fin 5, .fin 0, false⟩⟩, 2000000)]
    0 2 ⟨.REMOTE, 3, 0, ⟨.fin 15, .fin 5, .fin 0, false⟩⟩
    ⟨.REMOTE, 8, 2000000, ⟨.fin 15, .fin 5, .fin 0, false⟩⟩ 0 2000000
    (by decide) (by decide) (by decide) rfl (by decide) (by decide)⟩

/-- C6, as the code has it: the mapping is updated when the sequence check passes, also
when the range check then fails.  For STALE_TIMESTAMP and INVALID_SEQUENCE the validator
after the call is the validator before it; for OUT_OF_RANGE, as for VALID, the sequence
number of the command is recorded for its source, so that a later command of the same
source with the same sequence number is not accepted: when fresh it is rejected as
INVALID_SEQUENCE. -/
theorem mapping_updated_when_sequence_check_passes (v : CommandValidator) (cmd : Command)
    (now : TimePoint) :
    (((v.validate cmd now).1.result = .STALE_TIMESTAMP ∨
        (v.validate cmd now).1.result = .INVALID_SEQUENCE) →
      (v.validate cmd now).2 = v) ∧
    (((v.validate cmd now).1.result = .OUT_OF_RANGE ∨
        (v.validate cmd now).1.result = .VALID) →
      (v.validate cmd now).2.last_sequence_numbers_ =
        Function.update v.last_sequence_numbers_ cmd.source (some cmd.sequence_number)) ∧
    ((v.validate cmd now).1.result = .OUT_OF_RANGE →
      ∀ (c2 : Command) (now2 : TimePoint),
        c2.source = cmd.source → c2.sequence_number = cmd.sequence_number →
        ((v.validate cmd now).2.validate c2 now2).1.result ≠ .VALID ∧
        ((v.validate cmd now).2.is_timestamp_fresh c2.timestamp now2 = true →
          ((v.validate cmd now).2.validate c2 now2).1.result = .INVALID_SEQUENCE)) := by
  have hres := validate_result v cmd now
  have hst := validate_state v cmd now
  have hsnd := is_sequence_valid_snd v cmd.source cmd.sequence_number
  have hupd : ((v.validate cmd now).1.result = .OUT_OF_RANGE ∨
        (v.validate cmd now).1.result = .VALID) →
      (v.validate cmd now).2.last_sequence_numbers_ =
        Function.update v.last_sequence_numbers_ cmd.source
          (some cmd.sequence_number) := by
    intro h
    rw [hres] at h
    rw [hst]
    by_cases h1 : v.is_timestamp_fresh cmd.timestamp now = true
    · by_cases h2 : (v.is_sequence_valid cmd.source cmd.sequence_number).1 = true
      · rw [if_neg (by simp [h1]), hsnd, if_pos h2]
      · simp [h1, h2] at h
    · simp [h1] at h
  refine ⟨?_, hupd, ?_⟩
  · intro h
    rw [hres] at h
    rw [hst]
    by_cases h1 : v.is_timestamp_fresh cmd.timestamp now = true
    · by_cases h2 : (v.is_sequence_valid cmd.source cmd.sequence_number).1 = true
      · by_cases h3 : v.is_sensor_data_valid cmd.sensor_data = true <;>
          simp [h1, h2, h3] at h
      · rw [if_neg (by simp [h1]), hsnd, if_neg h2]
    · simp [h1]
  · intro h c2 now2 hs hn
    have hrec : (v.validate cmd now).2.last_sequence_numbers_ c2.source =
        some c2.sequence_number := by
      rw [hupd (Or.inl h), hs, hn]; simp
    have hseq : ((v.validate cmd now).2.is_sequence_valid c2.source
        c2.sequence_number).1 = false := by
      rw [Bool.eq_false_iff]
      intro hp
      rw [is_sequence_valid_fst] at hp
      exact lt_irrefl _ (hp _ hrec)
    rw [validate_result]
    constructor
    · by_cases hf : (v.validate cmd now).2.is_timestamp_fresh c2.timestamp now2 = true <;>
        simp [hf, hseq]
    · intro hf
      simp [hf, hseq]

/-- Counterexample to C6 as stated: on a new validator a fresh REMOTE command with sequence
number 7 and steering 100 is rejected as OUT_OF_RANGE, yet the mapping, empty for REMOTE
before the call, records 7 after it, and a later fresh in-range REMOTE command with
sequence number 7 is rejected as INVALID_SEQUENCE. -/
theorem out_of_range_consumes_sequence_number :
    (CommandValidator.new.validate
      ⟨.REMOTE, 7, 0, ⟨.fin 100, .fin 5, .fin 0, false⟩⟩ 0).1.result = .OUT_OF_RANGE ∧
    CommandValidator.new.last_sequence_numbers_ .REMOTE = none ∧
    (CommandValidator.new.validate
      ⟨.REMOTE, 7, 0, ⟨.fin 100, .fin 5, .fin 0, false⟩⟩ 0).2.last_sequence_numbers_
        .REMOTE = some 7 ∧
    ((CommandValidator.new.validate
        ⟨.REMOTE, 7, 0, ⟨.fin 100, .fin 5, .fin 0, false⟩⟩ 0).2.validate
      ⟨.REMOTE, 7, 1000000, ⟨.fin 15, .fin 5, .fin 0, false⟩⟩ 1000000).1.result =
        .INVALID_SEQUENCE := by
  decide


/-- The range check on a finite payload against finite limits. -/
theorem is_sensor_data_valid_fin (v : CommandValidator) (ms mv ma a s c : ℚ) (b : Bool)
    (h1 : v.config_.max_steering_angle = .fin ms) (h2 : v.config_.max_speed = .fin mv)
    (h3 : v.config_.max_acceleration = .fin ma) :
    v.is_sensor_data_valid ⟨.fin a, .fin s, .fin c, b⟩ = true ↔
      |a| ≤ ms ∧ 0 ≤ s ∧ s ≤ mv ∧ |c| ≤ ma := by
  unfold CommandValidator.is_sensor_data_valid
  simp only [h1, h2, h3, F32.gt, F32.lt, F32.abs]
  by_cases ha : ms < |a|
  · simp [ha]
  · by_cases hs0 : s < 0
    · simp [ha, hs0]
    · by_cases hs1 : mv < s
      · simp [ha, hs0, hs1]
      · by_cases hc : ma < |c|
        · simp [ha, hs0, hs1, hc]
        · simp [ha, hs0, hs1, hc]
          exact ⟨not_lt.1 ha, not_lt.1 hs0, not_lt.1 hs1, not_lt.1 hc⟩

/-- The check of one bound, `std::abs(x) > limit` or `x > limit`, on a finite value: it
rejects exactly when the limit is finite and below the value, or is minus infinity. -/
theorem gt_fin_iff (x : ℚ) (limit : F32) :
    F32.gt (.fin x) limit = false ↔
      limit = .nan ∨ limit = .pinf ∨ ∃ m : ℚ, limit = .fin m ∧ x ≤ m := by
  cases limit with
  | nan => simp [F32.gt, F32.lt]
  | ninf => simp [F32.gt, F32.lt]
  | pinf => simp [F32.gt, F32.lt]
  | fin m => simp [F32.gt, F32.lt]

/-- C7, as the code has it: the range check rejects on `value > limit`, which is false when
the limit is NaN, so that a limit that is NaN is not enforced.  For a finite payload and
all configured limits, the check passes if and only if each of
`|steering_angle| ≤ max_steering_angle`, `speed ≤ max_speed` and
`|acceleration| ≤ max_acceleration` holds or has a limit that is NaN, and `0 ≤ speed`; a
limit of plus infinity bounds nothing and one of minus infinity rejects every value.  For
finite limits this is `|steering_angle| ≤ max_steering_angle`, `0 ≤ speed ≤ max_speed` and
`|acceleration| ≤ max_acceleration`, all bounds inclusive.  With the default limits
(45, 30, 5) a fresh in-sequence command with steering 100 is rejected as OUT_OF_RANGE, and
one with steering 45 or -45, speed 0 or 30 and acceleration 5 or -5 is accepted. -/
theorem range_check_inclusive_unless_nan :
    (∀ (v : CommandValidator) (a s c : ℚ) (b : Bool),
      v.is_sensor_data_valid ⟨.fin a, .fin s, .fin c, b⟩ = true ↔
        (v.config_.max_steering_angle = .nan ∨ v.config_.max_steering_angle = .pinf ∨
          ∃ m : ℚ, v.config_.max_steering_angle = .fin m ∧ |a| ≤ m) ∧
        0 ≤ s ∧
        (v.config_.max_speed = .nan ∨ v.config_.max_speed = .pinf ∨
          ∃ m : ℚ, v.config_.max_speed = .fin m ∧ s ≤ m) ∧
        (v.config_.max_acceleration = .nan ∨ v.config_.max_acceleration = .pinf ∨
          ∃ m : ℚ, v.config_.max_acceleration = .fin m ∧ |c| ≤ m)) ∧
    (∀ (timeout : Int) (recorded : CommandSource → Option Nat) (ms mv ma a s c : ℚ)
      (b : Bool),
      (CommandValidator.mk ⟨timeout, .fin ms, .fin mv, .fin ma⟩ recorded).is_sensor_data_valid
          ⟨.fin a, .fin s, .fin c, b⟩ = true ↔
        |a| ≤ ms ∧ 0 ≤ s ∧ s ≤ mv ∧ |c| ≤ ma) ∧
    (∀ (v : CommandValidator) (cmd : Command) (now : TimePoint),
      v.config_ = CommandValidator.Config.default →
      v.is_timestamp_fresh cmd.timestamp now = true →
      (v.is_sequence_valid cmd.source cmd.sequence_number).1 = true →
      (cmd.sensor_data.steering_angle = .fin 100 →
        (v.validate cmd now).1.result = .OUT_OF_RANGE) ∧
      ((cmd.sensor_data.steering_angle = .fin 45 ∨
          cmd.sensor_data.steering_angle = .fin (-45)) →
        (cmd.sensor_data.speed = .fin 0 ∨ cmd.sensor_data.speed = .fin 30) →
        (cmd.sensor_data.acceleration = .fin 5 ∨
          cmd.sensor_data.acceleration = .fin (-5)) →
        (v.validate cmd now).1.result = .VALID)) := by
  refine ⟨?_, ?_, ?_⟩
  · intro v a s c b
    have h1 := gt_fin_iff |a| v.config_.max_steering_angle
    have h2 := gt_fin_iff s v.config_.max_speed
    have h3 := gt_fin_iff |c| v.config_.max_acceleration
    have h0 : F32.lt (.fin s) (.fin 0) = false ↔ 0 ≤ s := by
      simp [F32.lt]
    rw [← h1, ← h2, ← h3, ← h0]
    unfold CommandValidator.is_sensor_data_valid
    simp only [F32.abs]
    by_cases k1 : F32.gt (.fin |a|) v.config_.max_steering_angle = true
    · simp [k1]
    · by_cases k0 : F32.lt (.fin s) (.fin 0) = true
      · simp [k1, k0]
      · by_cases k2 : F32.gt (.fin s) v.config_.max_speed = true
        · simp [k1, k0, k2]
        · by_cases k3 : F32.gt (.fin |c|) v.config_.max_acceleration = true
          · simp [k1, k0, k2, k3]
          · simp [k1, k0, k2, k3]
  · intro timeout recorded ms mv ma a s c b
    exact is_sensor_data_valid_fin _ ms mv ma a s c b rfl rfl rfl
  · intro v cmd now hcfg hf hq
    have hd1 : v.config_.max_steering_angle = .fin 45 := by rw [hcfg]; rfl
    have hd2 : v.config_.max_speed = .fin 30 := by rw [hcfg]; rfl
    have hd3 : v.config_.max_acceleration = .fin 5 := by rw [hcfg]; rfl
    obtain ⟨src, seq, ts, ⟨st, sp, ac, br⟩⟩ := cmd
    constructor
    · intro h100
      simp only at h100
      subst h100
      have hbad : v.is_sensor_data_valid ⟨.fin 100, sp, ac, br⟩ = false := by
        unfold CommandValidator.is_sensor_data_valid
        simp only [hd1, F32.gt, F32.lt, F32.abs]
        norm_num
      rw [validate_result]
      simp [hf, hq, hbad]
    · intro hst hsp hac
      simp only at hst hsp hac
      have hok : v.is_sensor_data_valid ⟨st, sp, ac, br⟩ = true := by
        rcases hst with rfl | rfl <;> rcases hsp with rfl | rfl <;>
          rcases hac with rfl | rfl <;>
          exact (is_sensor_data_valid_fin v 45 30 5 _ _ _ br hd1 hd2 hd3).2
            (by norm_num)
      rw [validate_result]
      simp [hf, hq, hok]

/-- Counterexample to C7 as stated: with `max_steering_angle` set to NaN through
`set_config`, a steering angle of 1000 passes the range check, although
`|1000| ≤ max_steering_angle` does not hold; the command is VALID for `validate()`, and the
processor stores it and passes it to the BCM callback. -/
theorem nan_limit_is_not_enforced :
    (CommandValidator.new.set_config ⟨200, .nan, .fin 30, .fin 5⟩).is_sensor_data_valid
      ⟨.fin 1000, .fin 5, .fin 0, false⟩ = true ∧
    ((CommandValidator.new.set_config ⟨200, .nan, .fin 30, .fin 5⟩).validate
      ⟨.REMOTE, 1, 0, ⟨.fin 1000, .fin 5, .fin 0, false⟩⟩ 0).1.result = .VALID ∧
    ((CommandProcessor.new.run [.init true true 0,
        .set_config ⟨⟨200, .nan, .fin 30, .fin 5⟩, ⟨10, true⟩, ⟨50⟩⟩, .start 0,
        .process_command .REMOTE ⟨.fin 1000, .fin 5, .fin 0, false⟩ 1 0,
        .forwarder_tick 1000000 1000000 1000000 1000000 1000000]).map
          (fun p => p.bcm_calls)) =
      some [⟨.REMOTE, 1, 0, ⟨.fin 1000, .fin 5, .fin 0, false⟩⟩] := by
  decide


/-! ### Freshness -/

/-- The truncated age is at most `t` milliseconds exactly when the age is below `t + 1`
milliseconds. -/
theorem duration_cast_ms_le_iff (d t : Int) (ht : 0 ≤ t) :
    duration_cast_ms d ≤ t ↔ d < (t + 1) * TICKS_PER_MS := by
  unfold duration_cast_ms TICKS_PER_MS
  by_cases hd : 0 ≤ d
  · rw [Int.tdiv_eq_ediv hd (by decide)]
    omega
  · have hneg : d = -(-d) := by omega
    rw [hneg, Int.neg_tdiv, Int.tdiv_eq_ediv (by omega) (by decide)]
    omega

theorem is_fresh_iff (cmd : Command) (now : TimePoint) :
    LatestCommandSlot.is_fresh cmd now = true ↔
      now - cmd.timestamp < (COMMAND_FRESHNESS_TIMEOUT_MS + 1) * TICKS_PER_MS := by
  unfold LatestCommandSlot.is_fresh
  simp only [decide_eq_true_eq]
  exact duration_cast_ms_le_iff _ _ (by decide)

/-- What `get` returns is the content of the slot, and it is fresh. -/
theorem get_some (slot : LatestCommandSlot) (s : CommandSource) (now : TimePoint)
    (c : Command) (h : slot.get s now = some c) :
    LatestCommandSlot.is_fresh c now = true ∧
      ∃ hs : s.toNat < NUM_SOURCES, slot.slots_ ⟨s.toNat, hs⟩ = some c := by
  unfold LatestCommandSlot.get at h
  simp only at h
  split at h
  · simp at h
  · rename_i hlt
    split at h
    · simp at h
    · rename_i cmd hcmd
      by_cases hf : LatestCommandSlot.is_fresh cmd now = true
      · simp only [hf, Bool.not_true, Bool.false_eq_true, if_false, Option.some.injEq] at h
        subst h
        exact ⟨hf, Nat.lt_of_not_ge hlt, hcmd⟩
      · simp [hf] at h

/-- What `select_by_priority` returns is what `get` returns for some source. -/
theorem select_by_priority_some (slot : LatestCommandSlot) (now : TimePoint) (c : Command)
    (h : PrioritySelector.select_by_priority slot now = some c) :
    ∃ s, slot.get s now = some c := by
  unfold PrioritySelector.select_by_priority at h
  split at h
  · rename_i c0 h0; exact ⟨.SAFETY, by rw [h0]; exact h⟩
  · split at h
    · rename_i c1 h1; exact ⟨.MANUAL, by rw [h1]; exact h⟩
    · split at h
      · rename_i c2 h2; exact ⟨.REMOTE, by rw [h2]; exact h⟩
      · split at h
        · rename_i c3 h3; exact ⟨.AUTONOMOUS, by rw [h3]; exact h⟩
        · simp at h

/-- C8, as the code has it: freshness is decided on the age truncated to whole
milliseconds.  Every command returned by `get()` or `select()` at `now` has an age below
201 ms, and `validate()` returns STALE_TIMESTAMP exactly when the truncated age exceeds
`freshness_timeout`, which for a timeout that is not negative means an age of at least
`freshness_timeout + 1` ms. -/
theorem freshness_on_whole_milliseconds (slot : LatestCommandSlot) (sel : PrioritySelector)
    (v : CommandValidator) (s : CommandSource) (c cmd : Command) (now : TimePoint) :
    (slot.get s now = some c →
      now - c.timestamp < (COMMAND_FRESHNESS_TIMEOUT_MS + 1) * TICKS_PER_MS) ∧
    ((sel.select slot now).1 = some c →
      now - c.timestamp < (COMMAND_FRESHNESS_TIMEOUT_MS + 1) * TICKS_PER_MS) ∧
    ((v.validate cmd now).1.result = .STALE_TIMESTAMP ↔
      duration_cast_ms (now - cmd.timestamp) > v.config_.freshness_timeout_ms) ∧
    (0 ≤ v.config_.freshness_timeout_ms →
      ((v.validate cmd now).1.result = .STALE_TIMESTAMP ↔
        now - cmd.timestamp ≥ (v.config_.freshness_timeout_ms + 1) * TICKS_PER_MS)) := by
  have hget : ∀ s2, slot.get s2 now = some c →
      now - c.timestamp < (COMMAND_FRESHNESS_TIMEOUT_MS + 1) * TICKS_PER_MS :=
    fun s2 h => (is_fresh_iff c now).1 (get_some slot s2 now c h).1
  have hstale : (v.validate cmd now).1.result = .STALE_TIMESTAMP ↔
      duration_cast_ms (now - cmd.timestamp) > v.config_.freshness_timeout_ms := by
    rw [validate_result]
    by_cases h1 : v.is_timestamp_fresh cmd.timestamp now = true
    · have h1' := h1
      unfold CommandValidator.is_timestamp_fresh at h1'
      simp only [decide_eq_true_eq] at h1'
      by_cases h2 : (v.is_sequence_valid cmd.source cmd.sequence_number).1 = true <;>
        by_cases h3 : v.is_sensor_data_valid cmd.sensor_data = true <;>
        simp [h1, h2, h3] <;> exact h1'
    · have h1' := h1
      unfold CommandValidator.is_timestamp_fresh at h1'
      simp only [decide_eq_true_eq, not_le] at h1'
      simp [h1]
      exact h1'
  refine ⟨hget s, ?_, hstale, ?_⟩
  · intro h
    rw [select_fst] at h
    obtain ⟨s2, hs2⟩ := select_by_priority_some slot now c h
    exact hget s2 hs2
  · intro ht
    rw [hstale]
    have := duration_cast_ms_le_iff (now - cmd.timestamp) _ ht
    constructor
    · intro h
      by_contra hlt
      exact absurd (this.2 (not_le.1 hlt)) (not_le.2 h)
    · intro h
      by_contra hle
      exact absurd (this.1 (not_lt.1 hle)) (not_lt.2 h)

/-- A validator with the default timeout and a command aged 201 ms: STALE_TIMESTAMP. -/
theorem freshness_on_whole_milliseconds_witness :
    (CommandValidator.new.validate
      ⟨.REMOTE, 1, 0, ⟨.fin 15, .fin 5, .fin 0, false⟩⟩ 201000000).1.result =
        .STALE_TIMESTAMP :=
  ((freshness_on_whole_milliseconds LatestCommandSlot.new PrioritySelector.new
      CommandValidator.new .REMOTE ⟨.REMOTE, 1, 0, ⟨.fin 15, .fin 5, .fin 0, false⟩⟩
      ⟨.REMOTE, 1, 0, ⟨.fin 15, .fin 5, .fin 0, false⟩⟩ 201000000).2.2.2
    (by decide)).2 (by decide)

/-- Counterexample to C8 as stated: a command with timestamp 0 is returned by `get()` and
by `select()` and is accepted by `validate()` at the clock reading 200.5 ms, when its age
exceeds the 200 ms of the timeout. -/
theorem age_200500_microseconds_is_fresh :
    (200 : Int) * TICKS_PER_MS < 200500000 - 0 ∧
    ((LatestCommandSlot.new.store
        ⟨.REMOTE, 1, 0, ⟨.fin 15, .fin 5, .fin 0, false⟩⟩).get .REMOTE 200500000 =
      some ⟨.REMOTE, 1, 0, ⟨.fin 15, .fin 5, .fin 0, false⟩⟩) ∧
    ((PrioritySelector.new.select
        (LatestCommandSlot.new.store ⟨.REMOTE, 1, 0, ⟨.fin 15, .fin 5, .fin 0, false⟩⟩)
        200500000).1 =
      some ⟨.REMOTE, 1, 0, ⟨.fin 15, .fin 5, .fin 0, false⟩⟩) ∧
    (CommandValidator.new.validate
      ⟨.REMOTE, 1, 0, ⟨.fin 15, .fin 5, .fin 0, false⟩⟩ 200500000).1.result = .VALID := by
  decide


/-! ### Storing -/

theorem toNat_lt_of_ne_NONE (s : CommandSource) (h : s ≠ .NONE) : s.toNat < NUM_SOURCES := by
  cases s <;> first | decide | exact absurd rfl h

theorem toNat_injective (s t : CommandSource) (h : s.toNat = t.toNat) : s = t := by
  cases s <;> cases t <;> simp [CommandSource.toNat] at h ⊢

/-- The array after `store`: the slot of the command's source holds the command and the
other slots are unchanged. -/
theorem store_slots (slot : LatestCommandSlot) (c : Command) (h : c.source ≠ .NONE) :
    (slot.store c).slots_ ⟨c.source.toNat, toNat_lt_of_ne_NONE c.source h⟩ = some c ∧
    ∀ i : Fin NUM_SOURCES, i.val ≠ c.source.toNat → (slot.store c).slots_ i = slot.slots_ i := by
  have hlt := toNat_lt_of_ne_NONE c.source h
  unfold LatestCommandSlot.store
  simp only [ge_iff_le, not_le.2 hlt, dite_false]
  constructor
  · simp
  · intro i hi
    have : i ≠ ⟨c.source.toNat, hlt⟩ := fun heq => hi (by rw [heq])
    simp [Function.update, this]

/-- A command with source NONE is not stored. -/
theorem store_NONE (slot : LatestCommandSlot) (c : Command) (h : c.source = .NONE) :
    slot.store c = slot := by
  unfold LatestCommandSlot.store
  rw [h]
  exact dif_pos (by decide)

/-- The value of `get` in terms of the array. -/
theorem get_eq (slot : LatestCommandSlot) (s : CommandSource) (now : TimePoint)
    (h : s.toNat < NUM_SOURCES) :
    slot.get s now =
      match slot.slots_ ⟨s.toNat, h⟩ with
      | none => none
      | some cmd => if LatestCommandSlot.is_fresh cmd now = true then some cmd else none := by
  unfold LatestCommandSlot.get
  rw [dif_neg (not_le.2 h)]
  cases slot.slots_ ⟨s.toNat, h⟩ with
  | none => rfl
  | some cmd => by_cases hf : LatestCommandSlot.is_fresh cmd now = true <;> simp [hf]

/-- C10: after `store(c)` of a command with one of the four real sources, `get(c.source)`
at any `now` at which `c` is within the freshness window returns exactly `c`, whatever
the slot held before; `select()` at that time returns `c` unless `get()` is non-empty for
a source of higher priority, in which case it returns the command of such a source; and
`get(s)` for every other source `s` returns what it returned before the store. -/
theorem store_visible_to_get_and_select (slot : LatestCommandSlot) (sel : PrioritySelector)
    (c : Command) (now : TimePoint) (hsrc : c.source ≠ .NONE)
    (hage : now - c.timestamp < (COMMAND_FRESHNESS_TIMEOUT_MS + 1) * TICKS_PER_MS) :
    (slot.store c).get c.source now = some c ∧
    ((∀ s2 : CommandSource, s2.toNat < c.source.toNat →
        (slot.store c).get s2 now = none) →
      (sel.select (slot.store c) now).1 = some c) ∧
    (∀ (s2 : CommandSource) (c2 : Command), s2.toNat < c.source.toNat →
      (slot.store c).get s2 now = some c2 →
      ∃ (s3 : CommandSource) (c3 : Command), s3.toNat < c.source.toNat ∧
        (slot.store c).get s3 now = some c3 ∧
        (sel.select (slot.store c) now).1 = some c3) ∧
    (∀ (s : CommandSource) (t : TimePoint), s ≠ c.source →
      (slot.store c).get s t = slot.get s t) := by
  have hlt := toNat_lt_of_ne_NONE c.source hsrc
  have hst := store_slots slot c hsrc
  have hget : (slot.store c).get c.source now = some c := by
    rw [get_eq _ _ _ hlt, hst.1]
    simp [(is_fresh_iff c now).2 hage]
  have hsel := select_by_priority_first (slot.store c) now
  refine ⟨hget, ?_, ?_, ?_⟩
  · intro hnone
    rw [select_fst]
    exact hsel.1 c.source c hget hnone
  · intro s2 c2 hs2 hg2
    rw [select_fst]
    cases hres : PrioritySelector.select_by_priority (slot.store c) now with
    | none =>
      obtain ⟨h0, h1, h2, h3⟩ := hsel.2.2.1.1 hres
      cases s2
      · rw [h0] at hg2; simp at hg2
      · rw [h1] at hg2; simp at hg2
      · rw [h2] at hg2; simp at hg2
      · rw [h3] at hg2; simp at hg2
      · rw [get_NONE] at hg2; simp at hg2
    | some c3 =>
      obtain ⟨s3, _, hg3, hmin⟩ := hsel.2.1 c3 hres
      refine ⟨s3, c3, ?_, hg3, rfl⟩
      by_contra hge
      have hle : s2.toNat < s3.toNat := by omega
      have := hmin s2 hle
      rw [hg2] at this
      simp at this
  · intro s t hne
    by_cases hs : s.toNat < NUM_SOURCES
    · rw [get_eq _ _ _ hs, get_eq _ _ _ hs]
      have hidx : (⟨s.toNat, hs⟩ : Fin NUM_SOURCES).val ≠ c.source.toNat :=
        fun heq => hne (toNat_injective _ _ heq)
      rw [hst.2 ⟨s.toNat, hs⟩ hidx]
    · unfold LatestCommandSlot.get
      rw [dif_pos (not_lt.1 hs), dif_pos (not_lt.1 hs)]

/-- A fresh MANUAL command stored over a slot array that holds an older MANUAL command
with a larger sequence number and a REMOTE command: `get(MANUAL)` and `select()` return
the new one. -/
theorem store_visible_to_get_and_select_witness :
    (((LatestCommandSlot.new.store
          ⟨.MANUAL, 9, 0, ⟨.fin 15, .fin 5, .fin 0, false⟩⟩).store
          ⟨.REMOTE, 4, 1000000, ⟨.fin 15, .fin 5, .fin 0, false⟩⟩).store
        ⟨.MANUAL, 2, 5000000, ⟨.fin (-10), .fin 3, .fin 0, false⟩⟩).get .MANUAL 20000000 =
      some ⟨.MANUAL, 2, 5000000, ⟨.fin (-10), .fin 3, .fin 0, false⟩⟩ ∧
    (PrioritySelector.new.select
      (((LatestCommandSlot.new.store
          ⟨.MANUAL, 9, 0, ⟨.fin 15, .fin 5, .fin 0, false⟩⟩).store
          ⟨.REMOTE, 4, 1000000, ⟨.fin 15, .fin 5, .fin 0, false⟩⟩).store
        ⟨.MANUAL, 2, 5000000, ⟨.fin (-10), .fin 3, .fin 0, false⟩⟩) 20000000).1 =
      some ⟨.MANUAL, 2, 5000000, ⟨.fin (-10), .fin 3, .fin 0, false⟩⟩ :=
  have h := store_visible_to_get_and_select
    ((LatestCommandSlot.new.store
        ⟨.MANUAL, 9, 0, ⟨.fin 15, .fin 5, .fin 0, false⟩⟩).store
      ⟨.REMOTE, 4, 1000000, ⟨.fin 15, .fin 5, .fin 0, false⟩⟩)
    PrioritySelector.new ⟨.MANUAL, 2, 5000000, ⟨.fin (-10), .fin 3, .fin 0, false⟩⟩
    20000000 (by decide) (by decide)
  ⟨h.1, h.2.1 (fun s2 hlt => by
    cases s2 <;> first | rfl | exact absurd hlt (by decide))⟩


/-! ### The processor -/

/-- The state after `handle_command` on a processor whose validator and slot object
exist. -/
theorem handle_command_eq (p : CommandProcessor) (v : CommandValidator)
    (slot : LatestCommandSlot) (cmd : Command) (now : TimePoint)
    (hv : p.validator_ = some v) (hs : p.command_slot_ = some slot) :
    ∃ p2, p.handle_command cmd now = some p2 ∧
      p2.validator_ = some (v.validate cmd now).2 ∧
      p2.command_slot_ =
        some (if (v.validate cmd now).1.result = .VALID then slot.store cmd else slot) ∧
      p2.current_state_ = p.current_state_ ∧
      p2.bcm_calls = p.bcm_calls ∧
      p2.initialized_ = p.initialized_ := by
  unfold CommandProcessor.handle_command CommandProcessor.handle_validation_result
  by_cases hr : (v.validate cmd now).1.result = .VALID
  · simp [CommandProcessor.log, hv, hs, hr]
  · simp [CommandProcessor.log, hv, hs, hr]

/-! ### Reachable states -/

theorem sameParts_log (p : CommandProcessor) (r : LogRecord) : sameParts p (p.log r) :=
  ⟨rfl, rfl, rfl, rfl, rfl, rfl, rfl⟩

theorem sameParts_transition_state (p : CommandProcessor) (st : SystemState)
    (reason : String) : sameParts p (p.transition_state st reason) := by
  unfold CommandProcessor.transition_state
  split
  · exact ⟨rfl, rfl, rfl, rfl, rfl, rfl, rfl⟩
  · exact ⟨rfl, rfl, rfl, rfl, rfl, rfl, rfl⟩

theorem sameParts_forward_callback (p q : CommandProcessor) (cmd : Command)
    (now : TimePoint) (h : p.forward_callback cmd now = some q) : sameParts p q := by
  unfold CommandProcessor.forward_callback at h
  cases hb : p.bcm_callback_ <;> cases hw : p.watchdog_ <;>
    simp [hb, hw, CommandProcessor.log] at h
  all_goals (subst h; simp [sameParts, hw])

theorem sameParts_handle_command (p q : CommandProcessor) (cmd : Command)
    (now : TimePoint) (h : p.handle_command cmd now = some q) : sameParts p q := by
  unfold CommandProcessor.handle_command CommandProcessor.handle_validation_result at h
  cases hv : p.validator_ with
  | none => simp [hv, CommandProcessor.log] at h
  | some v =>
    cases hs : p.command_slot_ with
    | none =>
      by_cases hr : (v.validate cmd now).1.result = .VALID
      · simp [hv, hs, hr, CommandProcessor.log] at h
      · simp [hv, hs, hr, CommandProcessor.log] at h
        subst h; simp [sameParts, hv, hs]
    | some slot =>
      by_cases hr : (v.validate cmd now).1.result = .VALID
      · simp [hv, hs, hr, CommandProcessor.log] at h
        subst h; simp [sameParts, hv, hs]
      · simp [hv, hs, hr, CommandProcessor.log] at h
        subst h; simp [sameParts, hv, hs]

theorem sameParts_process_command (p q : CommandProcessor) (source : CommandSource)
    (data : SensorData) (n : Nat) (now : TimePoint)
    (h : p.process_command source data n now = some q) : sameParts p q := by
  unfold CommandProcessor.process_command at h
  cases hi : p.initialized_ with
  | false =>
    simp [hi] at h
    subst h; exact sameParts_log p _
  | true =>
    cases hk : p.intake_ with
    | none => simp [hi, hk] at h
    | some intake =>
      simp only [hi, hk, Bool.not_true, Bool.false_eq_true, if_false, Option.bind_eq_bind,
        Option.some_bind] at h
      cases hr : (intake.receive_command source data n now).2 with
      | none =>
        simp [hr] at h
        subst h; simp [sameParts, hk, hi]
      | some cmd =>
        simp only [hr] at h
        have := sameParts_handle_command _ q cmd now h
        simpa [sameParts, hk, hi] using this

theorem sameParts_start (p q : CommandProcessor) (now : TimePoint)
    (h : p.start now = some q) : sameParts p q := by
  unfold CommandProcessor.start at h
  cases hi : p.initialized_ with
  | false =>
    simp [hi] at h
    subst h; exact sameParts_log p _
  | true =>
    cases hf : p.forwarder_ <;> cases hw : p.watchdog_ <;>
      simp [hi, hf, hw, CommandProcessor.log] at h
    subst h; simp [sameParts, hf, hw, hi]

theorem sameParts_stop (p : CommandProcessor) : sameParts p p.stop := by
  unfold CommandProcessor.stop
  cases hi : p.initialized_ with
  | false => simp [sameParts]
  | true => simp [sameParts, CommandProcessor.log, hi]

theorem sameParts_trigger_emergency_stop (p q : CommandProcessor)
    (h : p.trigger_emergency_stop = some q) : sameParts p q := by
  unfold CommandProcessor.trigger_emergency_stop at h
  cases hs : p.command_slot_ with
  | none => simp [hs, CommandProcessor.log] at h
  | some slot =>
    simp only [CommandProcessor.log, hs, Option.bind_eq_bind, Option.some_bind, Option.pure_def,
      Option.some.injEq] at h
    subst h
    have := sameParts_transition_state
      { p with
        logger_ := p.logger_ ++ [.error "CommandProcessor" "Manual emergency stop triggered"]
        command_slot_ := some slot.clear_all } .EMERGENCY_STOP "Manual trigger"
    simpa [sameParts, hs] using this

theorem sameParts_reset (p q : CommandProcessor) (b : Bool)
    (h : p.reset = some (b, q)) : sameParts p q := by
  unfold CommandProcessor.reset at h
  cases hs : p.command_slot_ with
  | none => simp [hs, CommandProcessor.log] at h
  | some slot =>
    cases hv : p.validator_ with
    | none => simp [hs, hv, CommandProcessor.log] at h
    | some v =>
      cases hp : p.priority_selector_ with
      | none => simp [hs, hv, hp, CommandProcessor.log] at h
      | some sel =>
        simp only [CommandProcessor.log, hs, hv, hp, Option.bind_eq_bind, Option.some_bind,
          Option.pure_def, Option.some.injEq, Prod.mk.injEq] at h
        obtain ⟨_, h⟩ := h
        subst h
        have := sameParts_transition_state
          { p with
            logger_ := p.logger_ ++
              [.info "CommandProcessor" "Resetting to normal operation..."]
            command_slot_ := some slot.clear_all
            validator_ := some v.reset
            priority_selector_ := some sel.reset_statistics }
          .NORMAL_OPERATION "Manual reset"
        simpa [sameParts, hs, hv, hp] using this

theorem sameParts_set_config (p q : CommandProcessor) (config : CommandProcessor.Config)
    (h : p.set_config config = some q) : sameParts p q := by
  unfold CommandProcessor.set_config at h
  cases hv : p.validator_ <;> cases hf : p.forwarder_ <;> cases hw : p.watchdog_ <;>
    simp [hv, hf, hw] at h
  subst h; simp [sameParts, hv, hf, hw]

theorem sameParts_forwarding_loop_iteration (p q : CommandProcessor)
    (loop_start now feed_time forward_time loop_end : TimePoint)
    (h : p.forwarding_loop_iteration loop_start now feed_time forward_time loop_end = some q) :
    sameParts p q := by
  unfold CommandProcessor.forwarding_loop_iteration at h
  cases hf : p.forwarder_ with
  | none =>
    simp [hf] at h
    subst h; simp [sameParts]
  | some fwd =>
    cases hp : p.priority_selector_ with
    | none => simp [hf, hp] at h
    | some sel =>
      cases hs : p.command_slot_ with
      | none => simp [hf, hp, hs] at h
      | some slot =>
        simp only [hf, hp, hs, Option.bind_eq_bind, Option.some_bind] at h
        cases hout : (fwd.forwarding_loop_iteration sel slot
            loop_start now forward_time loop_end).2.2 with
        | none =>
          simp [hout] at h
          subst h; simp [sameParts, hf, hp, hs]
        | some cmd =>
          simp only [hout] at h
          have := sameParts_forward_callback _ q cmd feed_time h
          simpa [sameParts, hf, hp, hs] using this

theorem sameParts_heartbeat_loop_iteration (p : CommandProcessor) (now : TimePoint) :
    sameParts p (p.heartbeat_loop_iteration now) := by
  unfold CommandProcessor.heartbeat_loop_iteration
  cases hw : p.watchdog_ with
  | none => simp [sameParts]
  | some wd =>
    cases hc : p.watchdog_callback_ <;>
      cases hb : (wd.heartbeat_loop_iteration now).2 <;>
      simp [sameParts, CommandProcessor.log, hw, hc, hb]

theorem wired_of_sameParts (p q : CommandProcessor) (hw : p.Wired) (h : sameParts p q) :
    q.Wired := by
  unfold CommandProcessor.Wired at hw ⊢
  obtain ⟨h0, h1, h2, h3, h4, h5, h6⟩ := h
  rw [h0, h1, h2, h3, h4, h5, h6]
  exact hw

theorem wired_initialize (p : CommandProcessor) (b w : Bool) (now : TimePoint)
    (hw : p.Wired) : ( CommandProcessor.initialize p b w now).2.Wired := by
  unfold CommandProcessor.initialize
  cases hi : p.initialized_ with
  | true =>
    simp only [if_true]
    exact wired_of_sameParts p _ hw (sameParts_log p _)
  | false =>
    simp only [Bool.false_eq_true, if_false]
    refine wired_of_sameParts _ _ ?_ (sameParts_log _ _)
    refine wired_of_sameParts _ _ ?_ (sameParts_transition_state _ _ _)
    intro _
    simp [CommandProcessor.log]

theorem wired_new : CommandProcessor.new.Wired := by
  intro h
  simp [CommandProcessor.new] at h

theorem wired_step (p q : CommandProcessor) (call : Call) (hw : p.Wired)
    (hq : p.step call = some q) : q.Wired := by
  cases call with
  | init b w now =>
    simp only [CommandProcessor.step, Option.some.injEq] at hq
    subst hq
    exact wired_initialize p b w now hw
  | start now => exact wired_of_sameParts p q hw (sameParts_start p q now hq)
  | stop =>
    simp only [CommandProcessor.step, Option.some.injEq] at hq
    subst hq
    exact wired_of_sameParts p _ hw (sameParts_stop p)
  | process_command source data n now =>
    exact wired_of_sameParts p q hw (sameParts_process_command p q source data n now hq)
  | trigger_emergency_stop =>
    exact wired_of_sameParts p q hw (sameParts_trigger_emergency_stop p q hq)
  | reset =>
    simp only [CommandProcessor.step, Option.map_eq_some'] at hq
    obtain ⟨⟨b, q2⟩, hr, hq2⟩ := hq
    simp only at hq2
    subst hq2
    exact wired_of_sameParts p _ hw (sameParts_reset p _ b hr)
  | set_config config =>
    exact wired_of_sameParts p q hw (sameParts_set_config p q config hq)
  | forwarder_tick loop_start now feed_time forward_time loop_end =>
    exact wired_of_sameParts p q hw
      (sameParts_forwarding_loop_iteration p q loop_start now feed_time forward_time loop_end hq)
  | heartbeat_tick now =>
    simp only [CommandProcessor.step, Option.some.injEq] at hq
    subst hq
    exact wired_of_sameParts p _ hw (sameParts_heartbeat_loop_iteration p now)

/-- Every processor reached from a processor with its components by calls has its
components once it is initialized. -/
theorem wired_run (calls : List Call) :
    ∀ (p q : CommandProcessor), p.Wired → p.run calls = some q → q.Wired := by
  induction calls with
  | nil =>
    intro p q hw hq
    simp only [CommandProcessor.run, Option.some.injEq] at hq
    subst hq; exact hw
  | cons call rest ih =>
    intro p q hw hq
    simp only [CommandProcessor.run] at hq
    cases hstep : p.step call with
    | none => simp [hstep] at hq
    | some next =>
      simp only [hstep, Option.some_bind] at hq
      exact ih next q (wired_step p next call hw hstep) hq

/-- C9: on an initialized processor, reached from the constructor by calls,
`handle_command` returns, and: if `validate()` returns VALID and the source is one of the
four real sources, the slot of `cmd.source` holds exactly `cmd` afterwards and the other
slots are unchanged; if `validate()` returns another outcome, the slots and the
SystemState are unchanged. -/
theorem handle_command_stores_valid_drops_invalid (calls : List Call)
    (p : CommandProcessor) (cmd : Command) (now : TimePoint)
    (hreach : CommandProcessor.new.run calls = some p) (hinit : p.initialized_ = true) :
    ∃ (v : CommandValidator) (slot : LatestCommandSlot) (p2 : CommandProcessor)
      (slot2 : LatestCommandSlot),
      p.validator_ = some v ∧ p.command_slot_ = some slot ∧
      p.handle_command cmd now = some p2 ∧ p2.command_slot_ = some slot2 ∧
      ((v.validate cmd now).1.result = .VALID → ∀ hsrc : cmd.source ≠ .NONE,
        slot2.slots_ ⟨cmd.source.toNat, toNat_lt_of_ne_NONE cmd.source hsrc⟩ = some cmd ∧
        (∀ i : Fin NUM_SOURCES, i.val ≠ cmd.source.toNat →
          slot2.slots_ i = slot.slots_ i) ∧
        p2.current_state_ = p.current_state_) ∧
      ((v.validate cmd now).1.result ≠ .VALID →
        slot2 = slot ∧ p2.current_state_ = p.current_state_) := by
  obtain ⟨_, hv, hs, _, _, _⟩ := wired_run calls _ p wired_new hreach hinit
  obtain ⟨v, hv⟩ := Option.isSome_iff_exists.1 hv
  obtain ⟨slot, hs⟩ := Option.isSome_iff_exists.1 hs
  obtain ⟨p2, hp2, _, hslot, hstate, _, _⟩ := handle_command_eq p v slot cmd now hv hs
  refine ⟨v, slot, p2, _, hv, hs, hp2, hslot, ?_, ?_⟩
  · intro hvalid hsrc
    rw [if_pos hvalid]
    exact ⟨(store_slots slot cmd hsrc).1, (store_slots slot cmd hsrc).2, hstate⟩
  · intro hinvalid
    rw [if_neg hinvalid]
    exact ⟨rfl, hstate⟩

/-- Scenario S4 on a processor just initialized: a REMOTE command with steering 100 is
handled and leaves the slot object and the state as they were. -/
theorem handle_command_stores_valid_drops_invalid_witness :
    ∃ (p2 : CommandProcessor) (slot2 : LatestCommandSlot),
      ( CommandProcessor.initialize CommandProcessor.new true true 0).2.handle_command
        ⟨.REMOTE, 1, 0, ⟨.fin 100, .fin 5, .fin 0, false⟩⟩ 0 = some p2 ∧
      p2.command_slot_ = some slot2 ∧ slot2 = LatestCommandSlot.new ∧
      p2.current_state_ = .NORMAL_OPERATION := by
  obtain ⟨v, slot, p2, slot2, hv, hs, h, hslot2, _, hinv⟩ :=
    handle_command_stores_valid_drops_invalid [.init true true 0]
      ( CommandProcessor.initialize CommandProcessor.new true true 0).2
      ⟨.REMOTE, 1, 0, ⟨.fin 100, .fin 5, .fin 0, false⟩⟩ 0 rfl rfl
  have hv2 : CommandValidator.new = v := Option.some.inj hv
  have hs2 : LatestCommandSlot.new = slot := Option.some.inj hs
  subst hv2 hs2
  exact ⟨p2, slot2, h, hslot2, (hinv (by decide)).1, (hinv (by decide)).2⟩


/-! ### Reading the slots -/

/-- The result of `select` does not depend on the selector. -/
theorem select_twice (sel : PrioritySelector) (slot : LatestCommandSlot) (now : TimePoint) :
    ((sel.select slot now).2.select slot now).1 = (sel.select slot now).1 := by
  rw [select_fst, select_fst]

/-- The slot object after an iteration of the forwarder loop is the one before it. -/
theorem forwarding_loop_iteration_slot (p q : CommandProcessor)
    (loop_start now feed_time forward_time loop_end : TimePoint)
    (h : p.forwarding_loop_iteration loop_start now feed_time forward_time loop_end = some q) :
    q.command_slot_ = p.command_slot_ := by
  unfold CommandProcessor.forwarding_loop_iteration at h
  cases hf : p.forwarder_ with
  | none =>
    simp [hf] at h
    subst h; rfl
  | some fwd =>
    cases hp : p.priority_selector_ with
    | none => simp [hf, hp] at h
    | some sel =>
      cases hs : p.command_slot_ with
      | none => simp [hf, hp, hs] at h
      | some slot =>
        simp only [hf, hp, hs, Option.bind_eq_bind, Option.some_bind] at h
        cases hout : (fwd.forwarding_loop_iteration sel slot
            loop_start now forward_time loop_end).2.2 with
        | none =>
          simp [hout] at h
          subst h; simp [hs]
        | some cmd =>
          simp only [hout] at h
          unfold CommandProcessor.forward_callback at h
          cases hb : p.bcm_callback_ <;> cases hw : p.watchdog_ <;>
            simp [hb, hw, CommandProcessor.log] at h
          all_goals (subst h; simp [hs])

/-- The value of `get_command_age_ms` for an occupied slot: the age in whole milliseconds,
converted to `uint32_t`. -/
theorem get_command_age_ms_eq (slot : LatestCommandSlot) (s : CommandSource)
    (hs : s.toNat < NUM_SOURCES) (c : Command) (now : TimePoint)
    (hc : slot.slots_ ⟨s.toNat, hs⟩ = some c) :
    slot.get_command_age_ms s now =
      (duration_cast_ms (now - c.timestamp) % (UINT32_MOD : Int)).toNat := by
  unfold LatestCommandSlot.get_command_age_ms
  rw [dif_neg (not_le.2 hs), hc]

/-- C11, as the code has it: reading never changes the slots.  `get` and `select` only
return a value, and the slot object after an iteration of the forwarder loop, which calls
`select()`, is the one before it, whether a command was returned or not; a second
`select()` at the same time returns the same command as the first.  So a stale command
stays in its slot: `get()` returns empty for it, `get()` at a time at which it is fresh
returns it, and `get_command_age_ms` reports the age in whole milliseconds converted to
`uint32_t`.  That value is the age, and not UINT32_MAX, while the age is below
`2 ^ 32 - 1` ms; at an age of `2 ^ 32 - 1` ms it is UINT32_MAX, the value for an empty slot,
and beyond that it is the age modulo `2 ^ 32`. -/
theorem reading_keeps_slots :
    (∀ (p q : CommandProcessor) (loop_start now feed_time forward_time loop_end : TimePoint),
      p.forwarding_loop_iteration loop_start now feed_time forward_time loop_end = some q →
      q.command_slot_ = p.command_slot_) ∧
    (∀ (sel : PrioritySelector) (slot : LatestCommandSlot) (now : TimePoint),
      ((sel.select slot now).2.select slot now).1 = (sel.select slot now).1) ∧
    (∀ (slot : LatestCommandSlot) (s : CommandSource) (hs : s.toNat < NUM_SOURCES)
      (c : Command) (now : TimePoint), slot.slots_ ⟨s.toNat, hs⟩ = some c →
      (LatestCommandSlot.is_fresh c now = false → slot.get s now = none) ∧
      (LatestCommandSlot.is_fresh c now = true → slot.get s now = some c) ∧
      slot.get_command_age_ms s now =
        (duration_cast_ms (now - c.timestamp) % (UINT32_MOD : Int)).toNat ∧
      (0 ≤ duration_cast_ms (now - c.timestamp) →
        duration_cast_ms (now - c.timestamp) < (UINT32_MOD : Int) - 1 →
        (slot.get_command_age_ms s now : Int) = duration_cast_ms (now - c.timestamp) ∧
        slot.get_command_age_ms s now ≠ UINT32_MOD - 1) ∧
      (duration_cast_ms (now - c.timestamp) = (UINT32_MOD : Int) - 1 →
        slot.get_command_age_ms s now = UINT32_MOD - 1)) := by
  refine ⟨forwarding_loop_iteration_slot, select_twice, ?_⟩
  intro slot s hs c now hc
  have hage := get_command_age_ms_eq slot s hs c now hc
  refine ⟨?_, ?_, hage, ?_, ?_⟩
  · intro hstale
    rw [get_eq _ _ _ hs, hc]
    simp [hstale]
  · intro hfresh
    rw [get_eq _ _ _ hs, hc]
    simp [hfresh]
  · intro hpos hlt
    have hmod : duration_cast_ms (now - c.timestamp) % (UINT32_MOD : Int) =
        duration_cast_ms (now - c.timestamp) :=
      Int.emod_eq_of_lt hpos (by omega)
    rw [hage, hmod]
    constructor
    · exact Int.toNat_of_nonneg hpos
    · intro heq
      have h2 : ((duration_cast_ms (now - c.timestamp)).toNat : Int) =
          ((UINT32_MOD - 1 : Nat) : Int) := by rw [heq]
      rw [Int.toNat_of_nonneg hpos] at h2
      have h3 : ((UINT32_MOD - 1 : Nat) : Int) = (UINT32_MOD : Int) - 1 := by
        unfold UINT32_MOD; norm_num
      omega
  · intro heq
    rw [hage, heq]
    unfold UINT32_MOD
    decide

/-- Counterexample to C11 as stated: a REMOTE command stored at time 0 and read at an age
of `2 ^ 32 - 1` ms is stale and still in its slot, and `get_command_age_ms` returns
UINT32_MAX for it, as it does for an empty slot; at an age of `2 ^ 32 + 5` ms it
returns 5. -/
theorem stale_command_age_reported_as_UINT32_MAX :
    (LatestCommandSlot.new.store
        ⟨.REMOTE, 1, 0, ⟨.fin 15, .fin 5, .fin 0, false⟩⟩).slots_ ⟨2, by decide⟩ =
      some ⟨.REMOTE, 1, 0, ⟨.fin 15, .fin 5, .fin 0, false⟩⟩ ∧
    (LatestCommandSlot.new.store
        ⟨.REMOTE, 1, 0, ⟨.fin 15, .fin 5, .fin 0, false⟩⟩).get .REMOTE
          4294967295000000 = none ∧
    (LatestCommandSlot.new.store
        ⟨.REMOTE, 1, 0, ⟨.fin 15, .fin 5, .fin 0, false⟩⟩).get_command_age_ms .REMOTE
          4294967295000000 = 4294967295 ∧
    LatestCommandSlot.new.get_command_age_ms .REMOTE 4294967295000000 = 4294967295 ∧
    (LatestCommandSlot.new.store
        ⟨.REMOTE, 1, 0, ⟨.fin 15, .fin 5, .fin 0, false⟩⟩).get_command_age_ms .REMOTE
          4294967301000000 = 5 := by
  decide

/-! ### Emergency stop and reset -/

/-- The processor after `transition_state`. -/
theorem transition_state_eq (p : CommandProcessor) (st : SystemState) (reason : String) :
    p.transition_state st reason =
      { p with
        current_state_ := st
        logger_ :=
          if p.current_state_ = st then p.logger_
          else p.logger_ ++ [.state_transition p.current_state_ st reason] } := by
  unfold CommandProcessor.transition_state
  by_cases h : p.current_state_ = st
  · simp only [h, ne_eq, not_true_eq_false, if_false, if_true]
    subst h
    cases p
    rfl
  · simp [h, CommandProcessor.log]

/-- The processor after `trigger_emergency_stop`, when its slot object exists. -/
theorem trigger_emergency_stop_eq (p : CommandProcessor) (slot : LatestCommandSlot)
    (hs : p.command_slot_ = some slot) :
    p.trigger_emergency_stop =
      some { p with
        command_slot_ := some slot.clear_all
        current_state_ := .EMERGENCY_STOP
        logger_ :=
          if p.current_state_ = .EMERGENCY_STOP then
            p.logger_ ++ [.error "CommandProcessor" "Manual emergency stop triggered"]
          else
            p.logger_ ++ [.error "CommandProcessor" "Manual emergency stop triggered"] ++
              [.state_transition p.current_state_ .EMERGENCY_STOP "Manual trigger"] } := by
  unfold CommandProcessor.trigger_emergency_stop
  simp only [CommandProcessor.log, hs, Option.bind_eq_bind, Option.some_bind,
    Option.pure_def, transition_state_eq, Option.some.injEq]

/-- The processor after `reset`, when its slot object, validator and selector exist. -/
theorem reset_eq (p : CommandProcessor) (slot : LatestCommandSlot) (v : CommandValidator)
    (sel : PrioritySelector) (hs : p.command_slot_ = some slot)
    (hv : p.validator_ = some v) (hp : p.priority_selector_ = some sel) :
    p.reset =
      some (true, { p with
        command_slot_ := some slot.clear_all
        validator_ := some v.reset
        priority_selector_ := some sel.reset_statistics
        current_state_ := .NORMAL_OPERATION
        logger_ :=
          (if p.current_state_ = .NORMAL_OPERATION then
            p.logger_ ++ [.info "CommandProcessor" "Resetting to normal operation..."]
          else
            p.logger_ ++ [.info "CommandProcessor" "Resetting to normal operation..."] ++
              [.state_transition p.current_state_ .NORMAL_OPERATION "Manual reset"]) ++
            [.info "CommandProcessor" "Reset complete"] }) := by
  unfold CommandProcessor.reset
  simp only [CommandProcessor.log, hs, hv, hp, Option.bind_eq_bind, Option.some_bind,
    Option.pure_def, transition_state_eq, Option.some.injEq]

/-! ### The state machine -/

theorem state_handle_command (p q : CommandProcessor) (cmd : Command) (now : TimePoint)
    (h : p.handle_command cmd now = some q) : q.current_state_ = p.current_state_ := by
  unfold CommandProcessor.handle_command CommandProcessor.handle_validation_result at h
  cases hv : p.validator_ with
  | none => simp [hv, CommandProcessor.log] at h
  | some v =>
    cases hs : p.command_slot_ with
    | none =>
      by_cases hr : (v.validate cmd now).1.result = .VALID
      · simp [hv, hs, hr, CommandProcessor.log] at h
      · simp [hv, hs, hr, CommandProcessor.log] at h
        subst h; rfl
    | some slot =>
      by_cases hr : (v.validate cmd now).1.result = .VALID
      · simp [hv, hs, hr, CommandProcessor.log] at h
        subst h; rfl
      · simp [hv, hs, hr, CommandProcessor.log] at h
        subst h; rfl

theorem state_process_command (p q : CommandProcessor) (source : CommandSource)
    (data : SensorData) (n : Nat) (now : TimePoint)
    (h : p.process_command source data n now = some q) :
    q.current_state_ = p.current_state_ := by
  unfold CommandProcessor.process_command at h
  cases hi : p.initialized_ with
  | false =>
    simp [hi] at h
    subst h; rfl
  | true =>
    cases hk : p.intake_ with
    | none => simp [hi, hk] at h
    | some intake =>
      simp only [hi, hk, Bool.not_true, Bool.false_eq_true, if_false, Option.bind_eq_bind,
        Option.some_bind] at h
      cases hr : (intake.receive_command source data n now).2 with
      | none =>
        simp [hr] at h
        subst h; rfl
      | some cmd =>
        simp only [hr] at h
        have := state_handle_command _ q cmd now h
        simpa using this

theorem state_start (p q : CommandProcessor) (now : TimePoint)
    (h : p.start now = some q) : q.current_state_ = p.current_state_ := by
  unfold CommandProcessor.start at h
  cases hi : p.initialized_ with
  | false =>
    simp [hi] at h
    subst h; rfl
  | true =>
    cases hf : p.forwarder_ <;> cases hw : p.watchdog_ <;>
      simp [hi, hf, hw, CommandProcessor.log] at h
    subst h; rfl

theorem state_stop (p : CommandProcessor) : p.stop.current_state_ = p.current_state_ := by
  unfold CommandProcessor.stop
  cases hi : p.initialized_ <;> simp [CommandProcessor.log]

theorem state_set_config (p q : CommandProcessor) (config : CommandProcessor.Config)
    (h : p.set_config config = some q) : q.current_state_ = p.current_state_ := by
  unfold CommandProcessor.set_config at h
  cases hv : p.validator_ <;> cases hf : p.forwarder_ <;> cases hw : p.watchdog_ <;>
    simp [hv, hf, hw] at h
  subst h; rfl

theorem state_forwarding_loop_iteration (p q : CommandProcessor)
    (loop_start now feed_time forward_time loop_end : TimePoint)
    (h : p.forwarding_loop_iteration loop_start now feed_time forward_time loop_end = some q) :
    q.current_state_ = p.current_state_ := by
  unfold CommandProcessor.forwarding_loop_iteration at h
  cases hf : p.forwarder_ with
  | none =>
    simp [hf] at h
    subst h; rfl
  | some fwd =>
    cases hp : p.priority_selector_ with
    | none => simp [hf, hp] at h
    | some sel =>
      cases hs : p.command_slot_ with
      | none => simp [hf, hp, hs] at h
      | some slot =>
        simp only [hf, hp, hs, Option.bind_eq_bind, Option.some_bind] at h
        cases hout : (fwd.forwarding_loop_iteration sel slot
            loop_start now forward_time loop_end).2.2 with
        | none =>
          simp [hout] at h
          subst h; rfl
        | some cmd =>
          simp only [hout] at h
          unfold CommandProcessor.forward_callback at h
          cases hb : p.bcm_callback_ <;> cases hw : p.watchdog_ <;>
            simp [hb, hw, CommandProcessor.log] at h
          all_goals (subst h; rfl)

theorem state_heartbeat_loop_iteration (p : CommandProcessor) (now : TimePoint) :
    (p.heartbeat_loop_iteration now).current_state_ = p.current_state_ := by
  unfold CommandProcessor.heartbeat_loop_iteration
  cases hw : p.watchdog_ with
  | none => rfl
  | some wd =>
    cases hc : p.watchdog_callback_ <;>
      cases hb : (wd.heartbeat_loop_iteration now).2 <;>
      simp [CommandProcessor.log, hc, hb]

/-- A call other than `initialize`, `trigger_emergency_stop` and `reset` leaves the
SystemState as it is, and `initialize` on an initialized processor does so too. -/
theorem state_step (p q : CommandProcessor) (call : Call) (h : p.step call = some q)
    (hcall : call ≠ .trigger_emergency_stop) (hreset : call ≠ .reset)
    (hinit : (∃ b w now, call = .init b w now) → p.initialized_ = true) :
    q.current_state_ = p.current_state_ := by
  cases call with
  | init b w now =>
    have hi := hinit ⟨b, w, now, rfl⟩
    simp only [CommandProcessor.step, CommandProcessor.initialize, hi, if_true,
      Option.some.injEq] at h
    subst h; rfl
  | start now => exact state_start p q now h
  | stop =>
    simp only [CommandProcessor.step, Option.some.injEq] at h
    subst h; exact state_stop p
  | process_command source data n now => exact state_process_command p q source data n now h
  | trigger_emergency_stop => exact absurd rfl hcall
  | reset => exact absurd rfl hreset
  | set_config config => exact state_set_config p q config h
  | forwarder_tick loop_start now feed_time forward_time loop_end =>
    exact state_forwarding_loop_iteration p q loop_start now feed_time forward_time loop_end h
  | heartbeat_tick now =>
    simp only [CommandProcessor.step, Option.some.injEq] at h
    subst h; exact state_heartbeat_loop_iteration p now

/-- A processor that is not initialized is in state INITIALIZING and has no slot
object: an invariant of the calls. -/
theorem uninitialized_step (p q : CommandProcessor) (call : Call)
    (hp : p.initialized_ = false →
      p.current_state_ = .INITIALIZING ∧ p.command_slot_ = none)
    (h : p.step call = some q) :
    q.initialized_ = false → q.current_state_ = .INITIALIZING ∧ q.command_slot_ = none := by
  intro hq
  have hsame : ¬ (∃ b w now, call = .init b w now) → sameParts p q := by
    intro hno
    cases call with
    | init b w now => exact absurd ⟨b, w, now, rfl⟩ hno
    | start now => exact sameParts_start p q now h
    | stop =>
      simp only [CommandProcessor.step, Option.some.injEq] at h
      subst h; exact sameParts_stop p
    | process_command source data n now =>
      exact sameParts_process_command p q source data n now h
    | trigger_emergency_stop => exact sameParts_trigger_emergency_stop p q h
    | reset =>
      simp only [CommandProcessor.step, Option.map_eq_some'] at h
      obtain ⟨⟨b, q2⟩, hr, hq2⟩ := h
      simp only at hq2
      subst hq2
      exact sameParts_reset p _ b hr
    | set_config config => exact sameParts_set_config p q config h
    | forwarder_tick loop_start now feed_time forward_time loop_end =>
      exact sameParts_forwarding_loop_iteration p q loop_start now feed_time forward_time loop_end h
    | heartbeat_tick now =>
      simp only [CommandProcessor.step, Option.some.injEq] at h
      subst h; exact sameParts_heartbeat_loop_iteration p now
  by_cases hinit : ∃ b w now, call = .init b w now
  · obtain ⟨b, w, now, rfl⟩ := hinit
    simp only [CommandProcessor.step, CommandProcessor.initialize, Option.some.injEq] at h
    cases hpi : p.initialized_ with
    | true =>
      simp only [hpi, if_true] at h
      subst h
      simp [CommandProcessor.log, hpi] at hq
    | false =>
      simp only [hpi, Bool.false_eq_true, if_false, transition_state_eq] at h
      subst h
      simp [CommandProcessor.log] at hq
  · have hs := hsame hinit
    have hpi : p.initialized_ = false := by rw [← hs.1]; exact hq
    obtain ⟨hst, hslot⟩ := hp hpi
    have hqslot : q.command_slot_ = none := by
      have := hs.2.2.2.1
      rw [hslot] at this
      simpa using this
    refine ⟨?_, hqslot⟩
    by_cases ht : call = .trigger_emergency_stop
    · subst ht
      simp [CommandProcessor.step, CommandProcessor.trigger_emergency_stop, hslot,
        CommandProcessor.log] at h
    · by_cases hr : call = .reset
      · subst hr
        simp [CommandProcessor.step, CommandProcessor.reset, hslot,
          CommandProcessor.log] at h
      · rw [state_step p q call h ht hr (fun hex => absurd hex hinit)]
        exact hst

theorem uninitialized_run (calls : List Call) :
    ∀ (p q : CommandProcessor),
      (p.initialized_ = false →
        p.current_state_ = .INITIALIZING ∧ p.command_slot_ = none) →
      p.run calls = some q →
      (q.initialized_ = false →
        q.current_state_ = .INITIALIZING ∧ q.command_slot_ = none) := by
  induction calls with
  | nil =>
    intro p q hp hq
    simp only [CommandProcessor.run, Option.some.injEq] at hq
    subst hq; exact hp
  | cons call rest ih =>
    intro p q hp hq
    simp only [CommandProcessor.run] at hq
    cases hstep : p.step call with
    | none => simp [hstep] at hq
    | some next =>
      simp only [hstep, Option.some_bind] at hq
      exact ih next q (uninitialized_step p next call hp hstep) hq

/-- Every call on an initialized processor whose components exist returns. -/
theorem step_returns (p : CommandProcessor) (call : Call) (hw : p.Wired)
    (hi : p.initialized_ = true) : ∃ q, p.step call = some q := by
  obtain ⟨h1, h2, h3, h4, h5, h6⟩ := hw hi
  obtain ⟨intake, hk⟩ := Option.isSome_iff_exists.1 h1
  obtain ⟨v, hv⟩ := Option.isSome_iff_exists.1 h2
  obtain ⟨slot, hs⟩ := Option.isSome_iff_exists.1 h3
  obtain ⟨sel, hp⟩ := Option.isSome_iff_exists.1 h4
  obtain ⟨fwd, hf⟩ := Option.isSome_iff_exists.1 h5
  obtain ⟨wd, hwd⟩ := Option.isSome_iff_exists.1 h6
  cases call with
  | init b w now => exact ⟨_, rfl⟩
  | start now =>
    simp [CommandProcessor.step, CommandProcessor.start, hi, hf, hwd, CommandProcessor.log]
  | stop => exact ⟨_, rfl⟩
  | process_command source data n now =>
    simp only [CommandProcessor.step]
    unfold CommandProcessor.process_command
    rw [if_neg (by simp [hi])]
    simp only [hk, Option.bind_eq_bind, Option.some_bind]
    cases hr : (intake.receive_command source data n now).2 with
    | none => exact ⟨_, rfl⟩
    | some cmd =>
      obtain ⟨q, hq, _⟩ := handle_command_eq
        { p with intake_ := some (intake.receive_command source data n now).1 }
        v slot cmd now hv hs
      exact ⟨q, hq⟩
  | trigger_emergency_stop =>
    exact ⟨_, trigger_emergency_stop_eq p slot hs⟩
  | reset =>
    simp only [CommandProcessor.step, reset_eq p slot v sel hs hv hp, Option.map_some']
    exact ⟨_, rfl⟩
  | set_config config =>
    simp [CommandProcessor.step, CommandProcessor.set_config, hv, hf, hwd]
  | forwarder_tick loop_start now feed_time forward_time loop_end =>
    simp only [CommandProcessor.step, CommandProcessor.forwarding_loop_iteration, hf, hp, hs,
      Option.bind_eq_bind, Option.some_bind]
    cases hout : (fwd.forwarding_loop_iteration sel slot
        loop_start now forward_time loop_end).2.2 with
    | none => exact ⟨_, rfl⟩
    | some cmd =>
      simp only [CommandProcessor.forward_callback, CommandProcessor.log, hwd,
        Option.bind_eq_bind]
      cases p.bcm_callback_ <;> simp [hwd]
  | heartbeat_tick now => exact ⟨_, rfl⟩

/-- C12: on an initialized processor, reached from the constructor by calls and in any
state, `trigger_emergency_stop()` returns and leaves all four slots empty and the
SystemState equal to EMERGENCY_STOP.  A second call directly afterwards leaves the slots,
the SystemState, the validator, the selector and the other components as the first call
left them, and logs only the error line: a state transition is logged by the first call
only, when the state was not EMERGENCY_STOP before it. -/
theorem trigger_emergency_stop_idempotent (calls : List Call) (p : CommandProcessor)
    (hreach : CommandProcessor.new.run calls = some p) (hinit : p.initialized_ = true) :
    ∃ (q r : CommandProcessor) (slot : LatestCommandSlot),
      p.trigger_emergency_stop = some q ∧ q.trigger_emergency_stop = some r ∧
      q.command_slot_ = some slot ∧ (∀ i, slot.slots_ i = none) ∧
      q.current_state_ = .EMERGENCY_STOP ∧
      r.command_slot_ = q.command_slot_ ∧ r.current_state_ = q.current_state_ ∧
      r.validator_ = q.validator_ ∧ r.priority_selector_ = q.priority_selector_ ∧
      r.intake_ = q.intake_ ∧ r.forwarder_ = q.forwarder_ ∧ r.watchdog_ = q.watchdog_ ∧
      r.bcm_calls = q.bcm_calls ∧
      q.validator_ = p.validator_ ∧ q.priority_selector_ = p.priority_selector_ ∧
      r.logger_ =
        q.logger_ ++ [.error "CommandProcessor" "Manual emergency stop triggered"] ∧
      q.logger_ =
        p.logger_ ++ [.error "CommandProcessor" "Manual emergency stop triggered"] ++
          (if p.current_state_ = .EMERGENCY_STOP then []
            else [.state_transition p.current_state_ .EMERGENCY_STOP "Manual trigger"]) := by
  obtain ⟨_, _, hs, _, _, _⟩ := wired_run calls _ p wired_new hreach hinit
  obtain ⟨slot, hs⟩ := Option.isSome_iff_exists.1 hs
  have h1 := trigger_emergency_stop_eq p slot hs
  refine ⟨_, _, slot.clear_all, h1, trigger_emergency_stop_eq _ slot.clear_all rfl, rfl,
    fun _ => rfl, rfl, rfl, rfl, rfl, rfl, rfl, rfl, rfl, rfl, rfl, rfl, ?_, ?_⟩
  · simp
  · by_cases hst : p.current_state_ = .EMERGENCY_STOP <;> simp [hst]

/-- Two emergency stops on a processor just initialized: the first logs the error line
and the transition from NORMAL_OPERATION, the second the error line only. -/
theorem trigger_emergency_stop_idempotent_witness :
    ∃ (q r : CommandProcessor),
      ( CommandProcessor.initialize CommandProcessor.new true true 0).2.trigger_emergency_stop
        = some q ∧
      q.trigger_emergency_stop = some r ∧ q.current_state_ = .EMERGENCY_STOP ∧
      r.current_state_ = .EMERGENCY_STOP ∧
      r.logger_ =
        q.logger_ ++ [.error "CommandProcessor" "Manual emergency stop triggered"] := by
  obtain ⟨q, r, _, h1, h2, _, _, h3, _, h4, _, _, _, _, _, _, _, _, h5, _⟩ :=
    trigger_emergency_stop_idempotent [.init true true 0]
      ( CommandProcessor.initialize CommandProcessor.new true true 0).2 rfl rfl
  exact ⟨q, r, h1, h2, h3, h4.trans h3, h5⟩

/-- The function `reset()` has no failing path: on a processor whose components exist it
returns true and leaves all slots empty, the validator's sequence mapping empty, the
selector statistics zeroed and the SystemState equal to NORMAL_OPERATION. -/
theorem reset_always_succeeds (p : CommandProcessor) (slot : LatestCommandSlot)
    (v : CommandValidator) (sel : PrioritySelector) (hs : p.command_slot_ = some slot)
    (hv : p.validator_ = some v) (hp : p.priority_selector_ = some sel) :
    ∃ (q : CommandProcessor) (slot2 : LatestCommandSlot) (v2 : CommandValidator)
      (sel2 : PrioritySelector),
      p.reset = some (true, q) ∧ q.current_state_ = .NORMAL_OPERATION ∧
      q.command_slot_ = some slot2 ∧ (∀ i, slot2.slots_ i = none) ∧
      q.validator_ = some v2 ∧ (∀ s, v2.last_sequence_numbers_ s = none) ∧
      v2.config_ = v.config_ ∧
      q.priority_selector_ = some sel2 ∧
      sel2.stats_ =
        { selections_made := 0, safety_selections := 0, manual_selections := 0,
          remote_selections := 0, autonomous_selections := 0,
          no_valid_command_count := 0, last_selected_source := .NONE } :=
  ⟨_, slot.clear_all, v.reset, sel.reset_statistics, reset_eq p slot v sel hs hv hp, rfl,
    rfl, fun _ => rfl, rfl, fun _ => rfl, rfl, rfl, rfl⟩

/-- C14: on an initialized processor with any history of calls, `reset()` returns, and
after it every fresh in-range command, whatever its source and sequence number, is
accepted: `validate` returns VALID and `handle_command` stores the command in the slot of
its source. -/
theorem reset_then_accepted (calls : List Call) (p : CommandProcessor)
    (hreach : CommandProcessor.new.run calls = some p) (hinit : p.initialized_ = true) :
    ∃ (q : CommandProcessor) (v : CommandValidator),
      p.reset = some (true, q) ∧ q.validator_ = some v ∧
      ∀ (cmd : Command) (now : TimePoint),
        v.is_timestamp_fresh cmd.timestamp now = true →
        v.is_sensor_data_valid cmd.sensor_data = true →
        (v.validate cmd now).1.result = .VALID ∧
        ∃ (r : CommandProcessor) (slot : LatestCommandSlot),
          q.handle_command cmd now = some r ∧ r.command_slot_ = some slot ∧
          ∀ hsrc : cmd.source ≠ .NONE,
            slot.slots_ ⟨cmd.source.toNat, toNat_lt_of_ne_NONE cmd.source hsrc⟩ =
              some cmd := by
  obtain ⟨_, hv, hs, hp, _, _⟩ := wired_run calls _ p wired_new hreach hinit
  obtain ⟨v, hv⟩ := Option.isSome_iff_exists.1 hv
  obtain ⟨slot, hs⟩ := Option.isSome_iff_exists.1 hs
  obtain ⟨sel, hp⟩ := Option.isSome_iff_exists.1 hp
  obtain ⟨q, hq, hqv, hqs⟩ : ∃ q, p.reset = some (true, q) ∧
      q.validator_ = some v.reset ∧ q.command_slot_ = some slot.clear_all :=
    ⟨_, reset_eq p slot v sel hs hv hp, rfl, rfl⟩
  refine ⟨q, v.reset, hq, hqv, ?_⟩
  intro cmd now hfresh hrange
  have hvalid : (v.reset.validate cmd now).1.result = .VALID := by
    rw [validate_result]
    have hseq : (v.reset.is_sequence_valid cmd.source cmd.sequence_number).1 = true :=
      (is_sequence_valid_fst _ _ _).2 (by intro r hr; simp [CommandValidator.reset] at hr)
    simp [hfresh, hseq, hrange]
  refine ⟨hvalid, ?_⟩
  obtain ⟨r, hr, _, hslot, _⟩ := handle_command_eq q v.reset slot.clear_all cmd now hqv hqs
  rw [if_pos hvalid] at hslot
  exact ⟨r, _, hr, hslot, fun hsrc => (store_slots slot.clear_all cmd hsrc).1⟩

/-- Scenario S3 followed by a reset: REMOTE with sequence number 5 is accepted, its replay
would be rejected as INVALID_SEQUENCE, and after `reset()` the same command is accepted
again. -/
theorem reset_then_accepted_witness :
    (((CommandProcessor.new.run [.init true true 0,
        .process_command .REMOTE ⟨.fin 15, .fin 5, .fin 0, false⟩ 5 0]).getD
          CommandProcessor.new).validator_.map
      (fun v => (v.validate
        ⟨.REMOTE, 5, 1000000, ⟨.fin 15, .fin 5, .fin 0, false⟩⟩ 1000000).1.result)) =
      some .INVALID_SEQUENCE ∧
    ∃ (q : CommandProcessor) (v : CommandValidator),
      ((CommandProcessor.new.run [.init true true 0,
        .process_command .REMOTE ⟨.fin 15, .fin 5, .fin 0, false⟩ 5 0]).getD
          CommandProcessor.new).reset = some (true, q) ∧
      q.validator_ = some v ∧
      (v.validate ⟨.REMOTE, 5, 1000000, ⟨.fin 15, .fin 5, .fin 0, false⟩⟩
        1000000).1.result = .VALID := by
  refine ⟨by decide, ?_⟩
  obtain ⟨q, v, h1, h2, h3⟩ := reset_then_accepted
    [.init true true 0, .process_command .REMOTE ⟨.fin 15, .fin 5, .fin 0, false⟩ 5 0]
    ((CommandProcessor.new.run [.init true true 0,
        .process_command .REMOTE ⟨.fin 15, .fin 5, .fin 0, false⟩ 5 0]).getD
          CommandProcessor.new) rfl rfl
  have hcfg : v.config_ = CommandValidator.Config.default := by
    have h4 : ((CommandProcessor.new.run [.init true true 0,
        .process_command .REMOTE ⟨.fin 15, .fin 5, .fin 0, false⟩ 5 0]).getD
          CommandProcessor.new).reset = some (true, ((((CommandProcessor.new.run
            [.init true true 0,
             .process_command .REMOTE ⟨.fin 15, .fin 5, .fin 0, false⟩ 5 0]).getD
          CommandProcessor.new).reset).getD (true, CommandProcessor.new)).2) := rfl
    rw [h4] at h1
    simp only [Option.some.injEq, Prod.mk.injEq, true_and] at h1
    subst h1
    have h5 := Option.some.inj h2
    rw [← h5]
    rfl
  refine ⟨q, v, h1, h2, (h3 _ 1000000 ?_ ?_).1⟩
  · unfold CommandValidator.is_timestamp_fresh
    rw [hcfg]; decide
  · unfold CommandValidator.is_sensor_data_valid
    rw [hcfg]; decide

/-- A processor reached from the constructor in a state other than INITIALIZING is
initialized. -/
theorem initialized_of_state (calls : List Call) (p : CommandProcessor)
    (hreach : CommandProcessor.new.run calls = some p)
    (hst : p.current_state_ ≠ .INITIALIZING) : p.initialized_ = true := by
  cases hi : p.initialized_ with
  | true => rfl
  | false =>
    exact absurd (uninitialized_run calls _ p (fun _ => ⟨rfl, rfl⟩) hreach hi).1 hst

/-- C15: once the SystemState of a processor reached from the constructor is
EMERGENCY_STOP, `reset()` is the only operation that makes it NORMAL_OPERATION: every other
call returns and leaves the state EMERGENCY_STOP (`process_command` with any command,
`trigger_emergency_stop`, `start`, `stop`, `set_config`, a repeated `initialize()`, and an
iteration of the forwarder or of the heartbeat loop), `get_statistics` reports
EMERGENCY_STOP, a repeated `initialize()` returns false, and `reset()` returns true and
leaves NORMAL_OPERATION. -/
theorem emergency_stop_left_only_by_reset (calls : List Call) (p : CommandProcessor)
    (hreach : CommandProcessor.new.run calls = some p)
    (hes : p.current_state_ = .EMERGENCY_STOP) :
    p.initialized_ = true ∧
    (∀ call, call ≠ .reset →
      ∃ q, p.step call = some q ∧ q.current_state_ = .EMERGENCY_STOP) ∧
    (∀ b w now, ( CommandProcessor.initialize p b w now).1 = false ∧
      ( CommandProcessor.initialize p b w now).2.current_state_ = .EMERGENCY_STOP) ∧
    (∃ stats, p.get_statistics = some stats ∧ stats.current_state = .EMERGENCY_STOP) ∧
    (∃ q, p.reset = some (true, q) ∧ q.current_state_ = .NORMAL_OPERATION) := by
  have hinit : p.initialized_ = true :=
    initialized_of_state calls p hreach (by rw [hes]; decide)
  have hw := wired_run calls _ p wired_new hreach
  obtain ⟨h1, h2, h3, h4, h5, h6⟩ := hw hinit
  obtain ⟨intake, hk⟩ := Option.isSome_iff_exists.1 h1
  obtain ⟨v, hv⟩ := Option.isSome_iff_exists.1 h2
  obtain ⟨slot, hs⟩ := Option.isSome_iff_exists.1 h3
  obtain ⟨sel, hp⟩ := Option.isSome_iff_exists.1 h4
  obtain ⟨fwd, hf⟩ := Option.isSome_iff_exists.1 h5
  obtain ⟨wd, hwd⟩ := Option.isSome_iff_exists.1 h6
  refine ⟨hinit, ?_, ?_, ?_, ?_⟩
  · intro call hne
    obtain ⟨q, hq⟩ := step_returns p call hw hinit
    refine ⟨q, hq, ?_⟩
    by_cases ht : call = .trigger_emergency_stop
    · subst ht
      simp only [CommandProcessor.step, trigger_emergency_stop_eq p slot hs,
        Option.some.injEq] at hq
      subst hq; rfl
    · rw [state_step p q call hq ht hne (fun _ => hinit)]
      exact hes
  · intro b w now
    unfold CommandProcessor.initialize
    simp [hinit, CommandProcessor.log, hes]
  · unfold CommandProcessor.get_statistics
    simp [hk, hp, hf, hwd, CommandProcessor.get_state, hes]
  · exact ⟨_, reset_eq p slot v sel hs hv hp, rfl⟩

/-- A processor after `initialize` and `trigger_emergency_stop`: a valid command
submitted with `process_command` leaves the state EMERGENCY_STOP. -/
theorem emergency_stop_left_only_by_reset_witness :
    ∃ q, ((CommandProcessor.new.run [.init true true 0, .trigger_emergency_stop]).getD
        CommandProcessor.new).step
          (.process_command .REMOTE ⟨.fin 15, .fin 5, .fin 0, false⟩ 1 1000000) = some q ∧
      q.current_state_ = .EMERGENCY_STOP :=
  (emergency_stop_left_only_by_reset [.init true true 0, .trigger_emergency_stop]
    ((CommandProcessor.new.run [.init true true 0, .trigger_emergency_stop]).getD
      CommandProcessor.new) rfl rfl).2.1
    (.process_command .REMOTE ⟨.fin 15, .fin 5, .fin 0, false⟩ 1 1000000)
    (fun h => Call.noConfusion h)
end command_processor

namespace safety_watchdog

open command_processor (F32 UINT64_MOD)

/-! ### Task liveness -/

theorem u64_sub_of_le (a b : Nat) (hab : b ≤ a) (ha : a < UINT64_MOD) :
    u64_sub a b = a - b := by
  unfold u64_sub
  unfold UINT64_MOD at ha ⊢
  omega

theorem ite_ne_C (c : Prop) [Decidable c] (a b : Char) (ha : a ≠ 'C') (hb : b ≠ 'C') :
    (if c then a else b) ≠ 'C' := by
  split <;> assumption

theorem digitChar_ne_C (k : Nat) : Nat.digitChar k ≠ 'C' := by
  unfold Nat.digitChar
  repeat (apply ite_ne_C _ _ _ (by decide))
  decide

theorem toDigitsCore_no_C (fuel : Nat) :
    ∀ (n : Nat) (ds : List Char), 'C' ∉ ds → 'C' ∉ Nat.toDigitsCore 10 fuel n ds := by
  induction fuel with
  | zero => intro n ds h; simpa [Nat.toDigitsCore] using h
  | succ fuel ih =>
    intro n ds h
    have hcons : 'C' ∉ Nat.digitChar (n % 10) :: ds := by
      intro hmem
      rcases List.mem_cons.1 hmem with h1 | h1
      · exact digitChar_ne_C _ h1.symm
      · exact h h1
    unfold Nat.toDigitsCore
    simp only
    split
    · exact hcons
    · exact ih _ _ hcons

theorem repr_no_C (n : Nat) : 'C' ∉ (Nat.repr n).data := by
  unfold Nat.repr Nat.toDigits
  exact toDigitsCore_no_C _ _ _ (by simp)

theorem format_lld_no_C (d : Nat) : 'C' ∉ (format_lld d).data := by
  unfold format_lld
  split
  · exact repr_no_C d
  · rw [String.data_append]
    intro h
    rcases List.mem_append.1 h with h1 | h1
    · revert h1; decide
    · exact repr_no_C _ h1

/-- The message for the sensor task contains "Sensor Processor hung" and does not contain
"Command Processor hung". -/
theorem sensor_message (d : Nat) :
    Contains ("TI: Sensor Processor hung (" ++ format_lld d ++ " ms)")
      "Sensor Processor hung" ∧
    ¬ Contains ("TI: Sensor Processor hung (" ++ format_lld d ++ " ms)")
      "Command Processor hung" := by
  constructor
  · refine ⟨"TI: ", " (" ++ format_lld d ++ " ms)", ?_⟩
    have : "TI: Sensor Processor hung (" = "TI: " ++ "Sensor Processor hung" ++ " (" := by
      decide
    rw [this]
    simp only [String.append_assoc]
  · rintro ⟨before, after, h⟩
    have hd := congrArg String.data h
    simp only [String.data_append] at hd
    have hmem : 'C' ∈ before.data ++ "Command Processor hung".data ++ after.data := by
      apply List.mem_append_left
      apply List.mem_append_right
      decide
    rw [← hd] at hmem
    rcases List.mem_append.1 hmem with h1 | h1
    · rcases List.mem_append.1 h1 with h2 | h2
      · revert h2; decide
      · exact format_lld_no_C d h2
    · revert h1; decide

theorem command_message (d : Nat) :
    Contains ("TI: Command Processor hung (" ++ format_lld d ++ " ms)")
      "Command Processor hung" := by
  refine ⟨"TI: ", " (" ++ format_lld d ++ " ms)", ?_⟩
  have : "TI: Command Processor hung (" = "TI: " ++ "Command Processor hung" ++ " (" := by
    decide
  rw [this]
  simp only [String.append_assoc]

/-- A call of `are_tasks_healthy` by a thread that does not hold the task-state mutex:
with the mutex free and heartbeat times that are not later than `now`,
`are_tasks_healthy` returns, and it returns false if and only if `now - last_sensor > 100`
or `now - last_command > 100`.  The sensor task is checked first: whenever the sensor
heartbeat is overdue the reason is the sensor message, which contains "Sensor Processor
hung" and does not contain "Command Processor hung"; when the command heartbeat alone is
overdue the reason is the command message, which contains "Command Processor hung"; and
when both are in time the buffer is left as it was. -/
theorem are_tasks_healthy_iff (g : Globals) (now : Nat) (buffer : String)
    (hfree : g.current_task_state.state_mutex = false) (hnow : now < UINT64_MOD)
    (hs : g.current_task_state.last_sensor_heartbeat ≤ now)
    (hc : g.current_task_state.last_command_heartbeat ≤ now) :
    ∃ (healthy : Bool) (reason : String),
      are_tasks_healthy g now buffer = .returned (healthy, reason) g ∧
      (healthy = false ↔
        now - g.current_task_state.last_sensor_heartbeat > 100 ∨
        now - g.current_task_state.last_command_heartbeat > 100) ∧
      (now - g.current_task_state.last_sensor_heartbeat > 100 →
        reason = "TI: Sensor Processor hung (" ++
          format_lld (now - g.current_task_state.last_sensor_heartbeat) ++ " ms)" ∧
        Contains reason "Sensor Processor hung" ∧
        ¬ Contains reason "Command Processor hung") ∧
      (now - g.current_task_state.last_sensor_heartbeat ≤ 100 →
        now - g.current_task_state.last_command_heartbeat > 100 →
        reason = "TI: Command Processor hung (" ++
          format_lld (now - g.current_task_state.last_command_heartbeat) ++ " ms)" ∧
        Contains reason "Command Processor hung") ∧
      (healthy = true → reason = buffer) := by
  have h1 := u64_sub_of_le now _ hs hnow
  have h2 := u64_sub_of_le now _ hc hnow
  unfold are_tasks_healthy
  simp only [hfree, Bool.false_eq_true, if_false, h1, h2, SENSOR_HEARTBEAT_TIMEOUT,
    PROCESS_HEARTBEAT_TIMEOUT]
  by_cases hso : now - g.current_task_state.last_sensor_heartbeat > 100
  · refine ⟨false, _, by rw [if_pos hso], ?_, ?_, ?_, ?_⟩
    · simp [hso]
    · intro _
      exact ⟨rfl, sensor_message _⟩
    · intro hle
      omega
    · intro h
      simp at h
  · by_cases hco : now - g.current_task_state.last_command_heartbeat > 100
    · refine ⟨false, _, by rw [if_neg hso, if_pos hco], ?_, ?_, ?_, ?_⟩
      · simp [hco]
      · intro h
        exact absurd h hso
      · intro _ _
        exact ⟨rfl, command_message _⟩
      · intro h
        simp at h
    · refine ⟨true, _, by rw [if_neg hso, if_neg hco], ?_, ?_, ?_, ?_⟩
      · simp [hso, hco]
      · intro h
        exact absurd h hso
      · intro _ h
        exact absurd h hco
      · intro _
        rfl

/-- Scenario S6: no sensor heartbeat since time 0 and a command heartbeat at 450, seen at
time 500, and both heartbeats at exactly 100 ms of age. -/
theorem are_tasks_healthy_iff_witness :
    are_tasks_healthy ⟨⟨.fin 0, .fin 12, 0, false⟩, ⟨0, 450, false⟩, false, []⟩ 500 "" =
      .returned (false, "TI: Sensor Processor hung (500 ms)")
        ⟨⟨.fin 0, .fin 12, 0, false⟩, ⟨0, 450, false⟩, false, []⟩ ∧
    are_tasks_healthy ⟨⟨.fin 0, .fin 12, 0, false⟩, ⟨400, 400, false⟩, false, []⟩ 500 "" =
      .returned (true, "")
        ⟨⟨.fin 0, .fin 12, 0, false⟩, ⟨400, 400, false⟩, false, []⟩ := by
  obtain ⟨healthy, reason, h1, h2, h3, _, _⟩ := are_tasks_healthy_iff
    ⟨⟨.fin 0, .fin 12, 0, false⟩, ⟨0, 450, false⟩, false, []⟩ 500 "" rfl (by decide)
    (by decide) (by decide)
  obtain ⟨healthy2, reason2, k1, k2, _, _, k5⟩ := are_tasks_healthy_iff
    ⟨⟨.fin 0, .fin 12, 0, false⟩, ⟨400, 400, false⟩, false, []⟩ 500 "" rfl (by decide)
    (by decide) (by decide)
  have hh : healthy = false := h2.2 (Or.inl (by decide))
  have hr : reason = "TI: Sensor Processor hung (500 ms)" := by
    rw [(h3 (by decide)).1]; decide
  have hh2 : healthy2 = true := by
    cases healthy2 with
    | true => rfl
    | false => exact absurd (k2.1 rfl) (by decide)
  have hr2 : reason2 = "" := k5 hh2
  rw [h1, k1, hh, hr, hh2, hr2]
  exact ⟨rfl, rfl⟩

/-! ### The safety monitor -/

/-- C17: on the code, a tick of the safety monitor never reaches its checks.
`run_safety_check_loop` locks the task-state mutex and then calls `are_tasks_healthy`,
which locks the same mutex again: whatever the heartbeats, the speed and the battery
voltage are, the tick blocks there, with nothing printed, `execute_immediate_halt` not
entered and the flag `is_halted` as it was. -/
theorem run_safety_check_loop_blocks (g : Globals) (now : Nat) (error_buffer : String)
    (fuel : Nat) :
    ∃ s, run_safety_check_loop g now error_buffer fuel = .deadlock s ∧
      s.stdout = g.stdout ∧ s.is_halted = g.is_halted ∧
      s.current_sensor_state = g.current_sensor_state := by
  unfold run_safety_check_loop
  by_cases hm : g.current_task_state.state_mutex = true
  · exact ⟨g, by rw [if_pos hm], rfl, rfl, rfl⟩
  · refine ⟨{ g with
        current_task_state := { g.current_task_state with state_mutex := true } },
      ?_, rfl, rfl, rfl⟩
    rw [if_neg hm]
    simp [are_tasks_healthy]

/-- Healthy tasks and a speed of 12 (scenario S5), and a sensor heartbeat overdue by 400 ms
(scenario S6): the tick blocks on the task-state mutex, prints nothing and leaves
`is_halted` false. -/
theorem run_safety_check_loop_blocks_at_speed_12 :
    run_safety_check_loop ⟨⟨.fin 12, .fin 12, 0, false⟩, ⟨490, 490, false⟩, false, []⟩
        500 "" 10 =
      .deadlock ⟨⟨.fin 12, .fin 12, 0, false⟩, ⟨490, 490, true⟩, false, []⟩ ∧
    run_safety_check_loop ⟨⟨.fin 5, .fin 12, 0, false⟩, ⟨0, 490, false⟩, false, []⟩
        500 "" 10 =
      .deadlock ⟨⟨.fin 5, .fin 12, 0, false⟩, ⟨0, 490, true⟩, false, []⟩ := by
  decide

/-! ### The halt -/

/-- The busy-wait loop never returns: whatever the bound, the call is still in it. -/
theorem busy_wait_spinning (g : Globals) (fuel : Nat) : busy_wait g fuel = .spinning g := by
  induction fuel with
  | zero => rfl
  | succ fuel ih => simpa [busy_wait] using ih

/-- The first entry of `execute_immediate_halt`: the reason is printed, the flag is set,
and the call stays in the loop. -/
theorem execute_immediate_halt_first (g : Globals) (reason : String) (fuel : Nat)
    (h : g.is_halted = false) :
    execute_immediate_halt g reason fuel =
      .spinning { g with
        stdout := g.stdout ++ ["EMERGENCY STOP TRIGGERED: " ++ reason ++ "\n"]
        is_halted := true } := by
  unfold execute_immediate_halt
  simp only [h, Bool.not_false, if_true]
  exact busy_wait_spinning _ fuel

/-- An entry of `execute_immediate_halt` with the flag set: the call returns and nothing
has changed. -/
theorem execute_immediate_halt_again (g : Globals) (reason : String) (fuel : Nat)
    (h : g.is_halted = true) : execute_immediate_halt g reason fuel = .returned () g := by
  unfold execute_immediate_halt
  simp [h]

/-- C19, as the code has it: `execute_immediate_halt` is idempotent in its effects, but
its first entry does not return.  Called from the un-halted state with reason `r1`, it
prints the line of `r1`, sets the flag and stays in its loop whatever the bound on the
iterations; a call with reason `r2` made with the flag set, as the one of another thread
after that, returns, prints nothing and changes nothing, so that the line of `r1` is the
only one printed. -/
theorem execute_immediate_halt_once (g : Globals) (r1 r2 : String) (fuel1 fuel2 : Nat)
    (h : g.is_halted = false) :
    execute_immediate_halt g r1 fuel1 =
      .spinning { g with
        stdout := g.stdout ++ ["EMERGENCY STOP TRIGGERED: " ++ r1 ++ "\n"]
        is_halted := true } ∧
    execute_immediate_halt (execute_immediate_halt g r1 fuel1).state r2 fuel2 =
      .returned () (execute_immediate_halt g r1 fuel1).state ∧
    (execute_immediate_halt g r1 fuel1).state.is_halted = true ∧
    (execute_immediate_halt g r1 fuel1).state.stdout =
      g.stdout ++ ["EMERGENCY STOP TRIGGERED: " ++ r1 ++ "\n"] ∧
    (∀ (g2 : Globals) (r : String) (fuel : Nat), g2.is_halted = true →
      execute_immediate_halt g2 r fuel = .returned () g2) := by
  have h1 := execute_immediate_halt_first g r1 fuel1 h
  refine ⟨h1, ?_, ?_, ?_, fun g2 r fuel hg => execute_immediate_halt_again g2 r fuel hg⟩
  · rw [h1]
    exact execute_immediate_halt_again _ r2 fuel2 rfl
  · rw [h1]; rfl
  · rw [h1]; rfl

/-- Two halts from the un-halted state: one line is printed, that of the first. -/
theorem execute_immediate_halt_once_witness :
    (execute_immediate_halt
      (execute_immediate_halt ⟨⟨.fin 12, .fin 12, 0, false⟩, ⟨0, 0, false⟩, false, []⟩
        "FD: Speed limit reached" 5).state "FD: Minimum battery voltage reached" 5) =
      .returned ()
        ⟨⟨.fin 12, .fin 12, 0, false⟩, ⟨0, 0, false⟩, true,
          ["EMERGENCY STOP TRIGGERED: FD: Speed limit reached\n"]⟩ :=
  ((execute_immediate_halt_once
    ⟨⟨.fin 12, .fin 12, 0, false⟩, ⟨0, 0, false⟩, false, []⟩
    "FD: Speed limit reached" "FD: Minimum battery voltage reached" 5 5 rfl).2.1).trans
    (by decide)

/-- Counterexample to C19 as stated: from the un-halted state there is no bound on the
iterations within which the call `execute_immediate_halt("FD: Speed limit reached")`
returns. -/
theorem execute_immediate_halt_never_returns :
    ¬ ∃ fuel : Nat,
      (execute_immediate_halt ⟨⟨.fin 12, .fin 12, 0, false⟩, ⟨0, 0, false⟩, false, []⟩
        "FD: Speed limit reached" fuel).hasReturned = true := by
  rintro ⟨fuel, h⟩
  rw [execute_immediate_halt_first _ _ fuel rfl] at h
  simp [Outcome.hasReturned] at h

end safety_watchdog

/-! ### The halt and the command processor -/

/-- C18, as the code has it: on its first entry `execute_immediate_halt(reason)` prints
the reason and sets the flag `is_halted` of the watchdog node, and stays in its loop.  It
has no access to the command processor: the SystemState and the command slots are as they
were, and an iteration of the forwarder loop after it does what it would have done
before. -/
theorem execute_immediate_halt_leaves_processor (sys : System) (reason : String)
    (fuel : Nat) (h : sys.watchdog.is_halted = false) :
    sys.execute_immediate_halt reason fuel =
      .spinning { sys with
        watchdog := { sys.watchdog with
          stdout := sys.watchdog.stdout ++ ["EMERGENCY STOP TRIGGERED: " ++ reason ++ "\n"]
          is_halted := true } } ∧
    (sys.execute_immediate_halt reason fuel).state.watchdog.stdout =
      sys.watchdog.stdout ++ ["EMERGENCY STOP TRIGGERED: " ++ reason ++ "\n"] ∧
    (sys.execute_immediate_halt reason fuel).state.watchdog.is_halted = true ∧
    (sys.execute_immediate_halt reason fuel).state.processor.current_state_ =
      sys.processor.current_state_ ∧
    (sys.execute_immediate_halt reason fuel).state.processor.command_slot_ =
      sys.processor.command_slot_ ∧
    ∀ loop_start now feed_time forward_time loop_end : command_processor.TimePoint,
      (sys.execute_immediate_halt reason fuel).state.processor.forwarding_loop_iteration
          loop_start now feed_time forward_time loop_end =
        sys.processor.forwarding_loop_iteration loop_start now feed_time forward_time loop_end := by
  have h1 : sys.execute_immediate_halt reason fuel =
      .spinning { sys with
        watchdog := { sys.watchdog with
          stdout := sys.watchdog.stdout ++ ["EMERGENCY STOP TRIGGERED: " ++ reason ++ "\n"]
          is_halted := true } } := by
    unfold System.execute_immediate_halt
    rw [safety_watchdog.execute_immediate_halt_first _ _ fuel h]
  refine ⟨h1, ?_, ?_, ?_, ?_, ?_⟩ <;> rw [h1] <;> intros <;> rfl

/-- A halt for a speed of 12 beside a processor that was initialized and started and holds
a fresh REMOTE command. -/
theorem execute_immediate_halt_leaves_processor_witness :
    (System.execute_immediate_halt
      ⟨(command_processor.CommandProcessor.new.run [.init true true 0, .start 0,
          .process_command .REMOTE ⟨.fin 15, .fin 5, .fin 0, false⟩ 1 1000000]).getD
            command_processor.CommandProcessor.new,
        ⟨⟨.fin 12, .fin 12, 0, false⟩, ⟨0, 0, false⟩, false, []⟩⟩
      "FD: Speed limit reached" 5).state.watchdog.stdout =
        ["EMERGENCY STOP TRIGGERED: FD: Speed limit reached\n"] :=
  (execute_immediate_halt_leaves_processor
    ⟨(command_processor.CommandProcessor.new.run [.init true true 0, .start 0,
        .process_command .REMOTE ⟨.fin 15, .fin 5, .fin 0, false⟩ 1 1000000]).getD
          command_processor.CommandProcessor.new,
      ⟨⟨.fin 12, .fin 12, 0, false⟩, ⟨0, 0, false⟩, false, []⟩⟩
    "FD: Speed limit reached" 5 rfl).2.1.trans (by decide)

/-- Counterexample to C18 as stated: beside a processor in NORMAL_OPERATION that holds a
fresh REMOTE command, the first entry of `execute_immediate_halt` prints its line and sets
the flag, and the SystemState is still NORMAL_OPERATION, the REMOTE slot still holds the
command, and the next iteration of the forwarder loop passes it to the BCM callback. -/
theorem halt_does_not_stop_forwarding :
    (((System.execute_immediate_halt
        ⟨(command_processor.CommandProcessor.new.run [.init true true 0, .start 0,
            .process_command .REMOTE ⟨.fin 15, .fin 5, .fin 0, false⟩ 1 1000000]).getD
              command_processor.CommandProcessor.new,
          ⟨⟨.fin 12, .fin 12, 0, false⟩, ⟨0, 0, false⟩, false, []⟩⟩
        "FD: Speed limit reached" 5).state.watchdog.is_halted,
      (System.execute_immediate_halt
        ⟨(command_processor.CommandProcessor.new.run [.init true true 0, .start 0,
            .process_command .REMOTE ⟨.fin 15, .fin 5, .fin 0, false⟩ 1 1000000]).getD
              command_processor.CommandProcessor.new,
          ⟨⟨.fin 12, .fin 12, 0, false⟩, ⟨0, 0, false⟩, false, []⟩⟩
        "FD: Speed limit reached" 5).state.processor.current_state_,
      (System.execute_immediate_halt
        ⟨(command_processor.CommandProcessor.new.run [.init true true 0, .start 0,
            .process_command .REMOTE ⟨.fin 15, .fin 5, .fin 0, false⟩ 1 1000000]).getD
              command_processor.CommandProcessor.new,
          ⟨⟨.fin 12, .fin 12, 0, false⟩, ⟨0, 0, false⟩, false, []⟩⟩
        "FD: Speed limit reached" 5).state.processor.command_slot_.bind
          (fun slot => slot.get .REMOTE 2000000),
      ((System.execute_immediate_halt
        ⟨(command_processor.CommandProcessor.new.run [.init true true 0, .start 0,
            .process_command .REMOTE ⟨.fin 15, .fin 5, .fin 0, false⟩ 1 1000000]).getD
              command_processor.CommandProcessor.new,
          ⟨⟨.fin 12, .fin 12, 0, false⟩, ⟨0, 0, false⟩, false, []⟩⟩
        "FD: Speed limit reached" 5).state.processor.forwarding_loop_iteration
          2000000 2000000 2000000 2000000 2000000).map (fun q => q.bcm_calls)) :
      Bool × command_processor.SystemState × Option command_processor.Command ×
        Option (List command_processor.Command)) =
    (true, .NORMAL_OPERATION,
      some ⟨.REMOTE, 1, 1000000, ⟨.fin 15, .fin 5, .fin 0, false⟩⟩,
      some [⟨.REMOTE, 1, 1000000, ⟨.fin 15, .fin 5, .fin 0, false⟩⟩]) := by
  decide

namespace command_processor

/-! ### The forwarder loop -/

theorem u64_inc_mod (n : Nat) : u64_inc (n % UINT64_MOD) = (n + 1) % UINT64_MOD := by
  unfold u64_inc UINT64_MOD
  omega

theorem update_timing_stats_fields (f : CommandForwarder) (t : Nat) :
    (f.update_timing_stats t).stats_.commands_forwarded = f.stats_.commands_forwarded ∧
    (f.update_timing_stats t).stats_.no_command_cycles = f.stats_.no_command_cycles ∧
    (f.update_timing_stats t).running_ = f.running_ ∧
    (f.update_timing_stats t).forward_callback_ = f.forward_callback_ ∧
    (f.update_timing_stats t).config_ = f.config_ := by
  unfold CommandForwarder.update_timing_stats
  split <;> exact ⟨rfl, rfl, rfl, rfl, rfl⟩

/-- One iteration of the loop of a running forwarder, on the forwarder. -/
theorem forwarder_iteration_fields (f : CommandForwarder) (sel : PrioritySelector)
    (slot : LatestCommandSlot) (loop_start now forward_time loop_end : TimePoint)
        (hrun : f.running_ = true) :
    (f.forwarding_loop_iteration sel slot loop_start now forward_time loop_end).1.running_ = true ∧
    (f.forwarding_loop_iteration sel slot
        loop_start now forward_time loop_end).1.forward_callback_ =
      f.forward_callback_ ∧
    (f.forwarding_loop_iteration sel slot
        loop_start now forward_time loop_end).1.config_ = f.config_ ∧
    (f.forwarding_loop_iteration sel slot loop_start now forward_time loop_end).2.1 =
        (sel.select slot now).2 ∧
    (∀ c, (sel.select slot now).1 = some c →
      (f.forwarding_loop_iteration sel slot loop_start now forward_time loop_end).2.2 =
        (if f.forward_callback_ then some c else none) ∧
      (f.forwarding_loop_iteration sel slot
          loop_start now forward_time loop_end).1.stats_.commands_forwarded =
        u64_inc f.stats_.commands_forwarded ∧
      (f.forwarding_loop_iteration sel slot
          loop_start now forward_time loop_end).1.stats_.no_command_cycles =
        f.stats_.no_command_cycles) ∧
    ((sel.select slot now).1 = none →
      (f.forwarding_loop_iteration sel slot loop_start now forward_time loop_end).2.2 = none ∧
      (f.forwarding_loop_iteration sel slot
          loop_start now forward_time loop_end).1.stats_.commands_forwarded =
        f.stats_.commands_forwarded ∧
      (f.forwarding_loop_iteration sel slot
          loop_start now forward_time loop_end).1.stats_.no_command_cycles =
        u64_inc f.stats_.no_command_cycles) := by
  unfold CommandForwarder.forwarding_loop_iteration
  simp only [hrun, Bool.not_true, Bool.false_eq_true, if_false]
  cases hsel : (sel.select slot now).1 with
  | none =>
    simp only [update_timing_stats_fields, hrun, true_and]
    refine ⟨?_, ?_⟩
    · intro c hc; simp at hc
    · intro _; simp
  | some c0 =>
    simp only [update_timing_stats_fields, hrun, true_and]
    refine ⟨?_, ?_⟩
    · intro c hc
      simp only [Option.some.injEq] at hc
      subst hc
      simp
    · intro h; simp at h

/-- One iteration of the loop on a forwarder that is not running changes nothing. -/
theorem forwarder_iteration_idle (f : CommandForwarder) (sel : PrioritySelector)
    (slot : LatestCommandSlot) (loop_start now forward_time loop_end : TimePoint)
        (hrun : f.running_ = false) :
    f.forwarding_loop_iteration sel slot loop_start now forward_time loop_end = (f, sel, none) := by
  unfold CommandForwarder.forwarding_loop_iteration
  simp [hrun]

/-- One iteration of the loop of a running forwarder that has its callback, on the
processor. -/
theorem forwarding_loop_iteration_eq (p : CommandProcessor) (f : CommandForwarder)
    (sel : PrioritySelector) (slot : LatestCommandSlot) (w : SafetyWatchdog)
    (loop_start now feed_time forward_time loop_end : TimePoint) (hf : p.forwarder_ = some f)
    (hp : p.priority_selector_ = some sel) (hs : p.command_slot_ = some slot)
    (hw : p.watchdog_ = some w) (hrun : f.running_ = true)
    (hcb : f.forward_callback_ = true) :
    ∃ (q : CommandProcessor),
      p.forwarding_loop_iteration loop_start now feed_time forward_time loop_end = some q ∧
      q.forwarder_ = some (f.forwarding_loop_iteration sel slot
          loop_start now forward_time loop_end).1 ∧
      q.initialized_ = p.initialized_ ∧
      (∀ c, (sel.select slot now).1 = some c →
        q.bcm_calls = (if p.bcm_callback_ then p.bcm_calls ++ [c] else p.bcm_calls) ∧
        q.watchdog_ = some (w.feed feed_time)) ∧
      ((sel.select slot now).1 = none →
        q.bcm_calls = p.bcm_calls ∧ q.watchdog_ = some w) := by
  obtain ⟨_, h2, _, _, h5, h6⟩ := forwarder_iteration_fields f sel slot
      loop_start now forward_time loop_end hrun
  unfold CommandProcessor.forwarding_loop_iteration
  simp only [hf, hp, hs, Option.bind_eq_bind, Option.some_bind]
  cases hsel : (sel.select slot now).1 with
  | none =>
    rw [(h6 hsel).1]
    exact ⟨_, rfl, rfl, rfl, fun c hc => by simp at hc, fun _ => ⟨rfl, hw⟩⟩
  | some c0 =>
    rw [(h5 c0 hsel).1, hcb]
    simp only [if_true, CommandProcessor.forward_callback, CommandProcessor.log,
      Option.bind_eq_bind, Option.pure_def]
    cases hb : p.bcm_callback_
    · simp only [Bool.false_eq_true, if_false, hw, Option.some_bind]
      refine ⟨_, rfl, rfl, rfl, ?_, fun h => by simp at h⟩
      intro c hc
      simp only [Option.some.injEq] at hc
      subst hc
      exact ⟨rfl, rfl⟩
    · simp only [if_true, hw, Option.some_bind]
      refine ⟨_, rfl, rfl, rfl, ?_, fun h => by simp at h⟩
      intro c hc
      simp only [Option.some.injEq] at hc
      subst hc
      exact ⟨rfl, rfl⟩

theorem sameCounters_of_eq (p q : CommandProcessor) (hf : q.forwarder_ = p.forwarder_)
    (hw : q.watchdog_ = p.watchdog_) : sameCounters p q := by
  constructor
  · intro f2 h
    exact ⟨f2, by rw [← hf]; exact h, rfl, rfl, fun h => h⟩
  · intro w2 h
    exact ⟨w2, by rw [← hw]; exact h, rfl⟩

theorem sameCounters_handle_command (p q : CommandProcessor) (cmd : Command)
    (now : TimePoint) (h : p.handle_command cmd now = some q) :
    q.forwarder_ = p.forwarder_ ∧ q.watchdog_ = p.watchdog_ := by
  unfold CommandProcessor.handle_command CommandProcessor.handle_validation_result at h
  cases hv : p.validator_ with
  | none => simp [hv, CommandProcessor.log] at h
  | some v =>
    cases hs : p.command_slot_ with
    | none =>
      by_cases hr : (v.validate cmd now).1.result = .VALID
      · simp [hv, hs, hr, CommandProcessor.log] at h
      · simp [hv, hs, hr, CommandProcessor.log] at h
        subst h; exact ⟨rfl, rfl⟩
    | some slot =>
      by_cases hr : (v.validate cmd now).1.result = .VALID
      · simp [hv, hs, hr, CommandProcessor.log] at h
        subst h; exact ⟨rfl, rfl⟩
      · simp [hv, hs, hr, CommandProcessor.log] at h
        subst h; exact ⟨rfl, rfl⟩

theorem sameCounters_process_command (p q : CommandProcessor) (source : CommandSource)
    (data : SensorData) (n : Nat) (now : TimePoint)
    (h : p.process_command source data n now = some q) : sameCounters p q := by
  unfold CommandProcessor.process_command at h
  cases hi : p.initialized_ with
  | false =>
    simp [hi] at h
    subst h; exact sameCounters_of_eq _ _ rfl rfl
  | true =>
    cases hk : p.intake_ with
    | none => simp [hi, hk] at h
    | some intake =>
      simp only [hi, hk, Bool.not_true, Bool.false_eq_true, if_false, Option.bind_eq_bind,
        Option.some_bind] at h
      cases hr : (intake.receive_command source data n now).2 with
      | none =>
        simp [hr] at h
        subst h; exact sameCounters_of_eq _ _ rfl rfl
      | some cmd =>
        simp only [hr] at h
        have := sameCounters_handle_command _ q cmd now h
        exact sameCounters_of_eq _ _ this.1 this.2

theorem sameCounters_start (p q : CommandProcessor) (now : TimePoint)
    (h : p.start now = some q) : sameCounters p q := by
  unfold CommandProcessor.start at h
  cases hi : p.initialized_ with
  | false =>
    simp [hi] at h
    subst h; exact sameCounters_of_eq _ _ rfl rfl
  | true =>
    cases hf : p.forwarder_ with
    | none => simp [hi, hf, CommandProcessor.log] at h
    | some f =>
      cases hw : p.watchdog_ with
      | none => simp [hi, hf, hw, CommandProcessor.log] at h
      | some w =>
        simp [hi, hf, hw, CommandProcessor.log] at h
        subst h
        constructor
        · intro f2 h2
          simp only [Option.some.injEq] at h2
          subst h2
          refine ⟨f, hf, ?_, ?_, ?_⟩
          · unfold CommandForwarder.start; split <;> rfl
          · unfold CommandForwarder.start; split <;> rfl
          · intro hinv
            unfold CommandForwarder.start
            split
            · exact hinv
            · intro _; rfl
        · intro w2 h2
          simp only [Option.some.injEq] at h2
          subst h2
          refine ⟨w, hw, ?_⟩
          unfold SafetyWatchdog.start; split <;> rfl

theorem sameCounters_stop (p : CommandProcessor) : sameCounters p p.stop := by
  unfold CommandProcessor.stop
  cases hi : p.initialized_ with
  | false => exact sameCounters_of_eq _ _ rfl rfl
  | true =>
    simp only [Bool.not_true, Bool.false_eq_true, if_false, CommandProcessor.log]
    constructor
    · intro f2 h2
      cases hf : p.forwarder_ with
      | none => simp [hf] at h2
      | some f =>
        simp only [hf, Option.map_some', Option.some.injEq] at h2
        subst h2
        refine ⟨f, rfl, ?_, ?_, ?_⟩
        · unfold CommandForwarder.stop; split <;> rfl
        · unfold CommandForwarder.stop; split <;> rfl
        · intro hinv
          unfold CommandForwarder.stop
          split
          · exact hinv
          · intro hr; simp at hr
    · intro w2 h2
      cases hw : p.watchdog_ with
      | none => simp [hw] at h2
      | some w =>
        simp only [hw, Option.map_some', Option.some.injEq] at h2
        subst h2
        refine ⟨w, rfl, ?_⟩
        unfold SafetyWatchdog.stop; split <;> rfl

theorem sameCounters_trigger_emergency_stop (p q : CommandProcessor)
    (h : p.trigger_emergency_stop = some q) : sameCounters p q := by
  cases hs : p.command_slot_ with
  | none =>
    simp [CommandProcessor.trigger_emergency_stop, hs, CommandProcessor.log] at h
  | some slot =>
    rw [trigger_emergency_stop_eq p slot hs] at h
    simp only [Option.some.injEq] at h
    subst h; exact sameCounters_of_eq _ _ rfl rfl

theorem sameCounters_reset (p q : CommandProcessor) (b : Bool)
    (h : p.reset = some (b, q)) : sameCounters p q := by
  cases hs : p.command_slot_ with
  | none => simp [CommandProcessor.reset, hs, CommandProcessor.log] at h
  | some slot =>
    cases hv : p.validator_ with
    | none => simp [CommandProcessor.reset, hs, hv, CommandProcessor.log] at h
    | some v =>
      cases hp : p.priority_selector_ with
      | none => simp [CommandProcessor.reset, hs, hv, hp, CommandProcessor.log] at h
      | some sel =>
        rw [reset_eq p slot v sel hs hv hp] at h
        simp only [Option.some.injEq, Prod.mk.injEq] at h
        obtain ⟨_, h⟩ := h
        subst h; exact sameCounters_of_eq _ _ rfl rfl

theorem sameCounters_set_config (p q : CommandProcessor) (config : CommandProcessor.Config)
    (h : p.set_config config = some q) : sameCounters p q := by
  unfold CommandProcessor.set_config at h
  cases hv : p.validator_ with
  | none => simp [hv] at h
  | some v =>
    cases hf : p.forwarder_ with
    | none => simp [hv, hf] at h
    | some f =>
      cases hw : p.watchdog_ with
      | none => simp [hv, hf, hw] at h
      | some w =>
        simp [hv, hf, hw] at h
        subst h
        constructor
        · intro f2 h2
          simp only [Option.some.injEq] at h2
          subst h2
          exact ⟨f, hf, rfl, rfl, fun hinv => hinv⟩
        · intro w2 h2
          simp only [Option.some.injEq] at h2
          subst h2
          exact ⟨w, hw, rfl⟩

theorem sameCounters_heartbeat_loop_iteration (p : CommandProcessor) (now : TimePoint) :
    sameCounters p (p.heartbeat_loop_iteration now) := by
  unfold CommandProcessor.heartbeat_loop_iteration
  cases hw : p.watchdog_ with
  | none => exact sameCounters_of_eq _ _ rfl rfl
  | some wd =>
    have hfeeds : (wd.heartbeat_loop_iteration now).1.stats_.feeds_received =
        wd.stats_.feeds_received := by
      unfold SafetyWatchdog.heartbeat_loop_iteration
      split
      · rfl
      · simp only
        split <;> rfl
    constructor
    · intro f2 h2
      refine ⟨f2, ?_, rfl, rfl, fun hinv => hinv⟩
      cases hc : p.watchdog_callback_ <;>
        cases hb : (wd.heartbeat_loop_iteration now).2 <;>
        simpa [CommandProcessor.log, hc, hb] using h2
    · intro w2 h2
      refine ⟨wd, hw, ?_⟩
      have : some w2 = some (wd.heartbeat_loop_iteration now).1 := by
        rw [← h2]
        cases hc : p.watchdog_callback_ <;>
          cases hb : (wd.heartbeat_loop_iteration now).2 <;>
          simp [CommandProcessor.log, hc, hb]
      rw [Option.some.inj this]
      exact hfeeds

theorem counted_of_same (p q : CommandProcessor) (F E : Nat) (hc : p.Counted F E)
    (hs : sameParts p q) (hk : sameCounters p q) : q.Counted F E := by
  obtain ⟨hw, hu, hf, hwd⟩ := hc
  refine ⟨wired_of_sameParts p q hw hs, ?_, ?_, ?_⟩
  · intro hq
    have hpi : p.initialized_ = false := by rw [← hs.1]; exact hq
    obtain ⟨h1, h2, h3, h4⟩ := hu hpi
    have hqf := hs.2.2.2.2.2.1
    have hqw := hs.2.2.2.2.2.2
    rw [h1] at hqf
    rw [h2] at hqw
    exact ⟨by simpa using hqf, by simpa using hqw, h3, h4⟩
  · intro f2 h2
    obtain ⟨f, hpf, e1, e2, e3⟩ := hk.1 f2 h2
    obtain ⟨c1, c2, c3⟩ := hf f hpf
    exact ⟨e1.trans c1, e2.trans c2, e3 c3⟩
  · intro w2 h2
    obtain ⟨w, hpw, e1⟩ := hk.2 w2 h2
    exact e1.trans (hwd w hpw)

theorem counted_new : CommandProcessor.new.Counted 0 0 := by
  refine ⟨wired_new, fun _ => ⟨rfl, rfl, rfl, rfl⟩, ?_, ?_⟩
  · intro f h; simp [CommandProcessor.new] at h
  · intro w h; simp [CommandProcessor.new] at h

theorem iterations_single (p : CommandProcessor) (call : Call) :
    CommandProcessor.iterations p [call] =
      match call, p.forwarder_ with
      | .forwarder_tick _ _ _ _ _, some forwarder => if forwarder.running_ then 1 else 0
      | _, _ => 0 := by
  unfold CommandProcessor.iterations
  cases p.step call <;> simp [CommandProcessor.iterations]

/-- The invariant of the counters under one call. -/
theorem counted_step (p q : CommandProcessor) (call : Call) (F E : Nat)
    (hc : p.Counted F E) (hq : p.step call = some q) :
    ∃ F2 E2, q.Counted F2 E2 ∧
      F2 + E2 = F + E + CommandProcessor.iterations p [call] := by
  rw [iterations_single]
  have hsame : ∀ q2, sameParts p q2 → sameCounters p q2 → q2.Counted F E :=
    fun q2 h1 h2 => counted_of_same p q2 F E hc h1 h2
  cases call with
  | init b w now =>
    simp only [CommandProcessor.step, Option.some.injEq] at hq
    subst hq
    refine ⟨F, E, ?_, rfl⟩
    cases hpi : p.initialized_ with
    | true =>
      have : ( CommandProcessor.initialize p b w now).2 =
          p.log (.error "CommandProcessor" "Already initialized") := by
        unfold CommandProcessor.initialize
        simp [hpi]
      rw [this]
      exact hsame _ (sameParts_log p _) (sameCounters_of_eq _ _ rfl rfl)
    | false =>
      obtain ⟨_, _, hF, hE⟩ := hc.2.1 hpi
      subst hF hE
      refine ⟨ wired_initialize p b w now hc.1, ?_, ?_, ?_⟩
      · intro h
        unfold CommandProcessor.initialize at h
        simp [hpi, CommandProcessor.log, transition_state_eq] at h
      · intro f hf
        unfold CommandProcessor.initialize at hf
        simp only [hpi, Bool.false_eq_true, if_false, CommandProcessor.log,
          transition_state_eq, Option.some.injEq] at hf
        subst hf
        simp [CommandForwarder.new]
      · intro wd hwd
        unfold CommandProcessor.initialize at hwd
        simp only [hpi, Bool.false_eq_true, if_false, CommandProcessor.log,
          transition_state_eq, Option.some.injEq] at hwd
        subst hwd
        simp [SafetyWatchdog.new]
  | start now =>
    exact ⟨F, E, hsame q (sameParts_start p q now hq) (sameCounters_start p q now hq), rfl⟩
  | stop =>
    simp only [CommandProcessor.step, Option.some.injEq] at hq
    subst hq
    exact ⟨F, E, hsame _ (sameParts_stop p) (sameCounters_stop p), rfl⟩
  | process_command source data n now =>
    exact ⟨F, E, hsame q (sameParts_process_command p q source data n now hq)
      (sameCounters_process_command p q source data n now hq), rfl⟩
  | trigger_emergency_stop =>
    exact ⟨F, E, hsame q (sameParts_trigger_emergency_stop p q hq)
      (sameCounters_trigger_emergency_stop p q hq), rfl⟩
  | reset =>
    simp only [CommandProcessor.step, Option.map_eq_some'] at hq
    obtain ⟨⟨b, q2⟩, hr, hq2⟩ := hq
    simp only at hq2
    subst hq2
    exact ⟨F, E, hsame _ (sameParts_reset p _ b hr) (sameCounters_reset p _ b hr), rfl⟩
  | set_config config =>
    exact ⟨F, E, hsame q (sameParts_set_config p q config hq)
      (sameCounters_set_config p q config hq), rfl⟩
  | heartbeat_tick now =>
    simp only [CommandProcessor.step, Option.some.injEq] at hq
    subst hq
    exact ⟨F, E, hsame _ (sameParts_heartbeat_loop_iteration p now)
      (sameCounters_heartbeat_loop_iteration p now), rfl⟩
  | forwarder_tick loop_start now feed_time forward_time loop_end =>
    simp only [CommandProcessor.step] at hq
    have hparts := sameParts_forwarding_loop_iteration p q
        loop_start now feed_time forward_time loop_end hq
    cases hf : p.forwarder_ with
    | none =>
      simp only [CommandProcessor.forwarding_loop_iteration, hf, Option.some.injEq] at hq
      subst hq
      exact ⟨F, E, hc, rfl⟩
    | some f =>
      have hpi : p.initialized_ = true := by
        cases hi : p.initialized_ with
        | true => rfl
        | false =>
          have := (hc.2.1 hi).1
          rw [hf] at this
          simp at this
      obtain ⟨_, _, h3, h4, _, h6⟩ := hc.1 hpi
      obtain ⟨slot, hs⟩ := Option.isSome_iff_exists.1 h3
      obtain ⟨sel, hp⟩ := Option.isSome_iff_exists.1 h4
      obtain ⟨w, hw⟩ := Option.isSome_iff_exists.1 h6
      obtain ⟨hcf, hncc, hcb⟩ := hc.2.2.1 f hf
      have hfeeds := hc.2.2.2 w hw
      cases hrun : f.running_ with
      | false =>
        simp only [CommandProcessor.forwarding_loop_iteration, hf, hp, hs,
          Option.bind_eq_bind, Option.some_bind,
          forwarder_iteration_idle f sel slot loop_start now forward_time loop_end hrun,
              Option.pure_def,
          Option.some.injEq] at hq
        subst hq
        refine ⟨F, E, hsame _ hparts (sameCounters_of_eq _ _ hf.symm rfl), by simp [hrun]⟩
      | true =>
        obtain ⟨q2, hq2, hqf, hqi, hsome, hnone⟩ :=
          forwarding_loop_iteration_eq p f sel slot w loop_start now feed_time forward_time loop_end
              hf hp hs hw hrun
            (hcb hrun)
        rw [hq2] at hq
        simp only [Option.some.injEq] at hq
        subst hq
        obtain ⟨k1, k2, _, _, k5, k6⟩ :=
          forwarder_iteration_fields f sel slot loop_start now forward_time loop_end hrun
        have hwired := wired_of_sameParts p q2 hc.1 hparts
        have huninit : q2.initialized_ = false →
            q2.forwarder_ = none ∧ q2.watchdog_ = none ∧ F + 1 = 0 ∧ E = 0 := by
          intro h; rw [hqi, hpi] at h; simp at h
        have huninit2 : q2.initialized_ = false →
            q2.forwarder_ = none ∧ q2.watchdog_ = none ∧ F = 0 ∧ E + 1 = 0 := by
          intro h; rw [hqi, hpi] at h; simp at h
        cases hsel : (sel.select slot now).1 with
        | some c =>
          obtain ⟨_, m2, m3⟩ := k5 c hsel
          refine ⟨F + 1, E, ⟨hwired, huninit, ?_, ?_⟩, by simp [hrun]; omega⟩
          · intro f2 hf2
            rw [hqf] at hf2
            simp only [Option.some.injEq] at hf2
            subst hf2
            refine ⟨?_, ?_, ?_⟩
            · rw [m2, hcf, u64_inc_mod]
            · rw [m3, hncc]
            · intro _; rw [k2]; exact hcb hrun
          · intro w2 hw2
            rw [(hsome c hsel).2] at hw2
            simp only [Option.some.injEq] at hw2
            subst hw2
            simp only [SafetyWatchdog.feed]
            rw [hfeeds, u64_inc_mod]
        | none =>
          obtain ⟨_, m2, m3⟩ := k6 hsel
          refine ⟨F, E + 1, ⟨hwired, huninit2, ?_, ?_⟩, by simp [hrun]; omega⟩
          · intro f2 hf2
            rw [hqf] at hf2
            simp only [Option.some.injEq] at hf2
            subst hf2
            refine ⟨?_, ?_, ?_⟩
            · rw [m2, hcf]
            · rw [m3, hncc, u64_inc_mod]
            · intro _; rw [k2]; exact hcb hrun
          · intro w2 hw2
            rw [(hnone hsel).2] at hw2
            simp only [Option.some.injEq] at hw2
            subst hw2
            exact hfeeds

theorem iterations_cons (p : CommandProcessor) (call : Call) (rest : List Call) :
    CommandProcessor.iterations p (call :: rest) =
      CommandProcessor.iterations p [call] +
        (match p.step call with
          | some next => next.iterations rest
          | none => 0) := by
  rw [iterations_single]
  rfl

/-- The invariant of the counters under a sequence of calls. -/
theorem counted_run (calls : List Call) :
    ∀ (p q : CommandProcessor) (F E : Nat), p.Counted F E → p.run calls = some q →
      ∃ F2 E2, q.Counted F2 E2 ∧ F2 + E2 = F + E + CommandProcessor.iterations p calls := by
  induction calls with
  | nil =>
    intro p q F E hc hq
    simp only [CommandProcessor.run, Option.some.injEq] at hq
    subst hq
    exact ⟨F, E, hc, rfl⟩
  | cons call rest ih =>
    intro p q F E hc hq
    simp only [CommandProcessor.run] at hq
    cases hstep : p.step call with
    | none => simp [hstep] at hq
    | some next =>
      simp only [hstep, Option.some_bind] at hq
      obtain ⟨F1, E1, hc1, h1⟩ := counted_step p next call F E hc hstep
      obtain ⟨F2, E2, hc2, h2⟩ := ih next q F1 E1 hc1 hq
      refine ⟨F2, E2, hc2, ?_⟩
      rw [iterations_cons, hstep, h2, h1]
      simp only [Nat.add_assoc]

/-- C20, as the code has it: each iteration of the loop of a running forwarder, on a
processor reached from the constructor by calls, returns and does one of two things.  If
`select()` returns a command `c`, the BCM callback is invoked once, with `c`, when one was
given to `initialize` (an empty callback is skipped and nothing is invoked), the
watchdog is fed once, `commands_forwarded` increases by 1 and `no_command_cycles` is
unchanged; if `select()` returns empty, the BCM callback is not invoked,
`no_command_cycles` increases by 1, and `commands_forwarded` and `feeds_received` are
unchanged.  Hence, `n` being the number of iterations made so far,
`commands_forwarded + no_command_cycles = n` and `feeds_received = commands_forwarded`,
the counters being 64-bit. -/
theorem forwarder_iteration_counts (calls : List Call) (p : CommandProcessor)
    (f : CommandForwarder) (w : SafetyWatchdog)
    (hreach : CommandProcessor.new.run calls = some p)
    (hf : p.forwarder_ = some f) (hw : p.watchdog_ = some w) :
    (f.running_ = true → ∀ loop_start now feed_time forward_time loop_end : TimePoint,
      ∃ (q : CommandProcessor) (f2 : CommandForwarder) (w2 : SafetyWatchdog)
        (sel : PrioritySelector) (slot : LatestCommandSlot),
        p.priority_selector_ = some sel ∧ p.command_slot_ = some slot ∧
        p.forwarding_loop_iteration loop_start now feed_time forward_time loop_end = some q ∧
        q.forwarder_ = some f2 ∧ q.watchdog_ = some w2 ∧
        (∀ c, (sel.select slot now).1 = some c →
          q.bcm_calls = (if p.bcm_callback_ then p.bcm_calls ++ [c] else p.bcm_calls) ∧
          w2.stats_.feeds_received = u64_inc w.stats_.feeds_received ∧
          f2.stats_.commands_forwarded = u64_inc f.stats_.commands_forwarded ∧
          f2.stats_.no_command_cycles = f.stats_.no_command_cycles) ∧
        ((sel.select slot now).1 = none →
          q.bcm_calls = p.bcm_calls ∧
          f2.stats_.no_command_cycles = u64_inc f.stats_.no_command_cycles ∧
          f2.stats_.commands_forwarded = f.stats_.commands_forwarded ∧
          w2.stats_.feeds_received = w.stats_.feeds_received)) ∧
    (f.stats_.commands_forwarded + f.stats_.no_command_cycles) % UINT64_MOD =
      CommandProcessor.new.iterations calls % UINT64_MOD ∧
    w.stats_.feeds_received = f.stats_.commands_forwarded ∧
    (CommandProcessor.new.iterations calls < UINT64_MOD →
      f.stats_.commands_forwarded + f.stats_.no_command_cycles =
        CommandProcessor.new.iterations calls) := by
  obtain ⟨F, E, hc, hsum⟩ := counted_run calls _ p 0 0 counted_new hreach
  simp only [Nat.zero_add] at hsum
  obtain ⟨hcf, hncc, hcb⟩ := hc.2.2.1 f hf
  have hfeeds := hc.2.2.2 w hw
  refine ⟨?_, ?_, ?_, ?_⟩
  · intro hrun loop_start now feed_time forward_time loop_end
    have hpi : p.initialized_ = true := by
      cases hi : p.initialized_ with
      | true => rfl
      | false =>
        have := (hc.2.1 hi).1
        rw [hf] at this
        simp at this
    obtain ⟨_, _, h3, h4, _, _⟩ := hc.1 hpi
    obtain ⟨slot, hs⟩ := Option.isSome_iff_exists.1 h3
    obtain ⟨sel, hp⟩ := Option.isSome_iff_exists.1 h4
    obtain ⟨q, hq, hqf, _, hsome, hnone⟩ :=
      forwarding_loop_iteration_eq p f sel slot w loop_start now feed_time forward_time loop_end
          hf hp hs hw hrun (hcb hrun)
    obtain ⟨_, _, _, _, k5, k6⟩ := forwarder_iteration_fields f sel slot
        loop_start now forward_time loop_end hrun
    cases hsel : (sel.select slot now).1 with
    | some c0 =>
      refine ⟨q, _, w.feed feed_time, sel, slot, hp, hs, hq, hqf, (hsome c0 hsel).2, ?_, ?_⟩
      · intro c hc0
        rw [hsel] at hc0
        simp only [Option.some.injEq] at hc0
        subst hc0
        exact ⟨(hsome c0 hsel).1, rfl, (k5 c0 hsel).2.1, (k5 c0 hsel).2.2⟩
      · intro h; rw [hsel] at h; simp at h
    | none =>
      refine ⟨q, _, w, sel, slot, hp, hs, hq, hqf, (hnone hsel).2, ?_, ?_⟩
      · intro c h; rw [hsel] at h; simp at h
      · intro _
        exact ⟨(hnone hsel).1, (k6 hsel).2.2, (k6 hsel).2.1, rfl⟩
  · rw [hcf, hncc, ← hsum]
    exact (Nat.add_mod F E UINT64_MOD).symm
  · rw [hfeeds, hcf]
  · intro hlt
    have hF : F % UINT64_MOD = F := Nat.mod_eq_of_lt (by omega)
    have hE : E % UINT64_MOD = E := Nat.mod_eq_of_lt (by omega)
    rw [hcf, hncc, hF, hE, hsum]

/-- A processor that is initialized and started, makes an iteration with empty slots,
receives a REMOTE command and makes a second iteration: two iterations are counted, one
of them forwarded, and the watchdog was fed once. -/
theorem forwarder_iteration_counts_witness :
    CommandProcessor.new.iterations
      [.init true true 0, .start 0, .forwarder_tick 0 0 0 0 0,
        .process_command .REMOTE ⟨.fin 15, .fin 5, .fin 0, false⟩ 1 1000000,
        .forwarder_tick 2000000 2000000 2000000 2000000 2000000] = 2 ∧
    (((CommandProcessor.new.run
      [.init true true 0, .start 0, .forwarder_tick 0 0 0 0 0,
        .process_command .REMOTE ⟨.fin 15, .fin 5, .fin 0, false⟩ 1 1000000,
        .forwarder_tick 2000000 2000000 2000000 2000000 2000000]).getD
            CommandProcessor.new).watchdog_.getD
          (SafetyWatchdog.new 0)).stats_.feeds_received =
      (((CommandProcessor.new.run
      [.init true true 0, .start 0, .forwarder_tick 0 0 0 0 0,
        .process_command .REMOTE ⟨.fin 15, .fin 5, .fin 0, false⟩ 1 1000000,
        .forwarder_tick 2000000 2000000 2000000 2000000 2000000]).getD
            CommandProcessor.new).forwarder_.getD
          (CommandForwarder.new 0)).stats_.commands_forwarded ∧
    (((CommandProcessor.new.run
      [.init true true 0, .start 0, .forwarder_tick 0 0 0 0 0,
        .process_command .REMOTE ⟨.fin 15, .fin 5, .fin 0, false⟩ 1 1000000,
        .forwarder_tick 2000000 2000000 2000000 2000000 2000000]).getD
            CommandProcessor.new).forwarder_.getD
          (CommandForwarder.new 0)).stats_.commands_forwarded = 1 :=
  ⟨by decide,
   (forwarder_iteration_counts
      [.init true true 0, .start 0, .forwarder_tick 0 0 0 0 0,
        .process_command .REMOTE ⟨.fin 15, .fin 5, .fin 0, false⟩ 1 1000000,
        .forwarder_tick 2000000 2000000 2000000 2000000 2000000]
      ((CommandProcessor.new.run
      [.init true true 0, .start 0, .forwarder_tick 0 0 0 0 0,
        .process_command .REMOTE ⟨.fin 15, .fin 5, .fin 0, false⟩ 1 1000000,
        .forwarder_tick 2000000 2000000 2000000 2000000 2000000]).getD CommandProcessor.new)
      _ _ rfl rfl rfl).2.2.1,
   by decide⟩

/-- Counterexample to C20 as stated: on a processor initialized with an empty BCM
callback, the iteration of the forwarder loop that selects a fresh REMOTE command invokes
no BCM callback, while `commands_forwarded` and `feeds_received` increase to 1. -/
theorem forwarded_without_bcm_callback :
    ((CommandProcessor.new.run [.init false true 0, .start 0,
        .process_command .REMOTE ⟨.fin 15, .fin 5, .fin 0, false⟩ 1 1000000,
        .forwarder_tick 2000000 2000000 2000000 2000000 2000000]).map
      (fun p => (p.bcm_calls, p.forwarder_.map (fun f => f.stats_.commands_forwarded),
        p.forwarder_.map (fun f => f.stats_.no_command_cycles),
        p.watchdog_.map (fun w => w.stats_.feeds_received)))) =
      some ([], some 1, some 0, some 1) := by
  decide

end command_processor

namespace command_processor

/-! ### Callbacks that throw -/

/-- While the BCM callback and the logger return, an iteration of the forwarder loop with
them is the iteration. -/
theorem forwarding_loop_iteration_calling_returns (p : CommandProcessor)
    (callbacks : Callbacks) (loop_start now feed_time forward_time loop_end : TimePoint)
    (hb : ∀ c, callbacks.bcm_callback c = .returns)
    (hl : ∀ c, callbacks.log_command_forwarded c = .returns) :
    p.forwarding_loop_iteration_calling callbacks loop_start now feed_time forward_time loop_end =
      (p.forwarding_loop_iteration
          loop_start now feed_time forward_time loop_end).map .completed := by
  unfold CommandProcessor.forwarding_loop_iteration_calling
    CommandProcessor.forwarding_loop_iteration
  cases hf : p.forwarder_ with
  | none => rfl
  | some fwd =>
    cases hp : p.priority_selector_ with
    | none => rfl
    | some sel =>
      cases hs : p.command_slot_ with
      | none => rfl
      | some slot =>
        simp only [Option.bind_eq_bind, Option.some_bind]
        cases hout : (fwd.forwarding_loop_iteration sel slot
            loop_start now forward_time loop_end).2.2 with
        | none => rfl
        | some cmd =>
          simp only [CommandProcessor.forward_callback_calling,
            CommandProcessor.forward_callback, hb, hl, CommandProcessor.log]
          cases hw : p.watchdog_ <;> cases hbc : p.bcm_callback_ <;> simp [hw]

/-- While the heartbeat callback and the logger return, an iteration of the heartbeat
loop with them is the iteration. -/
theorem heartbeat_loop_iteration_calling_returns (p : CommandProcessor)
    (callbacks : Callbacks) (now : TimePoint)
    (hw : callbacks.watchdog_callback = .returns)
    (hl : callbacks.log_watchdog_heartbeat = .returns) :
    p.heartbeat_loop_iteration_calling callbacks now =
      .completed (p.heartbeat_loop_iteration now) := by
  unfold CommandProcessor.heartbeat_loop_iteration_calling
    CommandProcessor.heartbeat_loop_iteration
  cases hwd : p.watchdog_ with
  | none => rfl
  | some wd =>
    simp only [hw, hl]
    cases hc : p.watchdog_callback_ <;>
      cases hb : (wd.heartbeat_loop_iteration now).2 <;> simp
/-- C21, as the code has it: an error raised by a function the client supplied is not
caught in the periodic tasks.  On a processor whose forwarder and watchdog run with the
callbacks of `start()`: if the BCM callback or the logger throws in an iteration of the
forwarder loop that has selected a command, or the heartbeat callback or the logger throws
in an iteration of the heartbeat loop, the exception leaves the thread function and the
program is terminated, so that no later iteration is executed.  While these functions
return, each iteration completes as described and leaves the loop running. -/
theorem callback_error_terminates (p : CommandProcessor) (callbacks : Callbacks)
    (f : CommandForwarder) (sel : PrioritySelector) (slot : LatestCommandSlot)
    (w : SafetyWatchdog) (hf : p.forwarder_ = some f)
    (hp : p.priority_selector_ = some sel) (hs : p.command_slot_ = some slot)
    (hw : p.watchdog_ = some w) (hrun : f.running_ = true)
    (hcb : f.forward_callback_ = true) (hwrun : w.running_ = true)
    (hwcb : w.heartbeat_callback_ = true) :
    (∀ (loop_start now feed_time forward_time loop_end : TimePoint) (cmd : Command),
        (sel.select slot now).1 = some cmd →
      (p.bcm_callback_ = true ∧ callbacks.bcm_callback cmd = .throws) ∨
        callbacks.log_command_forwarded cmd = .throws →
      p.forwarding_loop_iteration_calling callbacks loop_start now feed_time forward_time
          loop_end = some .terminated ∧
      ∀ rest, p.forwarding_loop_calling callbacks
          ((loop_start, now, feed_time, forward_time, loop_end) :: rest) =
        some .terminated) ∧
    (∀ now : TimePoint,
      (p.watchdog_callback_ = true ∧ callbacks.watchdog_callback = .throws) ∨
        callbacks.log_watchdog_heartbeat = .throws →
      p.heartbeat_loop_iteration_calling callbacks now = .terminated ∧
      ∀ rest, p.heartbeat_loop_calling callbacks (now :: rest) = .terminated) ∧
    ((∀ c, callbacks.bcm_callback c = .returns) →
      (∀ c, callbacks.log_command_forwarded c = .returns) →
      ∀ loop_start now feed_time forward_time loop_end : TimePoint,
          ∃ (q : CommandProcessor) (f2 : CommandForwarder),
        p.forwarding_loop_iteration_calling callbacks loop_start now feed_time forward_time
            loop_end = some (.completed q) ∧
        p.forwarding_loop_iteration loop_start now feed_time forward_time loop_end = some q ∧
        q.forwarder_ = some f2 ∧ f2.running_ = true) ∧
    (callbacks.watchdog_callback = .returns →
      callbacks.log_watchdog_heartbeat = .returns →
      ∀ now : TimePoint, ∃ w2 : SafetyWatchdog,
        p.heartbeat_loop_iteration_calling callbacks now =
          .completed (p.heartbeat_loop_iteration now) ∧
        (p.heartbeat_loop_iteration now).watchdog_ = some w2 ∧ w2.running_ = true) := by
  refine ⟨?_, ?_, ?_, ?_⟩
  · intro loop_start now feed_time forward_time loop_end cmd hsel hthrow
    obtain ⟨_, _, _, _, h5, _⟩ := forwarder_iteration_fields f sel slot
        loop_start now forward_time loop_end hrun
    have hout := (h5 cmd hsel).1
    rw [hcb] at hout
    simp only [if_true] at hout
    have hit : p.forwarding_loop_iteration_calling callbacks
        loop_start now feed_time forward_time loop_end =
        some .terminated := by
      unfold CommandProcessor.forwarding_loop_iteration_calling
      simp only [hf, hp, hs, Option.bind_eq_bind, Option.some_bind, hout]
      unfold CommandProcessor.forward_callback_calling
      rcases hthrow with ⟨h1, h2⟩ | h2
      · rw [if_pos ⟨h1, h2⟩]
      · by_cases h1 : p.bcm_callback_ = true ∧ callbacks.bcm_callback cmd = .throws
        · rw [if_pos h1]
        · rw [if_neg h1]
          simp only [h2, if_true]
    refine ⟨hit, ?_⟩
    intro rest
    simp only [CommandProcessor.forwarding_loop_calling, hit]
  · intro now hthrow
    have hstep : (w.heartbeat_loop_iteration now).2 = true := by
      unfold SafetyWatchdog.heartbeat_loop_iteration
      simp [hwrun, hwcb]
    have hit : p.heartbeat_loop_iteration_calling callbacks now = .terminated := by
      unfold CommandProcessor.heartbeat_loop_iteration_calling
      simp only [hw, hstep, if_true]
      rcases hthrow with ⟨h1, h2⟩ | h2
      · rw [if_pos ⟨h1, h2⟩]
      · by_cases h1 : p.watchdog_callback_ = true ∧ callbacks.watchdog_callback = .throws
        · rw [if_pos h1]
        · rw [if_neg h1]
          simp only [h2, if_true]
    refine ⟨hit, ?_⟩
    intro rest
    simp only [CommandProcessor.heartbeat_loop_calling, hit]
  · intro hb hl loop_start now feed_time forward_time loop_end
    obtain ⟨q, hq, hqf, _⟩ :=
      forwarding_loop_iteration_eq p f sel slot w loop_start now feed_time forward_time loop_end
          hf hp hs hw hrun hcb
    refine ⟨q, _, ?_, hq, hqf,
      (forwarder_iteration_fields f sel slot loop_start now forward_time loop_end hrun).1⟩
    rw [forwarding_loop_iteration_calling_returns p callbacks
        loop_start now feed_time forward_time loop_end hb hl, hq]
    rfl
  · intro hwc hl now
    refine ⟨(w.heartbeat_loop_iteration now).1,
      heartbeat_loop_iteration_calling_returns p callbacks now hwc hl, ?_, ?_⟩
    · unfold CommandProcessor.heartbeat_loop_iteration
      simp only [hw]
      cases hc : p.watchdog_callback_ <;>
        cases hb : (w.heartbeat_loop_iteration now).2 <;>
        simp [CommandProcessor.log]
    · unfold SafetyWatchdog.heartbeat_loop_iteration
      simp [hwrun]

/-- A processor that was initialized and started and holds a fresh REMOTE command, with a
BCM callback that throws: the iteration of the forwarder loop that selects the command
ends the program. -/
theorem callback_error_terminates_witness :
    ((CommandProcessor.new.run [.init true true 0, .start 0,
        .process_command .REMOTE ⟨.fin 15, .fin 5, .fin 0, false⟩ 1 1000000]).getD
          CommandProcessor.new).forwarding_loop_iteration_calling
      ⟨fun _ => .throws, .returns, fun _ => .returns, .returns⟩
      2000000 2000000 2000000 2000000 2000000 =
        some .terminated :=
  ((callback_error_terminates
    ((CommandProcessor.new.run [.init true true 0, .start 0,
        .process_command .REMOTE ⟨.fin 15, .fin 5, .fin 0, false⟩ 1 1000000]).getD
          CommandProcessor.new)
    ⟨fun _ => .throws, .returns, fun _ => .returns, .returns⟩
    _ _ _ _ rfl rfl rfl rfl rfl rfl rfl rfl).1 2000000 2000000 2000000 2000000 2000000
      ⟨.REMOTE, 1, 1000000, ⟨.fin 15, .fin 5, .fin 0, false⟩⟩ (by decide)
      (Or.inl ⟨rfl, rfl⟩)).1

/-- Counterexample to C21 as stated: with a BCM callback that throws, the forwarder loop
of a started processor that holds a fresh REMOTE command ends the program in its first
iteration, and no second iteration is executed; with a heartbeat callback that throws, so
does the first iteration of the heartbeat loop. -/
theorem throwing_callback_ends_the_loop :
    (((CommandProcessor.new.run [.init true true 0, .start 0,
        .process_command .REMOTE ⟨.fin 15, .fin 5, .fin 0, false⟩ 1 1000000]).getD
          CommandProcessor.new).forwarding_loop_iteration_calling
      ⟨fun _ => .throws, .returns, fun _ => .returns, .returns⟩
      2000000 2000000 2000000 2000000 2000000).map
        Iteration.hasTerminated = some true ∧
    (((CommandProcessor.new.run [.init true true 0, .start 0,
        .process_command .REMOTE ⟨.fin 15, .fin 5, .fin 0, false⟩ 1 1000000]).getD
          CommandProcessor.new).forwarding_loop_calling
      ⟨fun _ => .throws, .returns, fun _ => .returns, .returns⟩
      [(2000000, 2000000, 2000000, 2000000, 2000000),
        (12000000, 12000000, 12000000, 12000000, 12000000)]).map
        Iteration.hasTerminated = some true ∧
    (((CommandProcessor.new.run [.init true true 0, .start 0]).getD
          CommandProcessor.new).heartbeat_loop_calling
      ⟨fun _ => .returns, .throws, fun _ => .returns, .returns⟩
      [50000000, 100000000]).hasTerminated = true := by
  decide

end command_processor

namespace command_processor

/-! ### The sources of the stored commands -/

/-- A writing call keeps the commands in the slots of their sources. -/
theorem slot_source_step (slot : LatestCommandSlot) (call : SlotCall)
    (h : ∀ (i : Fin NUM_SOURCES) (c : Command), slot.slots_ i = some c →
      c.source.toNat = i.val) :
    ∀ (i : Fin NUM_SOURCES) (c : Command), (slot.step call).slots_ i = some c →
      c.source.toNat = i.val := by
  intro i c hc
  cases call with
  | store cmd =>
    simp only [LatestCommandSlot.step] at hc
    by_cases hn : cmd.source = .NONE
    · rw [store_NONE slot cmd hn] at hc
      exact h i c hc
    · obtain ⟨h1, h2⟩ := store_slots slot cmd hn
      by_cases hi : i.val = cmd.source.toNat
      · have hidx : i = ⟨cmd.source.toNat, toNat_lt_of_ne_NONE cmd.source hn⟩ :=
          Fin.ext hi
        rw [hidx, h1] at hc
        simp only [Option.some.injEq] at hc
        subst hc
        rw [hidx]
      · rw [h2 i hi] at hc
        exact h i c hc
  | clear source =>
    simp only [LatestCommandSlot.step, LatestCommandSlot.clear] at hc
    split at hc
    · exact h i c hc
    · rename_i hlt
      by_cases hi : i = ⟨source.toNat, Nat.lt_of_not_ge hlt⟩
      · subst hi
        simp at hc
      · simp only [Function.update, hi, dite_false] at hc
        exact h i c hc
  | clear_all =>
    simp [LatestCommandSlot.step, LatestCommandSlot.clear_all] at hc

/-- In every slot state reached from the empty one by writing calls, an occupied slot
holds a command of the source the slot belongs to. -/
theorem slot_source_run (calls : List SlotCall) :
    ∀ (slot : LatestCommandSlot),
      (∀ (i : Fin NUM_SOURCES) (c : Command), slot.slots_ i = some c →
        c.source.toNat = i.val) →
      ∀ (i : Fin NUM_SOURCES) (c : Command), (slot.run calls).slots_ i = some c →
        c.source.toNat = i.val := by
  induction calls with
  | nil => intro slot h; exact h
  | cons call rest ih =>
    intro slot h
    exact ih (slot.step call) (slot_source_step slot call h)

/-- A command whose source has the number of a slot does not have the source NONE. -/
theorem source_ne_NONE_of_index (c : Command) (i : Fin NUM_SOURCES)
    (h : c.source.toNat = i.val) : c.source ≠ .NONE := by
  intro hn
  have hi := i.isLt
  rw [← h, hn] at hi
  revert hi
  decide

/-- C22: in every slot state reached from the empty one by `store`, `clear` and
`clear_all`, an occupied slot `i` holds a command whose source has the numeric value `i`,
so not the source NONE; `store()` of a command with source NONE changes nothing and
`get(NONE)` returns empty; and what `get(s)` returns has the source `s`, and what
`select()` returns has one of the four real sources. -/
theorem stored_commands_have_real_sources (calls : List SlotCall) :
    (∀ (i : Fin NUM_SOURCES) (c : Command),
      (LatestCommandSlot.new.run calls).slots_ i = some c →
        c.source.toNat = i.val ∧ i.val ≤ 3 ∧ c.source ≠ .NONE) ∧
    (∀ (slot : LatestCommandSlot) (c : Command), c.source = .NONE → slot.store c = slot) ∧
    (∀ (slot : LatestCommandSlot) (now : TimePoint), slot.get .NONE now = none) ∧
    (∀ (s : CommandSource) (now : TimePoint) (c : Command),
      (LatestCommandSlot.new.run calls).get s now = some c →
        c.source = s ∧ c.source ≠ .NONE) ∧
    (∀ (sel : PrioritySelector) (now : TimePoint) (c : Command),
      (sel.select (LatestCommandSlot.new.run calls) now).1 = some c →
        c.source ≠ .NONE) := by
  have hinv := slot_source_run calls LatestCommandSlot.new
    (by intro i c hc; simp [LatestCommandSlot.new] at hc)
  refine ⟨?_, store_NONE, get_NONE, ?_, ?_⟩
  · intro i c hc
    have h := hinv i c hc
    exact ⟨h, Nat.le_of_lt_succ i.isLt, source_ne_NONE_of_index c i h⟩
  · intro s now c hc
    obtain ⟨_, hs, hslot⟩ := get_some _ s now c hc
    have h := hinv _ c hslot
    exact ⟨toNat_injective _ _ h, source_ne_NONE_of_index c _ h⟩
  · intro sel now c hc
    rw [select_fst] at hc
    obtain ⟨s, hs⟩ := select_by_priority_some _ now c hc
    obtain ⟨_, hlt, hslot⟩ := get_some _ s now c hs
    exact source_ne_NONE_of_index c _ (hinv _ c hslot)

end command_processor

namespace safety_watchdog

open command_processor (F32 UINT64_MOD)

/-! ### The liveness check inside the tick -/

/-- C16, on the code: `are_tasks_healthy` is called at one place, in the tick of the safety
monitor, by a thread that holds the task-state mutex, and there it does not return: for
all heartbeat times, in particular with the sensor heartbeat overdue (scenario S6), the
call blocks on the mutex, no reason is produced and nothing is printed.  Called by a thread
that does not hold the mutex, with heartbeat times not later than `now`, it returns false
if and only if `now - last_sensor > 100` or `now - last_command > 100`, with the message of
the sensor task whenever the sensor heartbeat is overdue and the message of the command
task when the command heartbeat alone is overdue. -/
theorem are_tasks_healthy_blocks_in_tick (g : Globals) (now : Nat) (buffer : String)
    (fuel : Nat) :
    (g.current_task_state.state_mutex = true →
      are_tasks_healthy g now buffer = .deadlock g) ∧
    (g.current_task_state.state_mutex = false →
      run_safety_check_loop g now buffer fuel =
        .deadlock { g with
          current_task_state := { g.current_task_state with state_mutex := true } } ∧
      are_tasks_healthy
          { g with current_task_state := { g.current_task_state with state_mutex := true } }
          now buffer =
        .deadlock { g with
          current_task_state := { g.current_task_state with state_mutex := true } }) ∧
    (run_safety_check_loop g now buffer fuel).hasReturned = false ∧
    (run_safety_check_loop g now buffer fuel).state.stdout = g.stdout ∧
    (run_safety_check_loop g now buffer fuel).state.is_halted = g.is_halted ∧
    run_safety_check_loop ⟨⟨.fin 5, .fin 12, 0, false⟩, ⟨0, 490, false⟩, false, []⟩
        500 "" fuel =
      .deadlock ⟨⟨.fin 5, .fin 12, 0, false⟩, ⟨0, 490, true⟩, false, []⟩ ∧
    (g.current_task_state.state_mutex = false → now < UINT64_MOD →
      g.current_task_state.last_sensor_heartbeat ≤ now →
      g.current_task_state.last_command_heartbeat ≤ now →
      ∃ (healthy : Bool) (reason : String),
        are_tasks_healthy g now buffer = .returned (healthy, reason) g ∧
        (healthy = false ↔
          now - g.current_task_state.last_sensor_heartbeat > 100 ∨
          now - g.current_task_state.last_command_heartbeat > 100) ∧
        (now - g.current_task_state.last_sensor_heartbeat > 100 →
          reason = "TI: Sensor Processor hung (" ++
            format_lld (now - g.current_task_state.last_sensor_heartbeat) ++ " ms)" ∧
          Contains reason "Sensor Processor hung" ∧
          ¬ Contains reason "Command Processor hung") ∧
        (now - g.current_task_state.last_sensor_heartbeat ≤ 100 →
          now - g.current_task_state.last_command_heartbeat > 100 →
          reason = "TI: Command Processor hung (" ++
            format_lld (now - g.current_task_state.last_command_heartbeat) ++ " ms)" ∧
          Contains reason "Command Processor hung") ∧
        (healthy = true → reason = buffer)) := by
  have hcall : ∀ (g1 : Globals) (b : String),
      g1.current_task_state.state_mutex = true →
      are_tasks_healthy g1 now b = .deadlock g1 := by
    intro g1 b h
    unfold are_tasks_healthy
    rw [if_pos h]
  have hrun : ∀ (g0 : Globals) (t : Nat) (b : String),
      g0.current_task_state.state_mutex = false →
      run_safety_check_loop g0 t b fuel =
        .deadlock { g0 with
          current_task_state := { g0.current_task_state with state_mutex := true } } := by
    intro g0 t b h
    unfold run_safety_check_loop
    rw [if_neg (by simp [h])]
    simp [are_tasks_healthy]
  have hsame : (run_safety_check_loop g now buffer fuel).hasReturned = false ∧
      (run_safety_check_loop g now buffer fuel).state.stdout = g.stdout ∧
      (run_safety_check_loop g now buffer fuel).state.is_halted = g.is_halted := by
    by_cases hm : g.current_task_state.state_mutex = true
    · have h0 : run_safety_check_loop g now buffer fuel = .deadlock g := by
        unfold run_safety_check_loop
        rw [if_pos hm]
      rw [h0]
      exact ⟨rfl, rfl, rfl⟩
    · rw [hrun g now buffer (by simpa using hm)]
      exact ⟨rfl, rfl, rfl⟩
  exact ⟨hcall g buffer, fun h => ⟨hrun g now buffer h, hcall _ buffer rfl⟩, hsame.1,
    hsame.2.1, hsame.2.2, hrun _ 500 "" rfl,
    fun hfree hnow hs hc => are_tasks_healthy_iff g now buffer hfree hnow hs hc⟩

/-! ### The mutexes of the safety monitor -/

/-- C23, on the code: a tick of the safety monitor acquires the task-state mutex while its
own thread holds it.  `run_safety_check_loop` takes the mutex and, still holding it, calls
`are_tasks_healthy`, which takes the same non-recursive mutex: for all values of the
globals and at every time the tick does not return, the call of `are_tasks_healthy` that
it makes does not return either, the task-state mutex is held at the point where the tick
blocks, and the sensor mutex has not been taken. -/
theorem tick_locks_held_mutex (g : Globals) (now : Nat) (error_buffer : String)
    (fuel : Nat) :
    (run_safety_check_loop g now error_buffer fuel).hasReturned = false ∧
    (run_safety_check_loop g now error_buffer fuel).state.current_task_state.state_mutex =
      true ∧
    (run_safety_check_loop g now error_buffer fuel).state.current_sensor_state.data_mutex =
      g.current_sensor_state.data_mutex ∧
    (∀ (g1 : Globals) (buffer : String), g1.current_task_state.state_mutex = true →
      are_tasks_healthy g1 now buffer = .deadlock g1) ∧
    are_tasks_healthy (run_safety_check_loop g now error_buffer fuel).state now
        error_buffer =
      .deadlock (run_safety_check_loop g now error_buffer fuel).state ∧
    (g.current_task_state.state_mutex = false →
      run_safety_check_loop g now error_buffer fuel =
        .deadlock { g with
          current_task_state := { g.current_task_state with state_mutex := true } }) := by
  have hcall : ∀ (g1 : Globals) (buffer : String),
      g1.current_task_state.state_mutex = true →
      are_tasks_healthy g1 now buffer = .deadlock g1 := by
    intro g1 buffer h
    unfold are_tasks_healthy
    rw [if_pos h]
  have hrun : g.current_task_state.state_mutex = false →
      run_safety_check_loop g now error_buffer fuel =
        .deadlock { g with
          current_task_state := { g.current_task_state with state_mutex := true } } := by
    intro h
    unfold run_safety_check_loop
    rw [if_neg (by simp [h])]
    simp only [hcall { g with
      current_task_state := { g.current_task_state with state_mutex := true } }
      error_buffer rfl]
  by_cases hm : g.current_task_state.state_mutex = true
  · have h0 : run_safety_check_loop g now error_buffer fuel = .deadlock g := by
      unfold run_safety_check_loop
      rw [if_pos hm]
    rw [h0]
    exact ⟨rfl, hm, rfl, hcall, hcall g error_buffer hm, fun h => by rw [hm] at h; simp at h⟩
  · have hf : g.current_task_state.state_mutex = false := by simpa using hm
    rw [hrun hf]
    exact ⟨rfl, rfl, rfl, hcall, hcall _ error_buffer rfl, fun _ => rfl⟩

end safety_watchdog

namespace command_processor

/-! ### NaN in the payload -/

/-- No comparison with NaN on the left holds. -/
theorem nan_gt (x : F32) : F32.gt .nan x = false := by
  cases x <;> rfl

theorem abs_nan : F32.abs .nan = .nan := rfl

/-- C24, on the code: the range check is written with comparisons that are false for NaN,
so that NaN passes it.  For every configuration of the limits a payload whose three values
are NaN passes `is_sensor_data_valid`, and a NaN in one of `steering_angle`, `speed` and
`acceleration` passes whenever the two other values are in range.  A fresh command of
MANUAL with such a payload is VALID for `validate()`; the processor stores it, and the
next iteration of the forwarder loop passes it to the BCM callback. -/
theorem nan_payload_is_accepted :
    (∀ (v : CommandValidator) (brake : Bool),
      v.is_sensor_data_valid ⟨.nan, .nan, .nan, brake⟩ = true) ∧
    (∀ (v : CommandValidator) (speed acceleration : F32) (brake : Bool),
      v.is_sensor_data_valid ⟨.fin 0, speed, acceleration, brake⟩ = true →
      v.is_sensor_data_valid ⟨.nan, speed, acceleration, brake⟩ = true) ∧
    (∀ (v : CommandValidator) (steering_angle acceleration : F32) (brake : Bool),
      v.is_sensor_data_valid ⟨steering_angle, .fin 0, acceleration, brake⟩ = true →
      v.is_sensor_data_valid ⟨steering_angle, .nan, acceleration, brake⟩ = true) ∧
    (∀ (v : CommandValidator) (steering_angle speed : F32) (brake : Bool),
      v.is_sensor_data_valid ⟨steering_angle, speed, .fin 0, brake⟩ = true →
      v.is_sensor_data_valid ⟨steering_angle, speed, .nan, brake⟩ = true) ∧
    (CommandValidator.new.validate ⟨.MANUAL, 1, 0, ⟨.fin 0, .nan, .fin 0, false⟩⟩
      0).1.result = .VALID ∧
    ((CommandProcessor.new.run [.init true true 0, .start 0,
        .process_command .MANUAL ⟨.fin 0, .nan, .fin 0, false⟩ 1 0]).bind
      (fun p => p.command_slot_.bind (fun slot => slot.get .MANUAL 1000000))) =
      some ⟨.MANUAL, 1, 0, ⟨.fin 0, .nan, .fin 0, false⟩⟩ ∧
    ((CommandProcessor.new.run [.init true true 0, .start 0,
        .process_command .MANUAL ⟨.fin 0, .nan, .fin 0, false⟩ 1 0,
        .forwarder_tick 1000000 1000000 1000000 1000000 1000000]).map (fun p => p.bcm_calls)) =
      some [⟨.MANUAL, 1, 0, ⟨.fin 0, .nan, .fin 0, false⟩⟩] := by
  refine ⟨?_, ?_, ?_, ?_, by decide, by decide, by decide⟩
  · intro v brake
    unfold CommandValidator.is_sensor_data_valid
    simp [abs_nan, nan_gt, F32.lt]
  · intro v speed acceleration brake h
    unfold CommandValidator.is_sensor_data_valid at h ⊢
    by_cases h1 : F32.gt (F32.abs (.fin 0)) v.config_.max_steering_angle = true
    · simp [h1] at h
    · by_cases h2 : (F32.lt speed (.fin 0) || F32.gt speed v.config_.max_speed) = true
      · simp [h1, h2] at h
      · by_cases h3 : F32.gt (F32.abs acceleration) v.config_.max_acceleration = true
        · simp [h1, h2, h3] at h
        · simp [h2, h3, abs_nan, nan_gt]
  · intro v steering_angle acceleration brake h
    unfold CommandValidator.is_sensor_data_valid at h ⊢
    by_cases h1 : F32.gt (F32.abs steering_angle) v.config_.max_steering_angle = true
    · simp [h1] at h
    · by_cases h3 : F32.gt (F32.abs acceleration) v.config_.max_acceleration = true
      · simp [h1, h3] at h
      · simp [h1, h3, nan_gt, F32.lt]
  · intro v steering_angle speed brake h
    unfold CommandValidator.is_sensor_data_valid at h ⊢
    by_cases h1 : F32.gt (F32.abs steering_angle) v.config_.max_steering_angle = true
    · simp [h1] at h
    · by_cases h2 : (F32.lt speed (.fin 0) || F32.gt speed v.config_.max_speed) = true
      · simp [h1, h2] at h
      · simp [h1, h2, abs_nan, nan_gt]

end command_processor

namespace command_processor

/-! ### Freshness in the validator and in the slots -/

/-- A command that `validate` accepts passes the freshness check of the validator. -/
theorem validate_valid_fresh (v : CommandValidator) (cmd : Command) (now : TimePoint)
    (hv : (v.validate cmd now).1.result = .VALID) :
    v.is_timestamp_fresh cmd.timestamp now = true := by
  rw [validate_result] at hv
  by_cases hf : v.is_timestamp_fresh cmd.timestamp now = true
  · exact hf
  · simp [hf] at hv

/-- C25, as the code has it: the slots decide freshness with the constant
`COMMAND_FRESHNESS_TIMEOUT_MS` of 200 ms, which `set_config` does not change.  For a
validator Config with `freshness_timeout` of at most 200 ms applied through `set_config`
on an initialized processor, every command of one of the four real sources that
`validate()` accepts at `now` and `handle_command` stores is returned by
`get(cmd.source)` at `now`, and `select()` at `now` returns it, or the command of a source
of higher priority.  Whatever the Config, a command whose age exceeds 200 ms is not
returned by `get()` after it was stored. -/
theorem slot_freshness_is_fixed (calls : List Call) (p : CommandProcessor)
    (config : CommandProcessor.Config)
    (hreach : CommandProcessor.new.run calls = some p) (hinit : p.initialized_ = true)
    (hcfg : config.validator_config.freshness_timeout_ms ≤ COMMAND_FRESHNESS_TIMEOUT_MS) :
    (∃ (p1 : CommandProcessor) (v1 : CommandValidator),
      p.set_config config = some p1 ∧ p1.validator_ = some v1 ∧
      v1.config_ = config.validator_config ∧
      ∀ (cmd : Command) (now : TimePoint), cmd.source ≠ .NONE →
        (v1.validate cmd now).1.result = .VALID →
        ∃ (q : CommandProcessor) (slot : LatestCommandSlot),
          p1.handle_command cmd now = some q ∧ q.command_slot_ = some slot ∧
          slot.get cmd.source now = some cmd ∧
          (∀ sel : PrioritySelector, ∃ (c : Command) (s : CommandSource),
            (sel.select slot now).1 = some c ∧ slot.get s now = some c ∧
            s.toNat ≤ cmd.source.toNat) ∧
          (∀ sel : PrioritySelector,
            (∀ s2 : CommandSource, s2.toNat < cmd.source.toNat → slot.get s2 now = none) →
            (sel.select slot now).1 = some cmd)) ∧
    (∀ (slot : LatestCommandSlot) (cmd : Command) (now : TimePoint),
      COMMAND_FRESHNESS_TIMEOUT_MS < duration_cast_ms (now - cmd.timestamp) →
      (slot.store cmd).get cmd.source now = none) := by
  obtain ⟨_, hv, hs, _, hf, hw⟩ := wired_run calls _ p wired_new hreach hinit
  obtain ⟨v, hv⟩ := Option.isSome_iff_exists.1 hv
  obtain ⟨slot, hs⟩ := Option.isSome_iff_exists.1 hs
  obtain ⟨fwd, hf⟩ := Option.isSome_iff_exists.1 hf
  obtain ⟨wd, hw⟩ := Option.isSome_iff_exists.1 hw
  refine ⟨⟨{ p with
      validator_ := some (v.set_config config.validator_config)
      forwarder_ := some (fwd.set_config config.forwarder_config)
      watchdog_ := some (wd.set_config config.watchdog_config) },
    v.set_config config.validator_config, ?_, rfl, rfl, ?_⟩, ?_⟩
  · simp only [CommandProcessor.set_config, hv, hf, hw, Option.bind_eq_bind,
      Option.some_bind, Option.pure_def]
  · intro cmd now hsrc hvalid
    have hfresh := validate_valid_fresh _ cmd now hvalid
    have hslotfresh : LatestCommandSlot.is_fresh cmd now = true := by
      unfold CommandValidator.is_timestamp_fresh at hfresh
      unfold LatestCommandSlot.is_fresh
      simp only [decide_eq_true_eq, CommandValidator.set_config] at hfresh ⊢
      exact le_trans hfresh hcfg
    obtain ⟨q, hq, _, hqs, _⟩ := handle_command_eq
      { p with
        validator_ := some (v.set_config config.validator_config)
        forwarder_ := some (fwd.set_config config.forwarder_config)
        watchdog_ := some (wd.set_config config.watchdog_config) }
      (v.set_config config.validator_config) slot cmd now rfl hs
    rw [if_pos hvalid] at hqs
    have hget : (slot.store cmd).get cmd.source now = some cmd := by
      rw [get_eq _ _ now (toNat_lt_of_ne_NONE cmd.source hsrc), (store_slots slot cmd hsrc).1]
      simp [hslotfresh]
    obtain ⟨k1, k2, k3, _⟩ := select_by_priority_first (slot.store cmd) now
    refine ⟨q, slot.store cmd, hq, hqs, hget, ?_, ?_⟩
    · intro sel
      rw [select_fst]
      cases hsel : PrioritySelector.select_by_priority (slot.store cmd) now with
      | none =>
        have hall := k3.1 hsel
        have : (slot.store cmd).get cmd.source now = none := by
          cases hc : cmd.source with
          | SAFETY => exact hall.1
          | MANUAL => exact hall.2.1
          | REMOTE => exact hall.2.2.1
          | AUTONOMOUS => exact hall.2.2.2
          | NONE => exact absurd hc hsrc
        rw [hget] at this
        simp at this
      | some c =>
        obtain ⟨s, _, hsget, hlow⟩ := k2 c hsel
        refine ⟨c, s, rfl, hsget, ?_⟩
        by_contra hgt
        have := hlow cmd.source (by omega)
        rw [hget] at this
        simp at this
    · intro sel hlow
      rw [select_fst]
      exact k1 cmd.source cmd hget hlow
  · intro slot2 cmd now hage
    by_cases hsrc : cmd.source = .NONE
    · rw [hsrc]; exact get_NONE _ now
    · rw [get_eq _ _ now (toNat_lt_of_ne_NONE cmd.source hsrc),
        (store_slots slot2 cmd hsrc).1]
      have : LatestCommandSlot.is_fresh cmd now = false := by
        unfold LatestCommandSlot.is_fresh
        simp only [decide_eq_false_iff_not, not_le]
        exact hage
      simp [this]

/-- A `freshness_timeout` of 100 ms applied through `set_config` on a processor just
initialized is the one of its validator. -/
theorem slot_freshness_is_fixed_witness :
    ∃ (p1 : CommandProcessor) (v1 : CommandValidator),
      ((CommandProcessor.new.run [.init true true 0]).getD CommandProcessor.new).set_config
        ⟨⟨100, .fin 45, .fin 30, .fin 5⟩, ⟨10, true⟩, ⟨50⟩⟩ = some p1 ∧
      p1.validator_ = some v1 ∧ v1.config_ = ⟨100, .fin 45, .fin 30, .fin 5⟩ := by
  obtain ⟨⟨p1, v1, h1, h2, h3, _⟩, _⟩ := slot_freshness_is_fixed [.init true true 0]
    ((CommandProcessor.new.run [.init true true 0]).getD CommandProcessor.new)
    ⟨⟨100, .fin 45, .fin 30, .fin 5⟩, ⟨10, true⟩, ⟨50⟩⟩ rfl rfl (by decide)
  exact ⟨p1, v1, h1, h2, h3⟩

/-- Counterexample to C25 as stated: with `freshness_timeout` set to 500 ms through
`set_config`, a REMOTE command aged 300 ms is accepted by `validate()` and stored by
`handle_command`, and at the same time `get(REMOTE)` and `select()` return empty. -/
theorem slot_ignores_configured_timeout :
    (((((CommandProcessor.new.run [.init true true 0,
        .set_config ⟨⟨500, .fin 45, .fin 30, .fin 5⟩, ⟨10, true⟩, ⟨50⟩⟩]).getD
          CommandProcessor.new).validator_.map
        (fun v => (v.validate ⟨.REMOTE, 1, 0, ⟨.fin 15, .fin 5, .fin 0, false⟩⟩
          300000000).1.result)),
      ((((CommandProcessor.new.run [.init true true 0,
        .set_config ⟨⟨500, .fin 45, .fin 30, .fin 5⟩, ⟨10, true⟩, ⟨50⟩⟩]).getD
          CommandProcessor.new).handle_command
            ⟨.REMOTE, 1, 0, ⟨.fin 15, .fin 5, .fin 0, false⟩⟩ 300000000).bind
          (fun q => q.command_slot_)).map
        (fun slot => (slot.slots_ ⟨2, by decide⟩, slot.get .REMOTE 300000000,
          (PrioritySelector.new.select slot 300000000).1))) :
      Option ValidationResult × Option (Option Command × Option Command × Option Command)) =
    (some .VALID,
      some (some ⟨.REMOTE, 1, 0, ⟨.fin 15, .fin 5, .fin 0, false⟩⟩, none, none)) := by
  decide

end command_processor

namespace command_processor

/-! ### The states a processor reaches -/

/-- A call other than `initialize` keeps the `initialized_` flag and the components. -/
theorem sameParts_step (p q : CommandProcessor) (call : Call)
    (h : p.step call = some q) (hno : ¬ ∃ b w now, call = .init b w now) :
    sameParts p q := by
  cases call with
  | init b w now => exact absurd ⟨b, w, now, rfl⟩ hno
  | start now => exact sameParts_start p q now h
  | stop =>
    simp only [CommandProcessor.step, Option.some.injEq] at h
    subst h; exact sameParts_stop p
  | process_command source data n now =>
    exact sameParts_process_command p q source data n now h
  | trigger_emergency_stop => exact sameParts_trigger_emergency_stop p q h
  | reset =>
    simp only [CommandProcessor.step, Option.map_eq_some'] at h
    obtain ⟨⟨b, q2⟩, hr, hq2⟩ := h
    simp only at hq2
    subst hq2
    exact sameParts_reset p _ b hr
  | set_config config => exact sameParts_set_config p q config h
  | forwarder_tick loop_start now feed_time forward_time loop_end =>
    exact sameParts_forwarding_loop_iteration p q loop_start now feed_time forward_time loop_end h
  | heartbeat_tick now =>
    simp only [CommandProcessor.step, Option.some.injEq] at h
    subst h; exact sameParts_heartbeat_loop_iteration p now

/-- An initialized processor stays initialized. -/
theorem initialized_step (p q : CommandProcessor) (call : Call)
    (h : p.step call = some q) (hi : p.initialized_ = true) : q.initialized_ = true := by
  by_cases hinit : ∃ b w now, call = .init b w now
  · obtain ⟨b, w, now, rfl⟩ := hinit
    simp only [CommandProcessor.step, CommandProcessor.initialize, hi, if_true,
      Option.some.injEq] at h
    subst h
    exact hi
  · rw [(sameParts_step p q call h hinit).1]
    exact hi

/-- The state of an initialized processor is NORMAL_OPERATION or EMERGENCY_STOP: an
invariant of the calls. -/
theorem operating_step (p q : CommandProcessor) (call : Call)
    (hp : p.initialized_ = true →
      p.current_state_ = .NORMAL_OPERATION ∨ p.current_state_ = .EMERGENCY_STOP)
    (h : p.step call = some q) :
    q.initialized_ = true →
      q.current_state_ = .NORMAL_OPERATION ∨ q.current_state_ = .EMERGENCY_STOP := by
  intro hq
  by_cases hinit : ∃ b w now, call = .init b w now
  · obtain ⟨b, w, now, rfl⟩ := hinit
    simp only [CommandProcessor.step, CommandProcessor.initialize, Option.some.injEq] at h
    cases hpi : p.initialized_ with
    | true =>
      simp only [hpi, if_true] at h
      subst h
      exact hp hpi
    | false =>
      simp only [hpi, Bool.false_eq_true, if_false, transition_state_eq] at h
      subst h
      exact Or.inl rfl
  · have hs := sameParts_step p q call h hinit
    have hpi : p.initialized_ = true := by rw [← hs.1]; exact hq
    by_cases ht : call = .trigger_emergency_stop
    · subst ht
      simp only [CommandProcessor.step] at h
      cases hslot : p.command_slot_ with
      | none =>
        simp [CommandProcessor.trigger_emergency_stop, hslot, CommandProcessor.log] at h
      | some slot =>
        rw [trigger_emergency_stop_eq p slot hslot] at h
        simp only [Option.some.injEq] at h
        subst h
        exact Or.inr rfl
    · by_cases hr : call = .reset
      · subst hr
        simp only [CommandProcessor.step, Option.map_eq_some'] at h
        obtain ⟨⟨b, q2⟩, hreset, hq2⟩ := h
        simp only at hq2
        subst hq2
        cases hslot : p.command_slot_ with
        | none => simp [CommandProcessor.reset, hslot, CommandProcessor.log] at hreset
        | some slot =>
          cases hv : p.validator_ with
          | none => simp [CommandProcessor.reset, hslot, hv, CommandProcessor.log] at hreset
          | some v =>
            cases hsel : p.priority_selector_ with
            | none =>
              simp [CommandProcessor.reset, hslot, hv, hsel, CommandProcessor.log] at hreset
            | some sel =>
              rw [reset_eq p slot v sel hslot hv hsel] at hreset
              simp only [Option.some.injEq, Prod.mk.injEq] at hreset
              rw [← hreset.2]
              exact Or.inl rfl
      · rw [state_step p q call h ht hr (fun hex => absurd hex hinit)]
        exact hp hpi

theorem operating_run (calls : List Call) :
    ∀ (p q : CommandProcessor),
      (p.initialized_ = true →
        p.current_state_ = .NORMAL_OPERATION ∨ p.current_state_ = .EMERGENCY_STOP) →
      p.run calls = some q →
      (q.initialized_ = true →
        q.current_state_ = .NORMAL_OPERATION ∨ q.current_state_ = .EMERGENCY_STOP) := by
  induction calls with
  | nil =>
    intro p q hp hq
    simp only [CommandProcessor.run, Option.some.injEq] at hq
    subst hq; exact hp
  | cons call rest ih =>
    intro p q hp hq
    simp only [CommandProcessor.run] at hq
    cases hstep : p.step call with
    | none => simp [hstep] at hq
    | some next =>
      simp only [hstep, Option.some_bind] at hq
      exact ih next q (operating_step p next call hp hstep) hq

theorem initialized_run (calls : List Call) :
    ∀ (p q : CommandProcessor), p.initialized_ = true → p.run calls = some q →
      q.initialized_ = true := by
  induction calls with
  | nil =>
    intro p q hp hq
    simp only [CommandProcessor.run, Option.some.injEq] at hq
    subst hq; exact hp
  | cons call rest ih =>
    intro p q hp hq
    simp only [CommandProcessor.run] at hq
    cases hstep : p.step call with
    | none => simp [hstep] at hq
    | some next =>
      simp only [hstep, Option.some_bind] at hq
      exact ih next q (initialized_step p next call hstep hp) hq

end command_processor

namespace command_processor

/-! ### The result of `reset` -/

end command_processor

namespace command_processor

/-! ### Calls before `initialize` -/

theorem none_of_isSome_eq {α β : Type} (o : Option α) (h : o.isSome = (none : Option β).isSome) :
    o = none := by
  cases o with
  | none => rfl
  | some a => simp at h

/-- A processor that is not initialized has none of its components and is in state
INITIALIZING: an invariant of the calls. -/
theorem unbuilt_step (p q : CommandProcessor) (call : Call)
    (hp : p.initialized_ = false →
      p.current_state_ = .INITIALIZING ∧ p.intake_ = none ∧ p.validator_ = none ∧
      p.command_slot_ = none ∧ p.priority_selector_ = none ∧ p.forwarder_ = none ∧
      p.watchdog_ = none)
    (h : p.step call = some q) :
    q.initialized_ = false →
      q.current_state_ = .INITIALIZING ∧ q.intake_ = none ∧ q.validator_ = none ∧
      q.command_slot_ = none ∧ q.priority_selector_ = none ∧ q.forwarder_ = none ∧
      q.watchdog_ = none := by
  intro hq
  by_cases hinit : ∃ b w now, call = .init b w now
  · obtain ⟨b, w, now, rfl⟩ := hinit
    have hi := initialized_step p q _ h
    cases hpi : p.initialized_ with
    | true => rw [hi hpi] at hq; simp at hq
    | false =>
      simp only [CommandProcessor.step, CommandProcessor.initialize, hpi,
        Bool.false_eq_true, if_false, transition_state_eq, Option.some.injEq] at h
      subst h
      simp [CommandProcessor.log] at hq
  · obtain ⟨h0, h1, h2, h3, h4, h5, h6⟩ := sameParts_step p q call h hinit
    have hpi : p.initialized_ = false := by rw [← h0]; exact hq
    obtain ⟨hst, k1, k2, k3, k4, k5, k6⟩ := hp hpi
    rw [k1] at h1
    rw [k2] at h2
    rw [k3] at h3
    rw [k4] at h4
    rw [k5] at h5
    rw [k6] at h6
    have hstate := (uninitialized_step p q call (fun _ => ⟨hst, k3⟩) h hq).1
    exact ⟨hstate, none_of_isSome_eq _ h1, none_of_isSome_eq _ h2, none_of_isSome_eq _ h3,
      none_of_isSome_eq _ h4, none_of_isSome_eq _ h5, none_of_isSome_eq _ h6⟩

theorem unbuilt_run (calls : List Call) :
    ∀ (p q : CommandProcessor),
      (p.initialized_ = false →
        p.current_state_ = .INITIALIZING ∧ p.intake_ = none ∧ p.validator_ = none ∧
        p.command_slot_ = none ∧ p.priority_selector_ = none ∧ p.forwarder_ = none ∧
        p.watchdog_ = none) →
      p.run calls = some q →
      (q.initialized_ = false →
        q.current_state_ = .INITIALIZING ∧ q.intake_ = none ∧ q.validator_ = none ∧
        q.command_slot_ = none ∧ q.priority_selector_ = none ∧ q.forwarder_ = none ∧
        q.watchdog_ = none) := by
  induction calls with
  | nil =>
    intro p q hp hq
    simp only [CommandProcessor.run, Option.some.injEq] at hq
    subst hq; exact hp
  | cons call rest ih =>
    intro p q hp hq
    simp only [CommandProcessor.run] at hq
    cases hstep : p.step call with
    | none => simp [hstep] at hq
    | some next =>
      simp only [hstep, Option.some_bind] at hq
      exact ih next q (unbuilt_step p next call hp hstep) hq

/-- C26, on the code: on a processor on which `initialize()` has not succeeded, reached
from the constructor by any calls, the component pointers are null, and
`trigger_emergency_stop`, `reset`, `set_config` and `get_statistics`, which have no
`initialized_` guard, dereference one of them: they have no defined result.  `start`,
`stop` and `process_command`, which have the guard, return and leave the SystemState
INITIALIZING and the processor without a slot object, so with no command accepted. -/
theorem unguarded_operations_dereference_null (calls : List Call) (p : CommandProcessor)
    (hreach : CommandProcessor.new.run calls = some p) (hi : p.initialized_ = false) :
    p.command_slot_ = none ∧ p.validator_ = none ∧ p.intake_ = none ∧
    p.trigger_emergency_stop = none ∧ p.reset = none ∧
    (∀ config, p.set_config config = none) ∧ p.get_statistics.isNone = true ∧
    (∀ now, ∃ q, p.start now = some q ∧ q.initialized_ = false ∧
      q.current_state_ = .INITIALIZING ∧ q.command_slot_ = none) ∧
    (p.stop.initialized_ = false ∧ p.stop.current_state_ = .INITIALIZING ∧
      p.stop.command_slot_ = none) ∧
    (∀ source data n now, ∃ q, p.process_command source data n now = some q ∧
      q.initialized_ = false ∧ q.current_state_ = .INITIALIZING ∧
      q.command_slot_ = none ∧ q.bcm_calls = p.bcm_calls) := by
  obtain ⟨hst, k1, k2, k3, k4, k5, k6⟩ :=
    unbuilt_run calls _ p (fun _ => ⟨rfl, rfl, rfl, rfl, rfl, rfl, rfl⟩) hreach hi
  refine ⟨k3, k2, k1, ?_, ?_, ?_, ?_, ?_, ?_, ?_⟩
  · simp [CommandProcessor.trigger_emergency_stop, CommandProcessor.log, k3]
  · simp [CommandProcessor.reset, CommandProcessor.log, k3]
  · intro config
    simp [CommandProcessor.set_config, k2]
  · simp [CommandProcessor.get_statistics, k1]
  · intro now
    refine ⟨p.log (.error "CommandProcessor" "Cannot start - not initialized"), ?_, hi,
      hst, k3⟩
    simp [CommandProcessor.start, hi]
  · simp [CommandProcessor.stop, hi, hst, k3]
  · intro source data n now
    refine ⟨p.log (.error "CommandProcessor" "Cannot process command - not initialized"),
      ?_, hi, hst, k3, rfl⟩
    simp [CommandProcessor.process_command, hi]

/-- The processor right after its construction: `trigger_emergency_stop()` and `reset()`
dereference the null `command_slot_`. -/
theorem unguarded_operations_dereference_null_witness :
    CommandProcessor.new.trigger_emergency_stop = none ∧
    CommandProcessor.new.reset = none :=
  ⟨(unguarded_operations_dereference_null [] CommandProcessor.new rfl rfl).2.2.2.1,
   (unguarded_operations_dereference_null [] CommandProcessor.new rfl rfl).2.2.2.2.1⟩

end command_processor

namespace command_processor

/-! ### The recorded sequence numbers and the stored commands -/

theorem sameStore_of_eq (p q : CommandProcessor) (hs : q.command_slot_ = p.command_slot_)
    (hv : q.validator_ = p.validator_) : sameStore p q :=
  ⟨hs, fun v2 h => ⟨v2, by rw [← hv]; exact h, rfl⟩⟩

theorem sequenced_of_sameStore (p q : CommandProcessor) (hp : p.Sequenced)
    (h : sameStore p q) : q.Sequenced := by
  intro v2 slot hv2 hs2 s hlt c hc
  obtain ⟨v, hv, hseq⟩ := h.2 v2 hv2
  rw [h.1] at hs2
  rw [hseq]
  exact hp v slot hv hs2 s hlt c hc

theorem sameStore_start (p q : CommandProcessor) (now : TimePoint)
    (h : p.start now = some q) : sameStore p q := by
  unfold CommandProcessor.start at h
  cases hi : p.initialized_ with
  | false =>
    simp [hi] at h
    subst h; exact sameStore_of_eq _ _ rfl rfl
  | true =>
    cases hf : p.forwarder_ <;> cases hw : p.watchdog_ <;>
      simp [hi, hf, hw, CommandProcessor.log] at h
    subst h; exact sameStore_of_eq _ _ rfl rfl

theorem sameStore_stop (p : CommandProcessor) : sameStore p p.stop := by
  unfold CommandProcessor.stop
  cases hi : p.initialized_ <;> simp [CommandProcessor.log] <;>
    exact sameStore_of_eq _ _ rfl rfl

theorem sameStore_set_config (p q : CommandProcessor) (config : CommandProcessor.Config)
    (h : p.set_config config = some q) : sameStore p q := by
  unfold CommandProcessor.set_config at h
  cases hv : p.validator_ <;> cases hf : p.forwarder_ <;> cases hw : p.watchdog_ <;>
    simp [hv, hf, hw] at h
  subst h
  rename_i v _ _
  refine ⟨rfl, ?_⟩
  intro v2 hv2
  simp only [Option.some.injEq] at hv2
  subst hv2
  exact ⟨v, hv, rfl⟩

theorem sameStore_forwarding_loop_iteration (p q : CommandProcessor)
    (loop_start now feed_time forward_time loop_end : TimePoint)
    (h : p.forwarding_loop_iteration loop_start now feed_time forward_time loop_end = some q) :
    sameStore p q := by
  have hslot := forwarding_loop_iteration_slot p q loop_start now feed_time forward_time loop_end h
  refine sameStore_of_eq p q hslot ?_
  unfold CommandProcessor.forwarding_loop_iteration at h
  cases hf : p.forwarder_ with
  | none =>
    simp [hf] at h
    subst h; rfl
  | some fwd =>
    cases hp : p.priority_selector_ with
    | none => simp [hf, hp] at h
    | some sel =>
      cases hs : p.command_slot_ with
      | none => simp [hf, hp, hs] at h
      | some slot =>
        simp only [hf, hp, hs, Option.bind_eq_bind, Option.some_bind] at h
        cases hout : (fwd.forwarding_loop_iteration sel slot
            loop_start now forward_time loop_end).2.2 with
        | none =>
          simp [hout] at h
          subst h; rfl
        | some cmd =>
          simp only [hout] at h
          unfold CommandProcessor.forward_callback at h
          cases hb : p.bcm_callback_ <;> cases hw : p.watchdog_ <;>
            simp [hb, hw, CommandProcessor.log] at h
          all_goals (subst h; rfl)

theorem sameStore_heartbeat_loop_iteration (p : CommandProcessor) (now : TimePoint) :
    sameStore p (p.heartbeat_loop_iteration now) := by
  unfold CommandProcessor.heartbeat_loop_iteration
  cases hw : p.watchdog_ with
  | none => exact sameStore_of_eq _ _ rfl rfl
  | some wd =>
    cases hc : p.watchdog_callback_ <;>
      cases hb : (wd.heartbeat_loop_iteration now).2 <;>
      simp [CommandProcessor.log, hc, hb] <;>
      exact sameStore_of_eq _ _ rfl rfl

/-- The invariant is kept by `handle_command`: a command that is stored has just been
recorded, and a recorded number does not decrease. -/
theorem sequenced_handle_command (p q : CommandProcessor) (cmd : Command) (now : TimePoint)
    (hp : p.Sequenced) (h : p.handle_command cmd now = some q) : q.Sequenced := by
  cases hv : p.validator_ with
  | none => simp [CommandProcessor.handle_command, hv, CommandProcessor.log] at h
  | some v =>
    cases hs : p.command_slot_ with
    | none =>
      unfold CommandProcessor.handle_command CommandProcessor.handle_validation_result at h
      by_cases hr : (v.validate cmd now).1.result = .VALID
      · simp [hv, hs, hr, CommandProcessor.log] at h
      · simp [hv, hs, hr, CommandProcessor.log] at h
        subst h
        intro v2 slot2 _ hs2
        simp [hs] at hs2
    | some slot =>
      obtain ⟨p2, hp2, hv2, hs2, _⟩ := handle_command_eq p v slot cmd now hv hs
      rw [hp2] at h
      simp only [Option.some.injEq] at h
      subst h
      intro v3 slot3 hv3 hs3 s hlt c hc
      rw [hv2] at hv3
      rw [hs2] at hs3
      simp only [Option.some.injEq] at hv3 hs3
      subst hv3 hs3
      have hold : slot.slots_ ⟨s.toNat, hlt⟩ = some c →
          ∃ n, (v.validate cmd now).2.last_sequence_numbers_ s = some n ∧
            c.sequence_number ≤ n := by
        intro hc0
        obtain ⟨n0, hn0, hle⟩ := hp v slot hv hs s hlt c hc0
        obtain ⟨r2, hr2, hle2⟩ := validate_record_mono v cmd now s n0 hn0
        exact ⟨r2, hr2, le_trans hle hle2⟩
      by_cases hr : (v.validate cmd now).1.result = .VALID
      · rw [if_pos hr] at hc
        by_cases hn : cmd.source = .NONE
        · rw [store_NONE slot cmd hn] at hc
          exact hold hc
        · obtain ⟨h1, h2⟩ := store_slots slot cmd hn
          by_cases hsame : s = cmd.source
          · subst hsame
            rw [h1] at hc
            simp only [Option.some.injEq] at hc
            subst hc
            exact ⟨_, validate_valid_records v _ now hr, le_refl _⟩
          · have hidx : (⟨s.toNat, hlt⟩ : Fin NUM_SOURCES).val ≠ cmd.source.toNat :=
              fun heq => hsame (toNat_injective _ _ heq)
            rw [h2 _ hidx] at hc
            exact hold hc
      · rw [if_neg hr] at hc
        exact hold hc

theorem sequenced_process_command (p q : CommandProcessor) (source : CommandSource)
    (data : SensorData) (n : Nat) (now : TimePoint) (hp : p.Sequenced)
    (h : p.process_command source data n now = some q) : q.Sequenced := by
  unfold CommandProcessor.process_command at h
  cases hi : p.initialized_ with
  | false =>
    simp [hi] at h
    subst h
    exact sequenced_of_sameStore p _ hp (sameStore_of_eq _ _ rfl rfl)
  | true =>
    cases hk : p.intake_ with
    | none => simp [hi, hk] at h
    | some intake =>
      simp only [hi, hk, Bool.not_true, Bool.false_eq_true, if_false, Option.bind_eq_bind,
        Option.some_bind] at h
      cases hr : (intake.receive_command source data n now).2 with
      | none =>
        simp [hr] at h
        subst h
        exact sequenced_of_sameStore p _ hp (sameStore_of_eq _ _ rfl rfl)
      | some cmd =>
        simp only [hr] at h
        refine sequenced_handle_command _ q cmd now ?_ h
        intro v slot hv hs
        exact hp v slot hv hs

theorem sequenced_step (p q : CommandProcessor) (call : Call) (hp : p.Sequenced)
    (h : p.step call = some q) : q.Sequenced := by
  cases call with
  | init b w now =>
    simp only [CommandProcessor.step, CommandProcessor.initialize, Option.some.injEq] at h
    cases hpi : p.initialized_ with
    | true =>
      simp only [hpi, if_true] at h
      subst h
      exact sequenced_of_sameStore p _ hp (sameStore_of_eq _ _ rfl rfl)
    | false =>
      simp only [hpi, Bool.false_eq_true, if_false, transition_state_eq] at h
      subst h
      intro v slot _ hs s hlt c hc
      simp only [CommandProcessor.log, Option.some.injEq] at hs
      subst hs
      simp [LatestCommandSlot.new] at hc
  | start now => exact sequenced_of_sameStore p q hp (sameStore_start p q now h)
  | stop =>
    simp only [CommandProcessor.step, Option.some.injEq] at h
    subst h; exact sequenced_of_sameStore p _ hp (sameStore_stop p)
  | process_command source data n now =>
    exact sequenced_process_command p q source data n now hp h
  | trigger_emergency_stop =>
    simp only [CommandProcessor.step] at h
    cases hslot : p.command_slot_ with
    | none =>
      simp [CommandProcessor.trigger_emergency_stop, hslot, CommandProcessor.log] at h
    | some slot =>
      rw [trigger_emergency_stop_eq p slot hslot] at h
      simp only [Option.some.injEq] at h
      subst h
      intro v slot2 _ hs s hlt c hc
      simp only [Option.some.injEq] at hs
      subst hs
      simp [LatestCommandSlot.clear_all] at hc
  | reset =>
    simp only [CommandProcessor.step, Option.map_eq_some'] at h
    obtain ⟨⟨b, q2⟩, hreset, hq2⟩ := h
    simp only at hq2
    subst hq2
    cases hslot : p.command_slot_ with
    | none => simp [CommandProcessor.reset, hslot, CommandProcessor.log] at hreset
    | some slot =>
      cases hv : p.validator_ with
      | none => simp [CommandProcessor.reset, hslot, hv, CommandProcessor.log] at hreset
      | some v =>
        cases hsel : p.priority_selector_ with
        | none =>
          simp [CommandProcessor.reset, hslot, hv, hsel, CommandProcessor.log] at hreset
        | some sel =>
          rw [reset_eq p slot v sel hslot hv hsel] at hreset
          simp only [Option.some.injEq, Prod.mk.injEq] at hreset
          rw [← hreset.2]
          intro v2 slot2 _ hs s hlt c hc
          simp only [Option.some.injEq] at hs
          subst hs
          simp [LatestCommandSlot.clear_all] at hc
  | set_config config =>
    exact sequenced_of_sameStore p q hp (sameStore_set_config p q config h)
  | forwarder_tick loop_start now feed_time forward_time loop_end =>
    exact sequenced_of_sameStore p q hp
      (sameStore_forwarding_loop_iteration p q loop_start now feed_time forward_time loop_end h)
  | heartbeat_tick now =>
    simp only [CommandProcessor.step, Option.some.injEq] at h
    subst h
    exact sequenced_of_sameStore p _ hp (sameStore_heartbeat_loop_iteration p now)

theorem sequenced_run (calls : List Call) :
    ∀ (p q : CommandProcessor), p.Sequenced → p.run calls = some q → q.Sequenced := by
  induction calls with
  | nil =>
    intro p q hp hq
    simp only [CommandProcessor.run, Option.some.injEq] at hq
    subst hq; exact hp
  | cons call rest ih =>
    intro p q hp hq
    simp only [CommandProcessor.run] at hq
    cases hstep : p.step call with
    | none => simp [hstep] at hq
    | some next =>
      simp only [hstep, Option.some_bind] at hq
      exact ih next q (sequenced_step p next call hp hstep) hq

theorem sequenced_new : CommandProcessor.new.Sequenced := by
  intro v slot hv _
  simp [CommandProcessor.new] at hv

/-- With a number recorded for its source that is not below its own, a command is not
accepted. -/
theorem validate_not_valid_of_le (v : CommandValidator) (cmd : Command) (now : TimePoint)
    (r : Nat) (hr : v.last_sequence_numbers_ cmd.source = some r)
    (hle : cmd.sequence_number ≤ r) : (v.validate cmd now).1.result ≠ .VALID := by
  intro hv
  have := validate_valid_gt v cmd now r hr hv
  omega

/-- C27: in every state of an initialized processor reached from the constructor by
calls, for every source `s` whose slot holds a command `c`, the validator has a recorded
sequence number for `s`, which is not below `c.sequence_number`; it is equal to it right
after `c` was accepted.  So a command of source `s` with a sequence number at or below
that of `c` is not accepted, whatever its payload and its time, and `handle_command` and
`process_command` leave the slots as they are. -/
theorem stored_command_not_above_recorded_number (calls : List Call) (p : CommandProcessor)
    (hreach : CommandProcessor.new.run calls = some p) (hinit : p.initialized_ = true) :
    ∃ (v : CommandValidator) (slot : LatestCommandSlot),
      p.validator_ = some v ∧ p.command_slot_ = some slot ∧
      (∀ (s : CommandSource) (h : s.toNat < NUM_SOURCES) (c : Command),
        slot.slots_ ⟨s.toNat, h⟩ = some c →
        (∃ n, v.last_sequence_numbers_ s = some n ∧ c.sequence_number ≤ n) ∧
        (∀ (cmd : Command) (now : TimePoint), cmd.source = s →
          cmd.sequence_number ≤ c.sequence_number →
          (v.validate cmd now).1.result ≠ .VALID ∧
          ∃ q, p.handle_command cmd now = some q ∧ q.command_slot_ = some slot) ∧
        (∀ (data : SensorData) (n : Nat) (now : TimePoint), n ≤ c.sequence_number →
          ∃ q, p.process_command s data n now = some q ∧ q.command_slot_ = some slot)) ∧
      (∀ (cmd : Command) (now : TimePoint) (hsrc : cmd.source ≠ .NONE),
        (v.validate cmd now).1.result = .VALID →
        ∃ (q : CommandProcessor) (v2 : CommandValidator) (slot2 : LatestCommandSlot),
          p.handle_command cmd now = some q ∧ q.validator_ = some v2 ∧
          q.command_slot_ = some slot2 ∧
          slot2.slots_ ⟨cmd.source.toNat, toNat_lt_of_ne_NONE cmd.source hsrc⟩ = some cmd ∧
          v2.last_sequence_numbers_ cmd.source = some cmd.sequence_number) := by
  obtain ⟨hk, hv, hs, _, _, _⟩ := wired_run calls _ p wired_new hreach hinit
  obtain ⟨intake, hk⟩ := Option.isSome_iff_exists.1 hk
  obtain ⟨v, hv⟩ := Option.isSome_iff_exists.1 hv
  obtain ⟨slot, hs⟩ := Option.isSome_iff_exists.1 hs
  have hseq := sequenced_run calls _ p sequenced_new hreach
  refine ⟨v, slot, hv, hs, ?_, ?_⟩
  · intro s hlt c hc
    obtain ⟨r, hr, hle⟩ := hseq v slot hv hs s hlt c hc
    have hhandle : ∀ (p2 : CommandProcessor) (cmd : Command) (now : TimePoint),
        p2.validator_ = some v → p2.command_slot_ = some slot → cmd.source = s →
        cmd.sequence_number ≤ c.sequence_number →
        (v.validate cmd now).1.result ≠ .VALID ∧
        ∃ q, p2.handle_command cmd now = some q ∧ q.command_slot_ = some slot := by
      intro p2 cmd now hv2 hs2 hsrc hn
      have hnv : (v.validate cmd now).1.result ≠ .VALID :=
        validate_not_valid_of_le v cmd now r (by rw [hsrc]; exact hr) (le_trans hn hle)
      obtain ⟨q, hq, _, hqs, _⟩ := handle_command_eq p2 v slot cmd now hv2 hs2
      rw [if_neg hnv] at hqs
      exact ⟨hnv, q, hq, hqs⟩
    refine ⟨⟨r, hr, hle⟩, fun cmd now hsrc hn => hhandle p cmd now hv hs hsrc hn, ?_⟩
    intro data n now hn
    unfold CommandProcessor.process_command
    rw [if_neg (by simp [hinit])]
    simp only [hk, Option.bind_eq_bind, Option.some_bind]
    cases hr2 : (intake.receive_command s data n now).2 with
    | none => exact ⟨_, rfl, hs⟩
    | some cmd =>
      have hcmd : cmd = CommandIntake.normalize_command s data n now := by
        unfold CommandIntake.receive_command at hr2
        by_cases hcb : intake.command_callback_ = true
        · simp [hcb] at hr2
          exact hr2.symm
        · simp [hcb] at hr2
      exact (hhandle { p with intake_ := some (intake.receive_command s data n now).1 }
        cmd now hv hs (by rw [hcmd]; rfl) (by rw [hcmd]; exact hn)).2
  · intro cmd now hsrc hvalid
    obtain ⟨q, hq, hqv, hqs, _⟩ := handle_command_eq p v slot cmd now hv hs
    rw [if_pos hvalid] at hqs
    exact ⟨q, _, _, hq, hqv, hqs, (store_slots slot cmd hsrc).1,
      validate_valid_records v cmd now hvalid⟩

/-- Scenario S3 on the processor: after REMOTE with sequence number 5 was accepted, the
number recorded for REMOTE is 5 and the REMOTE slot holds the command, and the same
sequence number submitted again leaves the slots as they are. -/
theorem stored_command_not_above_recorded_number_witness :
    ∃ (v : CommandValidator) (slot : LatestCommandSlot),
      ((CommandProcessor.new.run [.init true true 0,
        .process_command .REMOTE ⟨.fin 15, .fin 5, .fin 0, false⟩ 5 0]).getD
          CommandProcessor.new).validator_ = some v ∧
      ((CommandProcessor.new.run [.init true true 0,
        .process_command .REMOTE ⟨.fin 15, .fin 5, .fin 0, false⟩ 5 0]).getD
          CommandProcessor.new).command_slot_ = some slot ∧
      slot.slots_ ⟨2, by decide⟩ = some ⟨.REMOTE, 5, 0, ⟨.fin 15, .fin 5, .fin 0, false⟩⟩ ∧
      v.last_sequence_numbers_ .REMOTE = some 5 ∧
      ∃ q, ((CommandProcessor.new.run [.init true true 0,
        .process_command .REMOTE ⟨.fin 15, .fin 5, .fin 0, false⟩ 5 0]).getD
          CommandProcessor.new).process_command .REMOTE ⟨.fin 15, .fin 5, .fin 0, false⟩ 5
            1000000 = some q ∧ q.command_slot_ = some slot := by
  obtain ⟨v, slot, hv, hs, h1, _⟩ := stored_command_not_above_recorded_number
    [.init true true 0, .process_command .REMOTE ⟨.fin 15, .fin 5, .fin 0, false⟩ 5 0]
    ((CommandProcessor.new.run [.init true true 0,
        .process_command .REMOTE ⟨.fin 15, .fin 5, .fin 0, false⟩ 5 0]).getD
          CommandProcessor.new) rfl rfl
  have hslot : slot.slots_ ⟨2, by decide⟩ =
      some ⟨.REMOTE, 5, 0, ⟨.fin 15, .fin 5, .fin 0, false⟩⟩ := by
    have h2 : ((CommandProcessor.new.run [.init true true 0,
        .process_command .REMOTE ⟨.fin 15, .fin 5, .fin 0, false⟩ 5 0]).getD
          CommandProcessor.new).command_slot_.bind (fun sl => sl.slots_ ⟨2, by decide⟩) =
        some ⟨.REMOTE, 5, 0, ⟨.fin 15, .fin 5, .fin 0, false⟩⟩ := by decide
    rw [hs] at h2
    exact h2
  have hrec : v.last_sequence_numbers_ .REMOTE = some 5 := by
    have h2 : ((CommandProcessor.new.run [.init true true 0,
        .process_command .REMOTE ⟨.fin 15, .fin 5, .fin 0, false⟩ 5 0]).getD
          CommandProcessor.new).validator_.bind
            (fun w => w.last_sequence_numbers_ .REMOTE) = some 5 := by decide
    rw [hv] at h2
    exact h2
  exact ⟨v, slot, hv, hs, hslot, hrec,
    (h1 .REMOTE (by decide) _ hslot).2.2 ⟨.fin 15, .fin 5, .fin 0, false⟩ 5 1000000
      (le_refl 5)⟩

end command_processor

namespace safety_watchdog

open command_processor (F32 UINT64_MOD)

/-! ### Heartbeats and the unsigned difference -/

/-- The difference `a - b` of two `uint64_t` with `b` later than `a` wraps around. -/
theorem u64_sub_of_lt (a b : Nat) (hab : a < b) (hb : b < UINT64_MOD) :
    u64_sub a b = UINT64_MOD - (b - a) := by
  unfold u64_sub
  unfold UINT64_MOD at hb ⊢
  omega

/-- C28, as the code has it: the age of a heartbeat is the difference `now - t` of two
`uint64_t`, and a task is reported hung exactly when that difference exceeds 100.  In
calls by a thread that does not hold the task-state mutex, after
`update_sensor_heartbeat(t)` the sensor task is reported by `are_tasks_healthy` at `now`
if and only if the difference exceeds 100, and after `update_command_heartbeat(t)` the
command task is reported if and only if the difference exceeds 100 and the sensor task is
not reported; a thread that holds the mutex blocks in each of the three functions.  For
`t ≤ now` the difference is `now - t`, so that a heartbeat with `t ≤ now ≤ t + 100` is not
reported; for `t` later than `now` it is `2 ^ 64 - (t - now)`, so that the task is
reported hung unless `t - now ≥ 2 ^ 64 - 100`. -/
theorem heartbeat_age_is_unsigned_difference (g : Globals) (now t : Nat)
    (buffer : String) :
    (g.current_task_state.state_mutex = true →
      update_sensor_heartbeat g t = .deadlock g ∧
      update_command_heartbeat g t = .deadlock g ∧
      are_tasks_healthy g now buffer = .deadlock g) ∧
    (g.current_task_state.state_mutex = false →
      ∃ g1 g2 : Globals,
        update_sensor_heartbeat g t = .returned () g1 ∧
        g1.current_task_state.last_sensor_heartbeat = t ∧
        update_command_heartbeat g t = .returned () g2 ∧
        g2.current_task_state.last_command_heartbeat = t ∧
        (u64_sub now t > 100 →
          are_tasks_healthy g1 now buffer =
            .returned (false,
              "TI: Sensor Processor hung (" ++ format_lld (u64_sub now t) ++ " ms)") g1) ∧
        (u64_sub now t ≤ 100 →
          ∃ (healthy : Bool) (reason : String),
            are_tasks_healthy g1 now buffer = .returned (healthy, reason) g1 ∧
            (healthy = true → reason = buffer) ∧
            (healthy = false →
              u64_sub now g.current_task_state.last_command_heartbeat > 100 ∧
              reason = "TI: Command Processor hung (" ++
                format_lld (u64_sub now g.current_task_state.last_command_heartbeat) ++
                " ms)")) ∧
        (u64_sub now t > 100 →
          u64_sub now g.current_task_state.last_sensor_heartbeat ≤ 100 →
          are_tasks_healthy g2 now buffer =
            .returned (false,
              "TI: Command Processor hung (" ++ format_lld (u64_sub now t) ++ " ms)") g2) ∧
        (u64_sub now t ≤ 100 →
          ∃ (healthy : Bool) (reason : String),
            are_tasks_healthy g2 now buffer = .returned (healthy, reason) g2 ∧
            (healthy = true → reason = buffer) ∧
            (healthy = false →
              u64_sub now g.current_task_state.last_sensor_heartbeat > 100 ∧
              reason = "TI: Sensor Processor hung (" ++
                format_lld (u64_sub now g.current_task_state.last_sensor_heartbeat) ++
                " ms)"))) ∧
    (t ≤ now → now < UINT64_MOD → u64_sub now t = now - t) ∧
    (t ≤ now → now ≤ t + 100 → now < UINT64_MOD → u64_sub now t ≤ 100) ∧
    (now < t → t < UINT64_MOD → u64_sub now t = UINT64_MOD - (t - now)) ∧
    (now < t → t < UINT64_MOD → (u64_sub now t > 100 ↔ t - now < UINT64_MOD - 100)) := by
  refine ⟨?_, ?_, ?_, ?_, ?_, ?_⟩
  · intro hheld
    refine ⟨?_, ?_, ?_⟩
    · unfold update_sensor_heartbeat
      rw [if_pos hheld]
    · unfold update_command_heartbeat
      rw [if_pos hheld]
    · unfold are_tasks_healthy
      rw [if_pos hheld]
  · intro hfree
    refine ⟨{ g with current_task_state :=
        { g.current_task_state with last_sensor_heartbeat := t } },
      { g with current_task_state :=
        { g.current_task_state with last_command_heartbeat := t } }, ?_, rfl, ?_, rfl,
      ?_, ?_, ?_, ?_⟩
    · simp [update_sensor_heartbeat, hfree]
    · simp [update_command_heartbeat, hfree]
    · intro hover
      unfold are_tasks_healthy
      simp only [hfree, Bool.false_eq_true, if_false, SENSOR_HEARTBEAT_TIMEOUT, if_pos hover]
    · intro hin
      have hle : ¬ (u64_sub now t > 100) := by omega
      unfold are_tasks_healthy
      simp only [hfree, Bool.false_eq_true, if_false, SENSOR_HEARTBEAT_TIMEOUT,
        PROCESS_HEARTBEAT_TIMEOUT, if_neg hle]
      by_cases hc : u64_sub now g.current_task_state.last_command_heartbeat > 100
      · exact ⟨false, _, by rw [if_pos hc], fun h => by simp at h, fun _ => ⟨hc, rfl⟩⟩
      · exact ⟨true, _, by rw [if_neg hc], fun _ => rfl, fun h => by simp at h⟩
    · intro hover hsensor
      have hle : ¬ (u64_sub now g.current_task_state.last_sensor_heartbeat > 100) := by
        omega
      unfold are_tasks_healthy
      simp only [hfree, Bool.false_eq_true, if_false, SENSOR_HEARTBEAT_TIMEOUT,
        PROCESS_HEARTBEAT_TIMEOUT, if_neg hle, if_pos hover]
    · intro hin
      have hle : ¬ (u64_sub now t > 100) := by omega
      unfold are_tasks_healthy
      simp only [hfree, Bool.false_eq_true, if_false, SENSOR_HEARTBEAT_TIMEOUT,
        PROCESS_HEARTBEAT_TIMEOUT, if_neg hle]
      by_cases hs : u64_sub now g.current_task_state.last_sensor_heartbeat > 100
      · exact ⟨false, _, by rw [if_pos hs], fun h => by simp at h, fun _ => ⟨hs, rfl⟩⟩
      · exact ⟨true, _, by rw [if_neg hs], fun _ => rfl, fun h => by simp at h⟩
  · intro ht hnow
    exact u64_sub_of_le now t ht hnow
  · intro ht hage hnow
    rw [u64_sub_of_le now t ht hnow]
    omega
  · intro hlate hlt
    exact u64_sub_of_lt now t hlate hlt
  · intro hlate hlt
    rw [u64_sub_of_lt now t hlate hlt]
    unfold UINT64_MOD at hlt ⊢
    omega

/-- A sensor heartbeat of time 450 seen at time 500, the command heartbeat being of time
490, is in time; one of time `2 ^ 64 - 50` seen at time 10 gives the difference 60 and is
in time as well. -/
theorem heartbeat_age_examples :
    are_tasks_healthy
      (update_sensor_heartbeat ⟨⟨.fin 0, .fin 12, 0, false⟩, ⟨0, 490, false⟩, false, []⟩
        450).state 500 "" =
      .returned (true, "")
        ⟨⟨.fin 0, .fin 12, 0, false⟩, ⟨450, 490, false⟩, false, []⟩ ∧
    are_tasks_healthy
      (update_sensor_heartbeat ⟨⟨.fin 0, .fin 12, 0, false⟩, ⟨0, 5, false⟩, false, []⟩
        18446744073709551566).state 10 "" =
      .returned (true, "")
        ⟨⟨.fin 0, .fin 12, 0, false⟩, ⟨18446744073709551566, 5, false⟩, false, []⟩ := by
  decide

/-- Counterexample to C28 as stated: a sensor heartbeat of time 501 seen at time 500 is
not older than its timeout, and the sensor task is reported hung, the difference in
`uint64_t` being `2 ^ 64 - 1`, which `%lld` prints as -1. -/
theorem heartbeat_later_than_now_reported_hung :
    are_tasks_healthy
      (update_sensor_heartbeat ⟨⟨.fin 0, .fin 12, 0, false⟩, ⟨500, 500, false⟩, false, []⟩
        501).state 500 "" =
      .returned (false, "TI: Sensor Processor hung (-1 ms)")
        ⟨⟨.fin 0, .fin 12, 0, false⟩, ⟨501, 500, false⟩, false, []⟩ := by
  decide

end safety_watchdog

namespace command_processor

/-! ### The states of the state machine -/

/-- C29: in every state of the processor reached from the constructor by calls, the
SystemState is INITIALIZING, NORMAL_OPERATION or EMERGENCY_STOP, never SAFE_MODE or FAULT:
it is INITIALIZING while the processor is not initialized and NORMAL_OPERATION or
EMERGENCY_STOP once it is.  When `initialize()` returns true the state is
NORMAL_OPERATION, and in every state reached after that the processor is initialized and
its state is NORMAL_OPERATION or EMERGENCY_STOP. -/
theorem state_never_safe_mode_or_fault (calls : List Call) (p : CommandProcessor)
    (hreach : CommandProcessor.new.run calls = some p) :
    (p.current_state_ = .INITIALIZING ∨ p.current_state_ = .NORMAL_OPERATION ∨
      p.current_state_ = .EMERGENCY_STOP) ∧
    p.current_state_ ≠ .SAFE_MODE ∧ p.current_state_ ≠ .FAULT ∧
    (p.initialized_ = false → p.current_state_ = .INITIALIZING) ∧
    (p.initialized_ = true →
      p.current_state_ = .NORMAL_OPERATION ∨ p.current_state_ = .EMERGENCY_STOP) ∧
    (∀ (b w : Bool) (now : TimePoint), ( CommandProcessor.initialize p b w now).1 = true →
      ( CommandProcessor.initialize p b w now).2.current_state_ = .NORMAL_OPERATION ∧
      ∀ (rest : List Call) (q : CommandProcessor),
        ( CommandProcessor.initialize p b w now).2.run rest = some q →
        q.initialized_ = true ∧
        (q.current_state_ = .NORMAL_OPERATION ∨ q.current_state_ = .EMERGENCY_STOP)) := by
  have hun := uninitialized_run calls _ p (fun _ => ⟨rfl, rfl⟩) hreach
  have hop := operating_run calls _ p
    (fun h => by simp [CommandProcessor.new] at h) hreach
  have hcases : p.current_state_ = .INITIALIZING ∨ p.current_state_ = .NORMAL_OPERATION ∨
      p.current_state_ = .EMERGENCY_STOP := by
    cases hi : p.initialized_ with
    | false => exact Or.inl (hun hi).1
    | true => exact Or.inr (hop hi)
  refine ⟨hcases, ?_, ?_, fun hi => (hun hi).1, hop, ?_⟩
  · rcases hcases with h | h | h <;> rw [h] <;> decide
  · rcases hcases with h | h | h <;> rw [h] <;> decide
  · intro b w now hret
    have hpi : p.initialized_ = false := by
      cases hi : p.initialized_ with
      | false => rfl
      | true => simp [ CommandProcessor.initialize, hi] at hret
    have hst : ( CommandProcessor.initialize p b w now).2.current_state_ =
        .NORMAL_OPERATION := by
      simp [ CommandProcessor.initialize, hpi, transition_state_eq, CommandProcessor.log]
    have hin : ( CommandProcessor.initialize p b w now).2.initialized_ = true := by
      simp [ CommandProcessor.initialize, hpi, transition_state_eq, CommandProcessor.log]
    refine ⟨hst, ?_⟩
    intro rest q hq
    exact ⟨initialized_run rest _ q hin hq,
      operating_run rest _ q (fun _ => Or.inl hst) hq (initialized_run rest _ q hin hq)⟩

/-- A processor that is initialized, stopped by `trigger_emergency_stop` and reset: its
state is NORMAL_OPERATION or EMERGENCY_STOP, here NORMAL_OPERATION. -/
theorem state_never_safe_mode_or_fault_witness :
    ((CommandProcessor.new.run
        [.init true true 0, .trigger_emergency_stop, .reset]).getD
          CommandProcessor.new).current_state_ = .NORMAL_OPERATION ∧
    ((CommandProcessor.new.run
        [.init true true 0, .trigger_emergency_stop, .reset]).getD
          CommandProcessor.new).current_state_ ≠ .FAULT :=
  ⟨by decide,
   (state_never_safe_mode_or_fault
      [.init true true 0, .trigger_emergency_stop, .reset]
      ((CommandProcessor.new.run
        [.init true true 0, .trigger_emergency_stop, .reset]).getD
          CommandProcessor.new) rfl).2.2.1⟩

end command_processor

namespace command_processor

/-! ### The statistics of the selector -/

/-- What `select` returns from slots that hold commands of the four real sources has one
of these sources. -/
theorem select_source_real (sel : PrioritySelector) (slot : LatestCommandSlot)
    (now : TimePoint) (c : Command)
    (hreal : ∀ (i : Fin NUM_SOURCES) (c : Command), slot.slots_ i = some c →
      c.source ≠ .NONE)
    (h : (sel.select slot now).1 = some c) : c.source ≠ .NONE := by
  rw [select_fst] at h
  obtain ⟨s, hs⟩ := select_by_priority_some slot now c h
  obtain ⟨_, hlt, hslot⟩ := get_some slot s now c hs
  exact hreal _ c hslot

/-- The selector after `select`, by the command returned. -/
theorem select_snd (sel : PrioritySelector) (slot : LatestCommandSlot) (now : TimePoint) :
    ((sel.select slot now).1 = none →
      (sel.select slot now).2 =
        { active_source_ := .NONE
          stats_ := { sel.stats_ with
            selections_made := u64_inc sel.stats_.selections_made
            no_valid_command_count := u64_inc sel.stats_.no_valid_command_count
            last_selected_source := .NONE } }) ∧
    (∀ c, (sel.select slot now).1 = some c →
      (sel.select slot now).2.active_source_ = c.source ∧
      (sel.select slot now).2.stats_.last_selected_source = c.source ∧
      (sel.select slot now).2.stats_.selections_made =
        u64_inc sel.stats_.selections_made ∧
      (sel.select slot now).2.stats_.no_valid_command_count =
        sel.stats_.no_valid_command_count ∧
      (sel.select slot now).2.stats_.safety_selections =
        (if c.source = .SAFETY then u64_inc sel.stats_.safety_selections
          else sel.stats_.safety_selections) ∧
      (sel.select slot now).2.stats_.manual_selections =
        (if c.source = .MANUAL then u64_inc sel.stats_.manual_selections
          else sel.stats_.manual_selections) ∧
      (sel.select slot now).2.stats_.remote_selections =
        (if c.source = .REMOTE then u64_inc sel.stats_.remote_selections
          else sel.stats_.remote_selections) ∧
      (sel.select slot now).2.stats_.autonomous_selections =
        (if c.source = .AUTONOMOUS then u64_inc sel.stats_.autonomous_selections
          else sel.stats_.autonomous_selections)) := by
  unfold PrioritySelector.select
  cases hsel : PrioritySelector.select_by_priority slot now with
  | none => simp
  | some c0 =>
    refine ⟨fun h => by simp at h, ?_⟩
    intro c hc
    simp only [Option.some.injEq] at hc
    subst hc
    cases hsrc : c0.source <;> simp [hsrc]

/-- One `select()` keeps the counters in step: with `n` selections counted so far, of
which the five counters hold the shares, `n + 1` are counted afterwards. -/
theorem selector_tally_select (sel : PrioritySelector) (slot : LatestCommandSlot)
    (now : TimePoint) (n : Nat)
    (hreal : ∀ (i : Fin NUM_SOURCES) (c : Command), slot.slots_ i = some c →
      c.source ≠ .NONE)
    (h : ∃ a b c d e : Nat, a + b + c + d + e = n ∧
      sel.stats_.safety_selections = a % UINT64_MOD ∧
      sel.stats_.manual_selections = b % UINT64_MOD ∧
      sel.stats_.remote_selections = c % UINT64_MOD ∧
      sel.stats_.autonomous_selections = d % UINT64_MOD ∧
      sel.stats_.no_valid_command_count = e % UINT64_MOD ∧
      sel.stats_.selections_made = n % UINT64_MOD) :
    ∃ a b c d e : Nat, a + b + c + d + e = n + 1 ∧
      (sel.select slot now).2.stats_.safety_selections = a % UINT64_MOD ∧
      (sel.select slot now).2.stats_.manual_selections = b % UINT64_MOD ∧
      (sel.select slot now).2.stats_.remote_selections = c % UINT64_MOD ∧
      (sel.select slot now).2.stats_.autonomous_selections = d % UINT64_MOD ∧
      (sel.select slot now).2.stats_.no_valid_command_count = e % UINT64_MOD ∧
      (sel.select slot now).2.stats_.selections_made = (n + 1) % UINT64_MOD := by
  obtain ⟨a, b, c, d, e, hsum, ha, hb, hc, hd, he, hn⟩ := h
  obtain ⟨hnone, hsome⟩ := select_snd sel slot now
  cases hr : (sel.select slot now).1 with
  | none =>
    refine ⟨a, b, c, d, e + 1, by omega, ?_⟩
    rw [hnone hr]
    simp only [ha, hb, hc, hd, he, hn, u64_inc_mod, and_self]
  | some c0 =>
    obtain ⟨_, _, k1, k2, k3, k4, k5, k6⟩ := hsome c0 hr
    have hne := select_source_real sel slot now c0 hreal hr
    rw [k1, k2, k3, k4, k5, k6, ha, hb, hc, hd, he, hn]
    cases hsrc : c0.source with
    | SAFETY =>
      exact ⟨a + 1, b, c, d, e, by omega, by simp [u64_inc_mod]⟩
    | MANUAL =>
      exact ⟨a, b + 1, c, d, e, by omega, by simp [u64_inc_mod]⟩
    | REMOTE =>
      exact ⟨a, b, c + 1, d, e, by omega, by simp [u64_inc_mod]⟩
    | AUTONOMOUS =>
      exact ⟨a, b, c, d + 1, e, by omega, by simp [u64_inc_mod]⟩
    | NONE => exact absurd hsrc hne

/-- The counters after a sequence of `select()` and `reset_statistics()` calls. -/
theorem selector_tally_run (calls : List SelectorCall) :
    ∀ (sel : PrioritySelector) (n : Nat),
      (∀ (slot : LatestCommandSlot) (now : TimePoint),
        SelectorCall.select slot now ∈ calls →
        ∀ (i : Fin NUM_SOURCES) (c : Command), slot.slots_ i = some c →
          c.source ≠ .NONE) →
      (∃ a b c d e : Nat, a + b + c + d + e = n ∧
        sel.stats_.safety_selections = a % UINT64_MOD ∧
        sel.stats_.manual_selections = b % UINT64_MOD ∧
        sel.stats_.remote_selections = c % UINT64_MOD ∧
        sel.stats_.autonomous_selections = d % UINT64_MOD ∧
        sel.stats_.no_valid_command_count = e % UINT64_MOD ∧
        sel.stats_.selections_made = n % UINT64_MOD) →
      ∃ a b c d e : Nat, a + b + c + d + e = selections_since_reset n calls ∧
        (sel.run calls).stats_.safety_selections = a % UINT64_MOD ∧
        (sel.run calls).stats_.manual_selections = b % UINT64_MOD ∧
        (sel.run calls).stats_.remote_selections = c % UINT64_MOD ∧
        (sel.run calls).stats_.autonomous_selections = d % UINT64_MOD ∧
        (sel.run calls).stats_.no_valid_command_count = e % UINT64_MOD ∧
        (sel.run calls).stats_.selections_made =
          selections_since_reset n calls % UINT64_MOD := by
  induction calls with
  | nil => intro sel n _ h; exact h
  | cons call rest ih =>
    intro sel n hreal h
    have hrest : ∀ (slot : LatestCommandSlot) (now : TimePoint),
        SelectorCall.select slot now ∈ rest →
        ∀ (i : Fin NUM_SOURCES) (c : Command), slot.slots_ i = some c →
          c.source ≠ .NONE :=
      fun slot now hm => hreal slot now (List.mem_cons_of_mem _ hm)
    cases call with
    | select slot now =>
      exact ih _ (n + 1) hrest
        (selector_tally_select sel slot now n
          (hreal slot now (List.mem_cons_self _ _)) h)
    | reset_statistics =>
      exact ih _ 0 hrest ⟨0, 0, 0, 0, 0, rfl, rfl, rfl, rfl, rfl, rfl, rfl⟩

/-- C30: after any sequence of `select()` and `reset_statistics()` calls on a selector, the
slots holding commands of the four real sources, `selections_made` is the sum of the five
other counters, the counters being 64-bit (the sum is taken modulo `2 ^ 64`, and it is the
plain sum while fewer than `2 ^ 64` selections were made since the statistics were last
zeroed, `selections_made` being their number).  Each `select()` adds 1 to
`selections_made` and to exactly one of the other five counters: to the one of the source
of the returned command, or to `no_valid_command_count` when it returned empty; and after
it `last_selected_source` and `get_active_source()` are that source, or NONE when it
returned empty. -/
theorem selector_statistics_add_up (calls : List SelectorCall)
    (hreal : ∀ (slot : LatestCommandSlot) (now : TimePoint),
      SelectorCall.select slot now ∈ calls →
      ∀ (i : Fin NUM_SOURCES) (c : Command), slot.slots_ i = some c → c.source ≠ .NONE) :
    (PrioritySelector.new.run calls).stats_.selections_made =
      ((PrioritySelector.new.run calls).stats_.safety_selections +
        (PrioritySelector.new.run calls).stats_.manual_selections +
        (PrioritySelector.new.run calls).stats_.remote_selections +
        (PrioritySelector.new.run calls).stats_.autonomous_selections +
        (PrioritySelector.new.run calls).stats_.no_valid_command_count) % UINT64_MOD ∧
    (PrioritySelector.new.run calls).stats_.selections_made =
      selections_since_reset 0 calls % UINT64_MOD ∧
    (selections_since_reset 0 calls < UINT64_MOD →
      (PrioritySelector.new.run calls).stats_.selections_made =
        (PrioritySelector.new.run calls).stats_.safety_selections +
        (PrioritySelector.new.run calls).stats_.manual_selections +
        (PrioritySelector.new.run calls).stats_.remote_selections +
        (PrioritySelector.new.run calls).stats_.autonomous_selections +
        (PrioritySelector.new.run calls).stats_.no_valid_command_count) ∧
    (∀ (slot : LatestCommandSlot) (now : TimePoint),
      (∀ (i : Fin NUM_SOURCES) (c : Command), slot.slots_ i = some c →
        c.source ≠ .NONE) →
      ((PrioritySelector.new.run calls).select slot now).2.stats_.selections_made =
        u64_inc (PrioritySelector.new.run calls).stats_.selections_made ∧
      (((PrioritySelector.new.run calls).select slot now).1 = none →
        ((PrioritySelector.new.run calls).select slot now).2.stats_ =
          { (PrioritySelector.new.run calls).stats_ with
            selections_made := u64_inc (PrioritySelector.new.run calls).stats_.selections_made
            no_valid_command_count :=
              u64_inc (PrioritySelector.new.run calls).stats_.no_valid_command_count
            last_selected_source := .NONE } ∧
        ((PrioritySelector.new.run calls).select slot now).2.get_active_source = .NONE) ∧
      (∀ c, ((PrioritySelector.new.run calls).select slot now).1 = some c →
        c.source ≠ .NONE ∧
        ((PrioritySelector.new.run calls).select slot now).2.get_active_source =
          c.source ∧
        ((PrioritySelector.new.run calls).select slot now).2.stats_.last_selected_source =
          c.source ∧
        ((PrioritySelector.new.run calls).select slot now).2.stats_.no_valid_command_count =
          (PrioritySelector.new.run calls).stats_.no_valid_command_count ∧
        ((PrioritySelector.new.run calls).select slot now).2.stats_.safety_selections =
          (if c.source = .SAFETY then
            u64_inc (PrioritySelector.new.run calls).stats_.safety_selections
          else (PrioritySelector.new.run calls).stats_.safety_selections) ∧
        ((PrioritySelector.new.run calls).select slot now).2.stats_.manual_selections =
          (if c.source = .MANUAL then
            u64_inc (PrioritySelector.new.run calls).stats_.manual_selections
          else (PrioritySelector.new.run calls).stats_.manual_selections) ∧
        ((PrioritySelector.new.run calls).select slot now).2.stats_.remote_selections =
          (if c.source = .REMOTE then
            u64_inc (PrioritySelector.new.run calls).stats_.remote_selections
          else (PrioritySelector.new.run calls).stats_.remote_selections) ∧
        ((PrioritySelector.new.run calls).select slot now).2.stats_.autonomous_selections =
          (if c.source = .AUTONOMOUS then
            u64_inc (PrioritySelector.new.run calls).stats_.autonomous_selections
          else (PrioritySelector.new.run calls).stats_.autonomous_selections))) := by
  obtain ⟨a, b, c, d, e, hsum, ha, hb, hc, hd, he, hn⟩ :=
    selector_tally_run calls PrioritySelector.new 0 hreal
      ⟨0, 0, 0, 0, 0, rfl, rfl, rfl, rfl, rfl, rfl, rfl⟩
  refine ⟨?_, hn, ?_, ?_⟩
  · rw [hn, ha, hb, hc, hd, he, ← hsum]
    unfold UINT64_MOD
    omega
  · intro hlt
    rw [hn, ha, hb, hc, hd, he, ← hsum]
    rw [← hsum] at hlt
    unfold UINT64_MOD at hlt ⊢
    omega
  · intro slot now hslot
    obtain ⟨hnone, hsome⟩ := select_snd (PrioritySelector.new.run calls) slot now
    refine ⟨?_, ?_, ?_⟩
    · cases hr : ((PrioritySelector.new.run calls).select slot now).1 with
      | none => rw [hnone hr]
      | some c0 => exact (hsome c0 hr).2.2.1
    · intro hr
      rw [hnone hr]
      exact ⟨rfl, rfl⟩
    · intro c0 hr
      obtain ⟨k0, k1, _, k3, k4, k5, k6, k7⟩ := hsome c0 hr
      exact ⟨select_source_real _ slot now c0 hslot hr, k0, k1, k3, k4, k5, k6, k7⟩

/-- Two selections, the first of a fresh MANUAL command and the second from empty slots,
then a reset of the statistics and a selection of a fresh SAFETY command: one selection is
counted, and the source last selected is SAFETY. -/
theorem selector_statistics_add_up_witness :
    (PrioritySelector.new.run
      [.select (LatestCommandSlot.new.run
          [.store ⟨.MANUAL, 1, 0, ⟨.fin 1, .fin 3, .fin 0, false⟩⟩]) 1000000,
        .select (LatestCommandSlot.new.run []) 2000000,
        .reset_statistics,
        .select (LatestCommandSlot.new.run
          [.store ⟨.SAFETY, 1, 0, ⟨.fin 0, .fin 0, .fin 0, true⟩⟩]) 3000000]).stats_ =
      { selections_made := 1, safety_selections := 1, manual_selections := 0,
        remote_selections := 0, autonomous_selections := 0, no_valid_command_count := 0,
        last_selected_source := .SAFETY } ∧
    (PrioritySelector.new.run
      [.select (LatestCommandSlot.new.run
          [.store ⟨.MANUAL, 1, 0, ⟨.fin 1, .fin 3, .fin 0, false⟩⟩]) 1000000,
        .select (LatestCommandSlot.new.run []) 2000000,
        .reset_statistics,
        .select (LatestCommandSlot.new.run
          [.store ⟨.SAFETY, 1, 0, ⟨.fin 0, .fin 0, .fin 0, true⟩⟩]) 3000000]).stats_.selections_made =
      1 % UINT64_MOD := by
  refine ⟨by decide, ?_⟩
  refine (selector_statistics_add_up _ ?_).2.1
  intro slot now hm i c hc
  simp only [List.mem_cons, SelectorCall.select.injEq, List.mem_singleton, List.not_mem_nil,
    or_false, false_or, reduceCtorEq] at hm
  rcases hm with ⟨rfl, _⟩ | ⟨rfl, _⟩ | ⟨rfl, _⟩
  · exact source_ne_NONE_of_index c i (slot_source_run _ LatestCommandSlot.new
      (by intro i c hc; simp [LatestCommandSlot.new] at hc) i c hc)
  · exact source_ne_NONE_of_index c i (slot_source_run _ LatestCommandSlot.new
      (by intro i c hc; simp [LatestCommandSlot.new] at hc) i c hc)
  · exact source_ne_NONE_of_index c i (slot_source_run _ LatestCommandSlot.new
      (by intro i c hc; simp [LatestCommandSlot.new] at hc) i c hc)

end command_processor
